import Mathlib

/-!
# ExeliusEngine: the resource manager

A shallow embedding of `Exelius/Source/Resource/ResourceManager.cpp`, of the sort of the render
commands in `render/RenderManager.cpp` and of the sprite sheet decoder in
`resourcetypes/SpritesheetResource.cpp`.

* The manager is a record of its members; every member function becomes a function from the
  record to the record after the call.  `EXE_ASSERT(resourceID.IsValid())` is kept: a call
  whose assertion fails has no result (`none`).
* The model is of an initialised manager (`Initialize` has run, so the factory pointer is set
  and the loader thread is joinable for the whole lifetime of the record).
* The storage backend, the factory and the decoders are collaborators of the manager and are
  passed in as a record of functions.
* The manager's calls to its collaborators (storage read, factory, decode, listener callback,
  condition variable) are written to a ghost `trace`, oldest first, so that "is invoked",
  "is read" and "is decoded" are statements about the state.
* The loader thread is modelled at the grain of one wake-up of its loop: a whole drain pass is
  one step, run between two calls of the public interface.
* A decoder and a listener may call the manager while the manager calls them.  The first
  definitions take the decoder as a function of the bytes and the call of a listener as an event;
  the definitions of `Reentrant` hand the manager to the code called back
  (`SpritesheetResource::Load`, `GameObject::OnResourceLoaded`) and go on with the manager it
  leaves.  With code that makes no call on the manager the two agree.
* The destructor waits for the loader thread on a condition variable without predicate; whether
  the signal of the loader thread reaches that wait is a parameter, and without it the destructor
  has no result.
* `Log` calls have no effect on the manager and are left out.
* The sort of the render commands is a function on lists; `eastl::sort` is any function that
  keeps its promise, `eastl::stable_sort` the one stable sort there is.  The coordinates are
  integers in the first definitions and floats (binary32, with rounding, infinities and values
  that are not numbers) in the definitions of `Floating`.
* The sprite sheet decoder works on the document `rapidjson` parsed; the parser is passed in.
  Its calls through `ResourceHandle` are calls of the manager, on the manager passed in.
-/

namespace Exelius

/-- Logical path of a resource; the key of the resource database. -/
abbrev ResourceID := String

/-- Raw file data (`eastl::vector<std::byte>`), one number per byte. -/
abbrev Bytes := List Nat

/-- Modelled from the spec: `ResourceLoadStatus` (its header is not among the sources).  The
source names `kLoaded` and `kLoading`; the spec gives the four states of the cycle
`Unloaded → Loading → Loaded → Unloading → Unloaded`. -/
inductive ResourceLoadStatus where
  | kUnloaded
  | kUnloading
  | kLoading
  | kLoaded
  deriving DecidableEq, Repr

/-- Modelled from the spec: `Resource::LoadResult` (`Resource.h` is not among the sources).  The
source names `kFailed` and `kKeptRawData`; the spec gives the tri-state
`{Loaded, KeptRawData, Failed}`. -/
inductive LoadResult where
  | kFailed
  | kKeptRawData
  | kLoaded
  deriving DecidableEq, Repr

/-- Modelled from the spec: a decoded resource (`Resource.h` is not among the sources): the
identifier it was created for and whatever its decoder produced. -/
structure Resource where
  id : ResourceID
  contents : Bytes
  deriving DecidableEq, Repr

/-- A `ResourceListenerPtr` (`eastl::weak_ptr<ResourceListener>`): the listener it points to and
what `expired()` answers.  A pointer that was never set (the default argument) is expired. -/
structure ResourceListenerPtr where
  target : Nat
  expired : Bool
  deriving DecidableEq, Repr

/-- The default `ResourceListenerPtr()` argument: no listener. -/
def ResourceListenerPtr.null : ResourceListenerPtr := { target := 0, expired := true }

/-- Modelled from the spec: a `ResourceEntry` (its header is not among the sources), with the
attributes of the spec's data model: `status`, `referenceCount`, `lockCount` (both `≥ 0`) and the
owned `payload`. -/
structure ResourceEntry where
  status : ResourceLoadStatus
  referenceCount : Nat
  lockCount : Nat
  payload : Option Resource
  deriving DecidableEq, Repr

namespace ResourceEntry

/-- Modelled from the spec: the entry `createEntry` makes on the first request for an identifier:
the start of the status cycle, no references, no pins, no payload. -/
def fresh : ResourceEntry :=
  { status := ResourceLoadStatus.kUnloaded, referenceCount := 0, lockCount := 0, payload := none }

/-- Modelled from the spec: `ResourceEntry::DecrementRefCount` (not among the sources).  The count
goes down by one, clamped at zero; the answer says whether the entry is now to be unloaded:
"`referenceCount` reaching zero while `lockCount == 0` makes the entry eligible for unload;
`lockCount > 0` suppresses unload regardless of `referenceCount`". -/
def DecrementRefCount (e : ResourceEntry) : ResourceEntry × Bool :=
  let e1 := { e with referenceCount := e.referenceCount - 1 }
  (e1, e1.referenceCount == 0 && e1.lockCount == 0)

/-- Modelled from the spec: `ResourceEntry::IncrementLockCount` (not among the sources):
"increment the pin count". -/
def IncrementLockCount (e : ResourceEntry) : ResourceEntry :=
  { e with lockCount := e.lockCount + 1 }

/-- Modelled from the spec: `ResourceEntry::DecrementLockCount` (not among the sources):
"decrement the pin count", which stays `≥ 0`. -/
def DecrementLockCount (e : ResourceEntry) : ResourceEntry :=
  { e with lockCount := e.lockCount - 1 }

/-- Modelled from the spec: `ResourceEntry::SetResource` (not among the sources): installs the
payload. -/
def SetResource (e : ResourceEntry) (pResource : Resource) : ResourceEntry :=
  { e with payload := some pResource }

/-- Modelled from the spec: what the registry's `unload` does to an entry: "drops payload,
transitions to Unloaded". -/
def unloaded (e : ResourceEntry) : ResourceEntry :=
  { e with status := ResourceLoadStatus.kUnloaded, payload := none }

end ResourceEntry

/-- Modelled from the spec: the `ResourceDatabase` (its source is not among the sources):
"a single mapping from identifier to entry", kept as the list of its (identifier, entry) pairs. -/
abbrev ResourceDatabase := List (ResourceID × ResourceEntry)

namespace ResourceDatabase

/-- Modelled from the spec: `find(id) -> Entry?` (`ResourceDatabase::GetEntry`, not among the
sources): the entry stored for the identifier, if any. -/
def GetEntry : ResourceDatabase → ResourceID → Option ResourceEntry
  | [], _ => none
  | (key, entry) :: rest, resourceID =>
    if key = resourceID then some entry else GetEntry rest resourceID

/-- Modelled from the spec: `ResourceDatabase::IsFound` (not among the sources): whether `find`
has an entry. -/
def IsFound (db : ResourceDatabase) (resourceID : ResourceID) : Bool :=
  (GetEntry db resourceID).isSome

/-- Modelled from the spec: `createEntry(id)` (not among the sources): adds a new entry for the
identifier.  It does not look for an older one: the manager does, before it calls. -/
def CreateEntry (db : ResourceDatabase) (resourceID : ResourceID) : ResourceDatabase :=
  (resourceID, ResourceEntry.fresh) :: db

/-- The entry of an identifier replaced by `f` of it; a database without the identifier is left
as it is. -/
def modifyEntry :
    ResourceDatabase → ResourceID → (ResourceEntry → ResourceEntry) → ResourceDatabase
  | [], _, _ => []
  | (key, entry) :: rest, resourceID, f =>
    if key = resourceID then (key, f entry) :: modifyEntry rest resourceID f
    else (key, entry) :: modifyEntry rest resourceID f

/-- Modelled from the spec: `ResourceDatabase::GetLoadStatus` (not among the sources): the status
of the identifier's entry; an identifier without entry has none. -/
def GetLoadStatus (db : ResourceDatabase) (resourceID : ResourceID) : Option ResourceLoadStatus :=
  (GetEntry db resourceID).map (fun e => e.status)

/-- Modelled from the spec: `setStatus(id, status)` (not among the sources). -/
def SetLoadStatus (db : ResourceDatabase) (resourceID : ResourceID)
    (status : ResourceLoadStatus) : ResourceDatabase :=
  modifyEntry db resourceID (fun e => { e with status := status })

/-- Modelled from the spec: `unload(id)` (not among the sources): "drops payload, transitions to
Unloaded, fails silently if entry absent". -/
def Unload (db : ResourceDatabase) (resourceID : ResourceID) : ResourceDatabase :=
  modifyEntry db resourceID ResourceEntry.unloaded

end ResourceDatabase

/-- The `ListenersMap` (`unordered_map<ResourceID, vector<ResourceListenerPtr>>`).  The manager
reaches it through `operator[]` only, which makes an empty vector for a new key, so the map is the
function from a key to its vector. -/
abbrev ListenersMap := ResourceID → List ResourceListenerPtr

namespace ListenersMap

/-- The map after `clear()`, also the map a default constructor makes. -/
def empty : ListenersMap := fun _ => []

/-- The map with the vector of one key replaced. -/
def set (m : ListenersMap) (resourceID : ResourceID) (ls : List ResourceListenerPtr) :
    ListenersMap :=
  fun k => if k = resourceID then ls else m k

/-- The map after `m[resourceID].emplace_back(pListener)`. -/
def emplaceBack (m : ListenersMap) (resourceID : ResourceID) (pListener : ResourceListenerPtr) :
    ListenersMap :=
  set m resourceID (m resourceID ++ [pListener])

end ListenersMap

/-- What the manager does to the world outside it, in the order it does it. -/
inductive Event where
  /-- The storage backend is asked for the bytes of an identifier (`LoadRawData`). -/
  | storageRead (resourceID : ResourceID)
  /-- The factory is asked for a resource (`m_pResourceFactory->CreateResource`). -/
  | factoryCreate (resourceID : ResourceID)
  /-- The created resource decodes the bytes (`pResource->Load`). -/
  | decode (resourceID : ResourceID)
  /-- The call `listener.lock()->OnResourceLoaded(resourceID)`. -/
  | onResourceLoaded (listener : ResourceListenerPtr) (resourceID : ResourceID)
  /-- The call `m_signalThread.notify_one()`. -/
  | notifyOne
  deriving DecidableEq, Repr

/-- The collaborators of the manager, none of them among the sources: the validity test of
`ResourceID`, the file system behind `LoadFromDisk` (`none`: the file cannot be opened), the
`ResourceFactory` (`none`: `nullptr`) and the decoders (`Resource::Load`, which answers with a
`LoadResult` and leaves the resource decoded). -/
structure Collaborators where
  IsValid : ResourceID → Bool
  readFile : ResourceID → Option Bytes
  CreateResource : ResourceID → Option Resource
  Load : Resource → Bytes → LoadResult × Resource

/-- The members of `ResourceManager`, the locals of the loader thread that live across its
passes (`processingResourceListenersMap`; `processingQueue` is empty whenever the thread waits),
and the ghost trace. -/
structure ResourceManager where
  m_resourceDatabase : ResourceDatabase
  m_deferredQueue : List ResourceID
  m_deferredResourceListenersMap : ListenersMap
  m_quitThread : Bool
  m_useRawAssets : Bool
  processingResourceListenersMap : ListenersMap
  trace : List Event

namespace ResourceManager

/-- The manager right after `Initialize`: nothing in the database, nothing queued, no listener. -/
def Initialize (useRawAssets : Bool) : ResourceManager :=
  { m_resourceDatabase := []
    m_deferredQueue := []
    m_deferredResourceListenersMap := ListenersMap.empty
    m_quitThread := false
    m_useRawAssets := useRawAssets
    processingResourceListenersMap := ListenersMap.empty
    trace := [] }

/-- One more event at the end of the trace. -/
def record (s : ResourceManager) (e : Event) : ResourceManager :=
  { s with trace := s.trace ++ [e] }

/-- The lines `if (!pListener.expired()) pListener.lock()->OnResourceLoaded(resourceID);`. -/
def notifyListener (s : ResourceManager) (pListener : ResourceListenerPtr)
    (resourceID : ResourceID) : ResourceManager :=
  if !pListener.expired then s.record (Event.onResourceLoaded pListener resourceID) else s

/-- The function `ResourceManager::SignalLoaderThread`. -/
def SignalLoaderThread (s : ResourceManager) : ResourceManager :=
  s.record Event.notifyOne

/-- The function `ResourceManager::LoadFromDisk`: the bytes of the file, none when it cannot be opened. -/
def LoadFromDisk (env : Collaborators) (resourceID : ResourceID) : Bytes :=
  match env.readFile resourceID with
  | none => []
  | some data => data

/-- The function `ResourceManager::LoadFromZip`: the body is commented out and returns an empty vector. -/
def LoadFromZip (_env : Collaborators) (_resourceID : ResourceID) : Bytes :=
  []

/-- The function `ResourceManager::LoadRawData`. -/
def LoadRawData (env : Collaborators) (s : ResourceManager) (resourceID : ResourceID) :
    Option Bytes :=
  if !env.IsValid resourceID then none
  else if s.m_useRawAssets then some (LoadFromDisk env resourceID)
  else some (LoadFromZip env resourceID)

/-- The three places of `LoadResource` that give up: `m_resourceDatabase.Unload(resourceID)`. -/
def unloadEntry (s : ResourceManager) (resourceID : ResourceID) : ResourceManager :=
  { s with m_resourceDatabase := s.m_resourceDatabase.Unload resourceID }

/-- The function `ResourceManager::LoadResource`.  `GetEntry(resourceID)->SetResource(pResource)` on an
identifier without entry dereferences a null pointer: no result. -/
def LoadResource (env : Collaborators) (s : ResourceManager) (resourceID : ResourceID) :
    Option ResourceManager :=
  if !env.IsValid resourceID then none
  else
    match LoadRawData env s resourceID with
    | none => none
    | some rawData =>
      let s1 := s.record (Event.storageRead resourceID)
      if rawData.isEmpty then some (s1.unloadEntry resourceID)
      else
        let s2 := s1.record (Event.factoryCreate resourceID)
        match env.CreateResource resourceID with
        | none => some (s2.unloadEntry resourceID)
        | some pResource =>
          let s3 := s2.record (Event.decode resourceID)
          if (env.Load pResource rawData).1 != LoadResult.kFailed then
            match s3.m_resourceDatabase.GetEntry resourceID with
            | none => none
            | some _ =>
              some { s3 with
                m_resourceDatabase :=
                  ((s3.m_resourceDatabase.modifyEntry resourceID
                      (fun e => e.SetResource (env.Load pResource rawData).2)).SetLoadStatus
                    resourceID ResourceLoadStatus.kLoaded) }
          else some (s3.unloadEntry resourceID)

/-- The end of `QueueLoad`, after the `if`: mark the entry Loading, queue the identifier, signal
the loader thread if asked to. -/
def queueLoadTail (s : ResourceManager) (resourceID : ResourceID) (signalLoaderThread : Bool) :
    ResourceManager :=
  let s1 := { s with
    m_resourceDatabase :=
      s.m_resourceDatabase.SetLoadStatus resourceID ResourceLoadStatus.kLoading }
  let s2 := { s1 with m_deferredQueue := s1.m_deferredQueue ++ [resourceID] }
  if signalLoaderThread then s2.SignalLoaderThread else s2

/-- The function `ResourceManager::QueueLoad`. -/
def QueueLoad (env : Collaborators) (s : ResourceManager) (resourceID : ResourceID)
    (signalLoaderThread : Bool) (pListener : ResourceListenerPtr) : Option ResourceManager :=
  if !env.IsValid resourceID then none
  else if !s.m_resourceDatabase.IsFound resourceID then
    let s1 := { s with m_resourceDatabase := s.m_resourceDatabase.CreateEntry resourceID }
    let s2 := { s1 with
      m_deferredResourceListenersMap :=
        s1.m_deferredResourceListenersMap.emplaceBack resourceID pListener }
    some (s2.queueLoadTail resourceID signalLoaderThread)
  else if s.m_resourceDatabase.GetLoadStatus resourceID = some ResourceLoadStatus.kLoaded
      || s.m_resourceDatabase.GetLoadStatus resourceID = some ResourceLoadStatus.kLoading then
    some (s.notifyListener pListener resourceID)
  else
    let s1 := { s with
      m_deferredResourceListenersMap :=
        s.m_deferredResourceListenersMap.emplaceBack resourceID pListener }
    some (s1.queueLoadTail resourceID signalLoaderThread)

/-- The end of `LoadNow`, after the `if`: mark the entry Loading, load it on the calling thread,
then call the listener if there is one. -/
def loadNowTail (env : Collaborators) (s : ResourceManager) (resourceID : ResourceID)
    (pListener : ResourceListenerPtr) : Option ResourceManager :=
  let s1 := { s with
    m_resourceDatabase :=
      s.m_resourceDatabase.SetLoadStatus resourceID ResourceLoadStatus.kLoading }
  match LoadResource env s1 resourceID with
  | none => none
  | some s2 => some (s2.notifyListener pListener resourceID)

/-- The function `ResourceManager::LoadNow`. -/
def LoadNow (env : Collaborators) (s : ResourceManager) (resourceID : ResourceID)
    (pListener : ResourceListenerPtr) : Option ResourceManager :=
  if !env.IsValid resourceID then none
  else if !s.m_resourceDatabase.IsFound resourceID then
    loadNowTail env
      { s with m_resourceDatabase := s.m_resourceDatabase.CreateEntry resourceID }
      resourceID pListener
  else if s.m_resourceDatabase.GetLoadStatus resourceID = some ResourceLoadStatus.kLoaded
      || s.m_resourceDatabase.GetLoadStatus resourceID = some ResourceLoadStatus.kLoading then
    some s
  else loadNowTail env s resourceID pListener

/-- The function `ResourceManager::ReleaseResource`. -/
def ReleaseResource (env : Collaborators) (s : ResourceManager) (resourceID : ResourceID) :
    Option ResourceManager :=
  if !env.IsValid resourceID then none
  else
    match s.m_resourceDatabase.GetEntry resourceID with
    | none => some s
    | some pResourceEntry =>
      let db1 := s.m_resourceDatabase.modifyEntry resourceID
        (fun e => e.DecrementRefCount.1)
      if pResourceEntry.DecrementRefCount.2 then
        some { s with m_resourceDatabase := db1.Unload resourceID }
      else some { s with m_resourceDatabase := db1 }

/-- The function `ResourceManager::ReloadResource`. -/
def ReloadResource (env : Collaborators) (s : ResourceManager) (resourceID : ResourceID)
    (forceLoad : Bool) (pListener : ResourceListenerPtr) : Option ResourceManager :=
  if !env.IsValid resourceID then none
  else if s.m_resourceDatabase.GetLoadStatus resourceID ≠ some ResourceLoadStatus.kLoaded then
    if forceLoad then LoadNow env s resourceID pListener
    else QueueLoad env s resourceID true pListener
  else
    let s1 := { s with m_resourceDatabase := s.m_resourceDatabase.Unload resourceID }
    if forceLoad then LoadNow env s1 resourceID pListener
    else QueueLoad env s1 resourceID true pListener

/-- The function `ResourceManager::GetResource`: the payload pointer of the entry (none for
`nullptr`) and the manager after the call.  The inner call `GetResource(resourceID, false)` is
unfolded in place. -/
def GetResource (env : Collaborators) (s : ResourceManager) (resourceID : ResourceID)
    (forceLoad : Bool) : Option (Option Resource × ResourceManager) :=
  if !env.IsValid resourceID then none
  else
    match s.m_resourceDatabase.GetEntry resourceID with
    | none =>
      if forceLoad then
        match LoadNow env s resourceID ResourceListenerPtr.null with
        | none => none
        | some s1 =>
          match s1.m_resourceDatabase.GetEntry resourceID with
          | none => some (none, s1)
          | some pResourceEntry => some (pResourceEntry.payload, s1)
      else some (none, s)
    | some pResourceEntry => some (pResourceEntry.payload, s)

/-- The function `ResourceManager::LockResource`. -/
def LockResource (env : Collaborators) (s : ResourceManager) (resourceID : ResourceID) :
    Option ResourceManager :=
  if !env.IsValid resourceID then none
  else
    match s.m_resourceDatabase.GetEntry resourceID with
    | none => some s
    | some _ =>
      some { s with
        m_resourceDatabase :=
          s.m_resourceDatabase.modifyEntry resourceID ResourceEntry.IncrementLockCount }

/-- The function `ResourceManager::UnlockResource`. -/
def UnlockResource (env : Collaborators) (s : ResourceManager) (resourceID : ResourceID) :
    Option ResourceManager :=
  if !env.IsValid resourceID then none
  else
    match s.m_resourceDatabase.GetEntry resourceID with
    | none => some s
    | some _ =>
      some { s with
        m_resourceDatabase :=
          s.m_resourceDatabase.modifyEntry resourceID ResourceEntry.DecrementLockCount }

/-- The loop `for (auto& listener : processingResourceListenersMap[front])` of the loader
thread: every listener that has not expired is called, in the order of the vector. -/
def notifyListeners (resourceID : ResourceID) :
    List ResourceListenerPtr → ResourceManager → ResourceManager
  | [], s => s
  | listener :: rest, s =>
    notifyListeners resourceID rest
      (if listener.expired then s else s.record (Event.onResourceLoaded listener resourceID))

/-- The loop `while (!processingQueue.empty())` of the loader thread, on the processing queue
given: load the front, call its listeners, clear its vector, pop it. -/
def processQueue (env : Collaborators) : List ResourceID → ResourceManager → Option ResourceManager
  | [], s => some s
  | front :: rest, s =>
    match LoadResource env s front with
    | none => none
    | some s1 =>
      let s2 := notifyListeners front (s1.processingResourceListenersMap front) s1
      processQueue env rest
        { s2 with
          processingResourceListenersMap := s2.processingResourceListenersMap.set front [] }

/-- One wake-up of the loop of `ProcessResourceQueueThreaded`.  With the quit flag set the thread
leaves the loop and signals once more; with nothing queued it goes on waiting; otherwise it swaps
the deferred queue and the listener map for its own, drains the queue and signals. -/
def ProcessResourceQueueThreaded (env : Collaborators) (s : ResourceManager) :
    Option ResourceManager :=
  if s.m_quitThread then some (s.record Event.notifyOne)
  else if s.m_deferredQueue.isEmpty then some s
  else
    let s1 := { s with
      m_deferredQueue := []
      m_deferredResourceListenersMap := s.processingResourceListenersMap
      processingResourceListenersMap := s.m_deferredResourceListenersMap }
    match processQueue env s.m_deferredQueue s1 with
    | none => none
    | some s2 => some (s2.record Event.notifyOne)

/-- A run of `QueueLoad` calls, one after the other, each a (identifier, signal, listener)
triple. -/
def queueLoads (env : Collaborators) :
    List (ResourceID × Bool × ResourceListenerPtr) → ResourceManager → Option ResourceManager
  | [], s => some s
  | (resourceID, signalLoaderThread, pListener) :: rest, s =>
    match QueueLoad env s resourceID signalLoaderThread pListener with
    | none => none
    | some s1 => queueLoads env rest s1

end ResourceManager

/-! ## Reading the trace -/

/-- The identifiers whose bytes were asked of the storage backend, in the order of the reads. -/
def storageReads : List Event → List ResourceID
  | [] => []
  | Event.storageRead resourceID :: rest => resourceID :: storageReads rest
  | _ :: rest => storageReads rest

/-- The identifiers the factory was asked to create a resource for, in order. -/
def factoryCreates : List Event → List ResourceID
  | [] => []
  | Event.factoryCreate resourceID :: rest => resourceID :: factoryCreates rest
  | _ :: rest => factoryCreates rest

/-- The identifiers whose bytes were decoded, in order. -/
def decodes : List Event → List ResourceID
  | [] => []
  | Event.decode resourceID :: rest => resourceID :: decodes rest
  | _ :: rest => decodes rest

/-- The `OnResourceLoaded` calls of the trace, in order: who was called, and for which
identifier. -/
def listenerCalls : List Event → List (ResourceListenerPtr × ResourceID)
  | [] => []
  | Event.onResourceLoaded listener resourceID :: rest =>
    (listener, resourceID) :: listenerCalls rest
  | _ :: rest => listenerCalls rest

/-- The bytes `LoadRawData` returns for a valid identifier. -/
def rawDataOf (env : Collaborators) (useRawAssets : Bool) (resourceID : ResourceID) : Bytes :=
  if useRawAssets then ResourceManager.LoadFromDisk env resourceID
  else ResourceManager.LoadFromZip env resourceID

/-- The resource a load installs: there is one when the bytes read are not empty, the factory
made a resource and its decode did not answer `kFailed`. -/
def decodedResource (env : Collaborators) (rawData : Bytes) (resourceID : ResourceID) :
    Option Resource :=
  if rawData.isEmpty then none
  else
    match env.CreateResource resourceID with
    | none => none
    | some pResource =>
      if (env.Load pResource rawData).1 != LoadResult.kFailed then
        some (env.Load pResource rawData).2
      else none

/-- The events of one load: the read, then the factory if the read was not empty, then the decode
if the factory made a resource. -/
def loadEvents (env : Collaborators) (rawData : Bytes) (resourceID : ResourceID) : List Event :=
  if rawData.isEmpty then [Event.storageRead resourceID]
  else
    match env.CreateResource resourceID with
    | none => [Event.storageRead resourceID, Event.factoryCreate resourceID]
    | some _ =>
      [Event.storageRead resourceID, Event.factoryCreate resourceID, Event.decode resourceID]

/-! ## What one drain pass comes to -/

/-- The events of the listener loop of the loader thread: one call for every listener of the
vector that has not expired, in the order of the vector. -/
def notifyEvents (resourceID : ResourceID) : List ResourceListenerPtr → List Event
  | [] => []
  | listener :: rest =>
    if listener.expired then notifyEvents resourceID rest
    else Event.onResourceLoaded listener resourceID :: notifyEvents resourceID rest

/-- The events of the drain of a processing queue, given the listener map the loader thread holds
at its start: for every identifier in turn, the events of its load, then the calls of its
listeners; its vector is cleared before the next identifier. -/
def drainEvents (env : Collaborators) (useRawAssets : Bool) :
    ListenersMap → List ResourceID → List Event
  | _, [] => []
  | m, front :: rest =>
    loadEvents env (rawDataOf env useRawAssets front) front
      ++ notifyEvents front (m front)
      ++ drainEvents env useRawAssets (m.set front []) rest

/-- The entry one load leaves, from the entry it found: unloaded when the load gives up, with the
decoded resource installed and marked Loaded when it decodes. -/
def loadedEntry (env : Collaborators) (rawData : Bytes) (resourceID : ResourceID)
    (e : ResourceEntry) : ResourceEntry :=
  match decodedResource env rawData resourceID with
  | none => e.unloaded
  | some loaded => { e.SetResource loaded with status := ResourceLoadStatus.kLoaded }

/-! ## Shutdown -/

namespace ResourceManager

/-- The function `ResourceManager::SignalAndWaitForLoaderThread`: the signal to the loader
thread, then `m_signalThread.wait(waitLock)`, a wait without predicate on a mutex of its own.
Between the signal and the end of the wait the loader thread runs its wake-up, `wake`.  The wait
ends only when a signal reaches it after it has begun: `heard` says whether the signal of the
loader thread does.  A signal given before the wait has begun is lost, and the call does not
return: no result. -/
def SignalAndWaitForLoaderThread (wake : ResourceManager → Option ResourceManager)
    (heard : Bool) (s : ResourceManager) : Option ResourceManager :=
  match wake s.SignalLoaderThread with
  | none => none
  | some s1 => if heard then some s1 else none

/-- The destructor `ResourceManager::~ResourceManager` up to its call of
`SignalAndWaitForLoaderThread`: the deferred queue and the listener map are cleared and the quit
flag is set. -/
def DestructorClears (s : ResourceManager) : ResourceManager :=
  let s1 := { s with m_deferredQueue := [] }
  let s2 := { s1 with m_deferredResourceListenersMap := ListenersMap.empty }
  { s2 with m_quitThread := true }

/-- The destructor `ResourceManager::~ResourceManager`: the deferred queue and the listener map are
cleared, the quit flag is set, the loader thread is signalled and waited for, then joined.  The
wake-up of the loader thread is its last.  The result is the manager at the end of the body of
the destructor, before its members are destroyed; there is none when the wait does not end.  The
factory pointer, reset at the end, is not a member of the model. -/
def Destructor (env : Collaborators) (heard : Bool) (s : ResourceManager) :
    Option ResourceManager :=
  s.DestructorClears.SignalAndWaitForLoaderThread (ProcessResourceQueueThreaded env) heard

/-- A number of `ReleaseResource` calls for one identifier, one after the other. -/
def releaseTimes (env : Collaborators) (resourceID : ResourceID) :
    Nat → ResourceManager → Option ResourceManager
  | 0, s => some s
  | n + 1, s =>
    match ReleaseResource env s resourceID with
    | none => none
    | some s1 => releaseTimes env resourceID n s1

/-- The members of the manager, the ghost trace set aside. -/
def withoutTrace (s : ResourceManager) : ResourceManager :=
  { s with trace := [] }

end ResourceManager

/-! ## Handles -/

/-- Modelled from the spec: `ResourceEntry::IncrementRefCount` (not among the sources): one more
reference. -/
def ResourceEntry.IncrementRefCount (e : ResourceEntry) : ResourceEntry :=
  { e with referenceCount := e.referenceCount + 1 }

/-- Modelled from the spec: the construction of a `ResourceHandle` (not among the sources) for an
identifier: "on construction, increments `referenceCount`". -/
def ResourceManager.acquireHandle (s : ResourceManager) (resourceID : ResourceID) :
    ResourceManager :=
  { s with
    m_resourceDatabase :=
      s.m_resourceDatabase.modifyEntry resourceID ResourceEntry.IncrementRefCount }

/-- A number of handles constructed for one identifier. -/
def ResourceManager.acquireHandles (resourceID : ResourceID) :
    Nat → ResourceManager → ResourceManager
  | 0, s => s
  | n + 1, s => acquireHandles resourceID n (s.acquireHandle resourceID)

/-! ## Reachable states -/

/-- The managers one gets from `Initialize` by calls of the public operations that return and by
complete wake-ups of the loader thread. -/
inductive Reachable (env : Collaborators) : ResourceManager → Prop where
  | start (useRawAssets : Bool) : Reachable env (ResourceManager.Initialize useRawAssets)
  | queueLoad {s s1 : ResourceManager} (resourceID : ResourceID) (signalLoaderThread : Bool)
      (pListener : ResourceListenerPtr) :
      Reachable env s →
      ResourceManager.QueueLoad env s resourceID signalLoaderThread pListener = some s1 →
      Reachable env s1
  | loadNow {s s1 : ResourceManager} (resourceID : ResourceID) (pListener : ResourceListenerPtr) :
      Reachable env s → ResourceManager.LoadNow env s resourceID pListener = some s1 →
      Reachable env s1
  | releaseResource {s s1 : ResourceManager} (resourceID : ResourceID) :
      Reachable env s → ResourceManager.ReleaseResource env s resourceID = some s1 →
      Reachable env s1
  | reloadResource {s s1 : ResourceManager} (resourceID : ResourceID) (forceLoad : Bool)
      (pListener : ResourceListenerPtr) :
      Reachable env s →
      ResourceManager.ReloadResource env s resourceID forceLoad pListener = some s1 →
      Reachable env s1
  | lockResource {s s1 : ResourceManager} (resourceID : ResourceID) :
      Reachable env s → ResourceManager.LockResource env s resourceID = some s1 →
      Reachable env s1
  | unlockResource {s s1 : ResourceManager} (resourceID : ResourceID) :
      Reachable env s → ResourceManager.UnlockResource env s resourceID = some s1 →
      Reachable env s1
  | getResource {s s1 : ResourceManager} (resourceID : ResourceID) (forceLoad : Bool)
      (pResource : Option Resource) :
      Reachable env s →
      ResourceManager.GetResource env s resourceID forceLoad = some (pResource, s1) →
      Reachable env s1
  | drainPass {s s1 : ResourceManager} :
      Reachable env s → ResourceManager.ProcessResourceQueueThreaded env s = some s1 →
      Reachable env s1

/-- The managers one gets from the empty manager by `QueueLoad` and `LoadNow` calls that return
and by complete wake-ups of the loader thread: no release, no reload, no shutdown. -/
inductive ReachableByLoads (env : Collaborators) : ResourceManager → Prop where
  | start (useRawAssets : Bool) : ReachableByLoads env (ResourceManager.Initialize useRawAssets)
  | queueLoad {s s1 : ResourceManager} (resourceID : ResourceID) (signalLoaderThread : Bool)
      (pListener : ResourceListenerPtr) :
      ReachableByLoads env s →
      ResourceManager.QueueLoad env s resourceID signalLoaderThread pListener = some s1 →
      ReachableByLoads env s1
  | loadNow {s s1 : ResourceManager} (resourceID : ResourceID) (pListener : ResourceListenerPtr) :
      ReachableByLoads env s → ResourceManager.LoadNow env s resourceID pListener = some s1 →
      ReachableByLoads env s1
  | drainPass {s s1 : ResourceManager} :
      ReachableByLoads env s → ResourceManager.ProcessResourceQueueThreaded env s = some s1 →
      ReachableByLoads env s1

/-- The invariant of the deferred queue: every queued identifier has a Loading entry, and none
is queued twice. -/
def ResourceManager.QueuedAreLoading (s : ResourceManager) : Prop :=
  (∀ k ∈ s.m_deferredQueue, s.m_resourceDatabase.GetLoadStatus k = some ResourceLoadStatus.kLoading)
    ∧ s.m_deferredQueue.Nodup

/-! ## The payload invariant -/

/-- The invariant of the spec's data model on one entry: the payload is there exactly when the
status is Loaded. -/
def ResourceEntry.PayloadIffLoaded (e : ResourceEntry) : Prop :=
  e.payload.isSome = true ↔ e.status = ResourceLoadStatus.kLoaded

/-- The invariant on every entry the database finds. -/
def ResourceDatabase.PayloadIffLoaded (db : ResourceDatabase) : Prop :=
  ∀ k e, ResourceDatabase.GetEntry db k = some e → e.PayloadIffLoaded

/-! ## One entry per identifier -/

/-- The identifiers the database holds an entry for, one for each entry, in the order of the
entries. -/
def ResourceDatabase.keys (db : ResourceDatabase) : List ResourceID :=
  db.map (fun p => p.1)

/-- The database holds no two entries for one identifier. -/
def ResourceDatabase.OneEntryPerID (db : ResourceDatabase) : Prop :=
  (ResourceDatabase.keys db).Nodup

/-- What an operation may do to the identifiers of the database: leave them as they are, or put
one in front that was not there. -/
def KeysStep (db db1 : ResourceDatabase) : Prop :=
  ResourceDatabase.keys db1 = ResourceDatabase.keys db
    ∨ ∃ resourceID, resourceID ∉ ResourceDatabase.keys db
        ∧ ResourceDatabase.keys db1 = resourceID :: ResourceDatabase.keys db

/-! ## The render commands and their sort (`render/RenderManager.cpp`) -/

/-- The frame of a command on the screen, with the members `operator<` reads.  They are floats
in the source; the sort adds and compares them and does nothing else with them, and the integers
stand for them (no NaN, no rounding). -/
structure FRect where
  x : Int
  y : Int
  w : Int
  h : Int
  deriving DecidableEq, Repr

/-- The members of `RenderCommand` that `operator<` and `SortRenderCommands` read, as
`RenderManager.cpp` uses them (the header of the class is not among the sources). -/
structure RenderCommand where
  m_texture : ResourceID
  m_destinationFrame : FRect
  m_zOrder : Int
  deriving DecidableEq, Repr

/-- The function `RenderCommand::operator<`: by Z, then by the bottom of the sprite (`y + h`),
then by `x`. -/
def RenderCommand.less (self command : RenderCommand) : Bool :=
  if self.m_zOrder != command.m_zOrder then decide (self.m_zOrder < command.m_zOrder)
  else
    let leftLowestY := self.m_destinationFrame.y + self.m_destinationFrame.h
    let rightLowestY := command.m_destinationFrame.y + command.m_destinationFrame.h
    if leftLowestY != rightLowestY then decide (leftLowestY < rightLowestY)
    else decide (self.m_destinationFrame.x < command.m_destinationFrame.x)

namespace RenderManager

/-- The lambda `SortRenderCommands` hands to `eastl::stable_sort`: by texture, and
`return (1 < 0)` for two commands of one texture.  The order of the identifiers
(`ResourceID::operator<`, not among the sources) is a strict total order; the one of `String`
stands for it. -/
def textureLess (left right : RenderCommand) : Bool :=
  if left.m_texture != right.m_texture then decide (left.m_texture < right.m_texture)
  else decide ((1 : Int) < 0)

/-- What `eastl::sort` (EASTL, a third-party library) promises of its result, for a comparison
that is a strict weak order: a permutation of the range in which no element is followed by a
smaller one.  It does not say in which order equivalent elements come out. -/
def IsSort (comp : RenderCommand → RenderCommand → Bool)
    (sort : List RenderCommand → List RenderCommand) : Prop :=
  ∀ buffer, (sort buffer).Perm buffer ∧ (sort buffer).Pairwise (fun a b => comp b a = false)

/-- One sort that keeps the promise of `eastl::sort` with `operator<`: insertion sort. -/
def insertionSortByLess (buffer : List RenderCommand) : List RenderCommand :=
  buffer.insertionSort (fun a b => RenderCommand.less b a = false)

/-- The call of `eastl::stable_sort`: the sorted permutation in which equivalent elements keep
their order; there is one only, and insertion before the first element that is not smaller
builds it. -/
def stable_sort (comp : RenderCommand → RenderCommand → Bool) (buffer : List RenderCommand) :
    List RenderCommand :=
  buffer.insertionSort (fun a b => comp b a = false)

/-- The function `RenderManager::SortRenderCommands`: `eastl::sort` with `operator<`, then
`eastl::stable_sort` with the texture lambda.  The first sort is a parameter, for `eastl::sort`
is not stable and any sort that keeps its promise may stand for it. -/
def SortRenderCommands (sort : List RenderCommand → List RenderCommand)
    (bufferToSort : List RenderCommand) : List RenderCommand :=
  stable_sort textureLess (sort bufferToSort)

end RenderManager

/-- A command of the given texture and Z order, at the origin. -/
def demoCommand (texture : ResourceID) (zOrder : Int) (x : Int) : RenderCommand :=
  { m_texture := texture, m_destinationFrame := { x := x, y := 0, w := 1, h := 1 },
    m_zOrder := zOrder }

/-- A background (texture `b`, Z 0) pushed before a sprite in front of it (texture `a`, Z 1). -/
def demoLayers : List RenderCommand :=
  [demoCommand "b" 0 0, demoCommand "a" 1 0]

/-- Five commands of two textures, pushed in no particular order. -/
def demoBuffer : List RenderCommand :=
  [demoCommand "b" 2 0, demoCommand "a" 1 5, demoCommand "b" 0 3, demoCommand "a" 1 2,
    demoCommand "a" 0 9]

/-! ## The render commands with the floats of the source -/

/-- A `float` of the source (IEEE 754 binary32) as far as `operator<` uses it: not a number, an
infinity, or a finite value.  Every finite float is a whole multiple of the smallest one,
`2⁻¹⁴⁹`: `finite n` is the value `n · 2⁻¹⁴⁹`.  The sign of zero, which no comparison reads, is
not kept. -/
inductive Float32 where
  | nan
  | inf (negative : Bool)
  | finite (n : Int)
  deriving DecidableEq, Repr

namespace Float32

/-- The number of bits by which a magnitude below `2²⁸⁰` is longer than the 24 bits of a float's
significand: the largest `s` with `2²⁴ ≤ m / 2ˢ⁻¹`, found bit by bit. -/
def excessBits (m : Nat) : Nat :=
  [128, 64, 32, 16, 8, 4, 2, 1].foldl
    (fun s k => if 2 ^ 24 ≤ m / 2 ^ (s + k - 1) then s + k else s) 0

/-- Rounding of a magnitude to 24 significant bits, to the nearest and ties to even, the
rounding of the float addition. -/
def roundMagnitude (m : Nat) : Nat :=
  let shift := excessBits m
  let q := m / 2 ^ shift
  let r := m % 2 ^ shift
  if 2 ^ shift < 2 * r ∨ (2 * r = 2 ^ shift ∧ q % 2 = 1) then (q + 1) * 2 ^ shift
  else q * 2 ^ shift

/-- The float nearest to the exact value `n · 2⁻¹⁴⁹`: an infinity from `2¹²⁸` on. -/
def round (n : Int) : Float32 :=
  if 2 ^ 128 * 2 ^ 149 ≤ n.natAbs ∨ 2 ^ 128 * 2 ^ 149 ≤ roundMagnitude n.natAbs then
    inf (decide (n < 0))
  else finite (if n < 0 then -(roundMagnitude n.natAbs : Int) else (roundMagnitude n.natAbs : Int))

/-- The float addition `a + b`: not a number with an operand that is none and for the two
infinities of opposite sign, else the rounded exact sum. -/
def add : Float32 → Float32 → Float32
  | nan, _ => nan
  | _, nan => nan
  | inf a, inf b => if a = b then inf a else nan
  | inf a, finite _ => inf a
  | finite _, inf b => inf b
  | finite a, finite b => round (a + b)

/-- The float comparison `a != b`: true with an operand that is not a number. -/
def ne : Float32 → Float32 → Bool
  | nan, _ => true
  | _, nan => true
  | inf a, inf b => a != b
  | inf _, finite _ => true
  | finite _, inf _ => true
  | finite a, finite b => a != b

/-- The float comparison `a < b`: false with an operand that is not a number. -/
def lt : Float32 → Float32 → Bool
  | nan, _ => false
  | _, nan => false
  | inf a, inf b => a && !b
  | inf a, finite _ => a
  | finite _, inf b => !b
  | finite a, finite b => decide (a < b)

/-- Whether the float is not a number. -/
def isNaN : Float32 → Bool
  | nan => true
  | _ => false

/-- The float of a whole number. -/
def ofInt (k : Int) : Float32 := round (k * ((2 ^ 149 : Nat) : Int))

/-- The place of a float among the numbers: `-1`, `0`, `1` for the negative infinity, the finite
floats and the positive infinity, then the value of a finite one. -/
def place : Float32 → Int × Int
  | nan => (2, 0)
  | inf true => (-1, 0)
  | inf false => (1, 0)
  | finite n => (0, n)

end Float32

namespace Floating

/-- The frame of a command on the screen, with the float members `operator<` reads. -/
structure FRect where
  x : Float32
  y : Float32
  w : Float32
  h : Float32
  deriving DecidableEq, Repr

/-- The members of `RenderCommand` that `operator<` and `SortRenderCommands` read, as
`RenderManager.cpp` uses them (the header of the class is not among the sources): the frame has
floats, `m_zOrder` is taken to be an integer. -/
structure RenderCommand where
  m_texture : ResourceID
  m_destinationFrame : FRect
  m_zOrder : Int
  deriving DecidableEq, Repr

/-- The function `RenderCommand::operator<`: by Z, then by the bottom of the sprite (the float
sum `y + h`), then by `x`, with the comparisons of floats. -/
def RenderCommand.less (self command : RenderCommand) : Bool :=
  if self.m_zOrder != command.m_zOrder then decide (self.m_zOrder < command.m_zOrder)
  else
    let leftLowestY := Float32.add self.m_destinationFrame.y self.m_destinationFrame.h
    let rightLowestY := Float32.add command.m_destinationFrame.y command.m_destinationFrame.h
    if Float32.ne leftLowestY rightLowestY then Float32.lt leftLowestY rightLowestY
    else Float32.lt self.m_destinationFrame.x command.m_destinationFrame.x

/-- Whether the two floats `operator<` compares, `y + h` and `x`, are numbers. -/
def RenderCommand.comparesNumbers (self : RenderCommand) : Bool :=
  !(Float32.add self.m_destinationFrame.y self.m_destinationFrame.h).isNaN
    && !self.m_destinationFrame.x.isNaN

namespace RenderManager

/-- The lambda `SortRenderCommands` hands to `eastl::stable_sort`: by texture, and
`return (1 < 0)` for two commands of one texture.  The order of the identifiers
(`ResourceID::operator<`, not among the sources) is a strict total order; the one of `String`
stands for it. -/
def textureLess (left right : RenderCommand) : Bool :=
  if left.m_texture != right.m_texture then decide (left.m_texture < right.m_texture)
  else decide ((1 : Int) < 0)

/-- What `eastl::sort` asks of its comparison on the range it sorts, a strict weak order: no
element is below itself, below is transitive, and so is being neither below nor above. -/
def StrictWeakOn (comp : RenderCommand → RenderCommand → Bool) (buffer : List RenderCommand) :
    Prop :=
  (∀ a ∈ buffer, comp a a = false)
    ∧ (∀ a ∈ buffer, ∀ b ∈ buffer, ∀ c ∈ buffer,
        comp a b = true → comp b c = true → comp a c = true)
    ∧ (∀ a ∈ buffer, ∀ b ∈ buffer, ∀ c ∈ buffer,
        comp a b = false → comp b a = false → comp b c = false → comp c b = false →
        comp a c = false ∧ comp c a = false)

/-- What `eastl::sort` (EASTL, a third-party library) promises of its result: on a range on which
the comparison is a strict weak order, a permutation of the range in which no element is
followed by a smaller one.  It does not say in which order equivalent elements come out, and it
promises nothing on a range on which the comparison is no strict weak order. -/
def IsSort (comp : RenderCommand → RenderCommand → Bool)
    (sort : List RenderCommand → List RenderCommand) : Prop :=
  ∀ buffer, StrictWeakOn comp buffer →
    (sort buffer).Perm buffer ∧ (sort buffer).Pairwise (fun a b => comp b a = false)

/-- One sort that keeps the promise of `eastl::sort` with `operator<`: insertion sort. -/
def insertionSortByLess (buffer : List RenderCommand) : List RenderCommand :=
  buffer.insertionSort (fun a b => RenderCommand.less b a = false)

/-- The call of `eastl::stable_sort`: the sorted permutation in which equivalent elements keep
their order; there is one only, and insertion before the first element that is not smaller
builds it. -/
def stable_sort (comp : RenderCommand → RenderCommand → Bool) (buffer : List RenderCommand) :
    List RenderCommand :=
  buffer.insertionSort (fun a b => comp b a = false)

/-- The function `RenderManager::SortRenderCommands`: `eastl::sort` with `operator<`, then
`eastl::stable_sort` with the texture lambda.  The first sort is a parameter, for `eastl::sort`
is not stable and any sort that keeps its promise may stand for it. -/
def SortRenderCommands (sort : List RenderCommand → List RenderCommand)
    (bufferToSort : List RenderCommand) : List RenderCommand :=
  stable_sort textureLess (sort bufferToSort)

end RenderManager

/-- A command of the given texture and Z order, with the given `x`, `y` and `h` and the width
one. -/
def demoCommand (texture : ResourceID) (zOrder : Int) (x y h : Float32) : RenderCommand :=
  { m_texture := texture
    m_destinationFrame := { x := x, y := y, w := Float32.ofInt 1, h := h }
    m_zOrder := zOrder }

/-- Five commands of two textures.  The bottoms of the third and the fourth, `16777216 + 1` and
`16777216 + 0`, are the same float. -/
def demoBuffer : List RenderCommand :=
  [demoCommand "b" 0 (Float32.ofInt 1) (Float32.ofInt 0) (Float32.ofInt 1),
   demoCommand "a" 1 (Float32.ofInt 0) (Float32.ofInt 0) (Float32.ofInt 1),
   demoCommand "a" 0 (Float32.ofInt 5) (Float32.ofInt 16777216) (Float32.ofInt 1),
   demoCommand "a" 0 (Float32.ofInt 2) (Float32.ofInt 16777216) (Float32.ofInt 0),
   demoCommand "b" 0 (Float32.ofInt 0) (Float32.inf false) (Float32.ofInt 1)]

/-- Three commands of one texture, Z order and bottom; the `x` of the second is not a number. -/
def demoNaNBuffer : List RenderCommand :=
  [demoCommand "a" 0 (Float32.ofInt 2) (Float32.ofInt 0) (Float32.ofInt 1),
   demoCommand "a" 0 Float32.nan (Float32.ofInt 0) (Float32.ofInt 1),
   demoCommand "a" 0 (Float32.ofInt 1) (Float32.ofInt 0) (Float32.ofInt 1)]

end Floating

/-! ## The sprite sheet decoder (`resourcetypes/SpritesheetResource.cpp`) -/

/-- A value of a parsed JSON document, as `rapidjson` (a third-party library) hands it out.
Numbers are kept as integers: `Load` copies them and does nothing else with them. -/
inductive JsonValue where
  | null
  | bool (b : Bool)
  | number (n : Int)
  | string (s : String)
  | array (items : List JsonValue)
  | object (members : List (String × JsonValue))

/-- The call `FindMember(name)` of `rapidjson` on the members of an object: the value of the
first member of that name; `none` stands for `MemberEnd()`. -/
def JsonValue.FindMember : List (String × JsonValue) → String → Option JsonValue
  | [], _ => none
  | (key, value) :: rest, name => if key = name then some value else FindMember rest name

/-- The members of a value that is an object, as `MemberBegin()` to `MemberEnd()` go through
them; a value that is no object has none. -/
def JsonValue.members : JsonValue → List (String × JsonValue)
  | JsonValue.object members => members
  | _ => []

/-- The source rectangle of a sprite (`FRectangle`, whose header is not among the sources).
`Load` constructs it with the default constructor and assigns the members it finds in the
document; `none` is a member left as the default constructor made it. -/
structure FRectangle where
  m_left : Option Int
  m_top : Option Int
  m_width : Option Int
  m_height : Option Int
  deriving DecidableEq, Repr

/-- The members of `SpritesheetResource` that `Load` writes: the raw text, the identifier of the
texture, and the map from sprite names to source rectangles, kept as the list of its pairs in
the order they were put in. -/
structure SpritesheetResource where
  m_text : Bytes
  m_textureResourceID : ResourceID
  m_sprites : List (String × FRectangle)

namespace SpritesheetResource

/-- The resource `SpritesheetResource::SpritesheetResource(id)` constructs: nothing read yet. -/
def fresh : SpritesheetResource :=
  { m_text := [], m_textureResourceID := "", m_sprites := [] }

/-- The lines `if (member != MemberEnd()) field = member->value.GetFloat();` for one of
`sourceX`, `sourceY`, `sourceW`, `sourceH`: the number if the member is there, the default if it
is not; `GetFloat` on a value that is no number is an assertion failure of `rapidjson`: no
result. -/
def readFloat (members : List (String × JsonValue)) (name : String) : Option (Option Int) :=
  match JsonValue.FindMember members name with
  | none => some none
  | some (JsonValue.number n) => some (some n)
  | some _ => none

/-- The body of the loop of `Load` up to `builtRect`: `EXE_ASSERT(spriteItr->value.IsObject())`,
then the four members. -/
def buildRect : JsonValue → Option FRectangle
  | JsonValue.object members =>
    match readFloat members "sourceX", readFloat members "sourceY",
      readFloat members "sourceW", readFloat members "sourceH" with
    | some left, some top, some width, some height =>
      some { m_left := left, m_top := top, m_width := width, m_height := height }
    | _, _, _, _ => none
  | _ => none

/-- The call `m_sprites.try_emplace(name, builtRect)`: a name that is in the map keeps its
rectangle. -/
def try_emplace (sprites : List (String × FRectangle)) (name : String) (rect : FRectangle) :
    List (String × FRectangle) :=
  if name ∈ sprites.map (fun p => p.1) then sprites else sprites ++ [(name, rect)]

/-- The loop `for (auto spriteItr = ...MemberBegin(); ...)` of `Load` over the members of
`Sprites`, on the map given. -/
def loadSprites :
    List (String × JsonValue) → List (String × FRectangle) → Option (List (String × FRectangle))
  | [], sprites => some sprites
  | (name, value) :: rest, sprites =>
    match buildRect value with
    | none => none
    | some builtRect => loadSprites rest (try_emplace sprites name builtRect)

/-- Modelled from the spec: the lines `ResourceHandle textureResource(m_textureResourceID);
textureResource.QueueLoad(true); textureResource.LockResource();` of `Load`.  `ResourceHandle`
is not among the sources; by the spec its construction increments `referenceCount`, and its
`QueueLoad` and `LockResource` are the manager's, for its identifier and without listener. -/
def holdTexture (env : Collaborators) (s : ResourceManager) (texture : ResourceID) :
    Option ResourceManager :=
  match ResourceManager.QueueLoad env (s.acquireHandle texture) texture true
      ResourceListenerPtr.null with
  | none => none
  | some s1 => ResourceManager.LockResource env s1 texture

/-- Modelled from the spec: the destruction of the `ResourceHandle` when `Load` or `Unload`
returns: "on destruction, decrements it and triggers unload-eligibility check", which is the
manager's `ReleaseResource`. -/
def dropHandle (env : Collaborators) (s : ResourceManager) (texture : ResourceID) :
    Option ResourceManager :=
  ResourceManager.ReleaseResource env s texture

/-- The function `SpritesheetResource::Load`, with the document `rapidjson` parses from the text
(`none`: `HasParseError()`), on the manager the handle reaches.  The result is the `LoadResult`,
the resource and the manager after the call; a failed assertion has no result. -/
def Load (env : Collaborators) (parse : Bytes → Option JsonValue) (self : SpritesheetResource)
    (data : Bytes) (s : ResourceManager) :
    Option (LoadResult × SpritesheetResource × ResourceManager) :=
  let self1 := { self with m_text := data }
  if data.isEmpty then some (LoadResult.kFailed, self1, s)
  else
    match parse data with
    | none => some (LoadResult.kFailed, self1, s)
    | some (JsonValue.object members) =>
      match JsonValue.FindMember members "Texture" with
      | none => some (LoadResult.kFailed, self1, s)
      | some (JsonValue.string texture) =>
        if !env.IsValid texture then none
        else
          let self2 := { self1 with m_textureResourceID := texture }
          match holdTexture env s texture with
          | none => none
          | some s1 =>
            match JsonValue.FindMember members "Sprites" with
            | none =>
              (dropHandle env s1 texture).map (fun s2 => (LoadResult.kFailed, self2, s2))
            | some (JsonValue.object sprites) =>
              match loadSprites sprites self2.m_sprites with
              | none => none
              | some m_sprites =>
                (dropHandle env s1 texture).map
                  (fun s2 =>
                    (if sprites.isEmpty then LoadResult.kFailed else LoadResult.kKeptRawData,
                      { self2 with m_sprites := m_sprites }, s2))
            | some _ => none
      | some _ => none
    | some _ => none

/-- Modelled from the spec: the function `SpritesheetResource::Unload`: a handle for the texture,
`UnlockResource`, and the end of the handle. -/
def Unload (env : Collaborators) (self : SpritesheetResource) (s : ResourceManager) :
    Option ResourceManager :=
  match ResourceManager.UnlockResource env (s.acquireHandle self.m_textureResourceID)
      self.m_textureResourceID with
  | none => none
  | some s1 => dropHandle env s1 self.m_textureResourceID

/-- The assertions on the way of `Load` through a parsed document: the document is an object; a
`Texture` member is a string that names a valid identifier; a `Sprites` member, looked at when
there is a `Texture` member, is an object whose members are objects with numbers in the
`source` members they have. -/
def assertionsHold (env : Collaborators) : JsonValue → Bool
  | JsonValue.object members =>
    match JsonValue.FindMember members "Texture" with
    | none => true
    | some (JsonValue.string texture) =>
      env.IsValid texture &&
        match JsonValue.FindMember members "Sprites" with
        | none => true
        | some (JsonValue.object sprites) => sprites.all (fun p => (buildRect p.2).isSome)
        | some _ => false
    | some _ => false
  | _ => false

/-- The inputs on which no assertion of `Load` fails: the empty data and the text with a parse
error return before the first assertion; a parsed document has to pass `assertionsHold`. -/
def passesAssertions (env : Collaborators) (parse : Bytes → Option JsonValue) (data : Bytes) :
    Bool :=
  data.isEmpty ||
    match parse data with
    | none => true
    | some jsonDoc => assertionsHold env jsonDoc

/-- The inputs on which `Load` is said to fail, in the words of the claim: the data is empty, or
cannot be parsed, or the document has no `Texture` member, or no `Sprites` member, or its
`Sprites` has no members. -/
def failsAsSpecified (parse : Bytes → Option JsonValue) (data : Bytes) : Bool :=
  data.isEmpty ||
    match parse data with
    | none => true
    | some jsonDoc =>
      match JsonValue.FindMember jsonDoc.members "Texture",
        JsonValue.FindMember jsonDoc.members "Sprites" with
      | none, _ => true
      | some _, none => true
      | some _, some sprites => sprites.members.isEmpty

end SpritesheetResource

/-! ## The code that calls back

Two calls of the manager run code that calls the manager again: `pResource->Load(data)` in
`LoadResource` (`SpritesheetResource::Load` queues and locks its texture) and
`OnResourceLoaded` of a live listener (`GameObject::OnResourceLoaded` unlocks the resource
and lets a handle go).  In the definitions above the decoder only decodes and the call of a
listener is an event of the trace; the definitions of this section hand the manager to the code
called back and go on with the manager it leaves. -/

/-- The code the manager calls and that may call the manager: the calls a decoder makes on the
manager while it decodes, and the callback of a listener.  Each goes from the manager it finds to
the manager it leaves; `none` is a call that does not return. -/
structure Callbacks where
  duringLoad : Resource → Bytes → ResourceManager → Option ResourceManager
  OnResourceLoaded : ResourceListenerPtr → ResourceID → ResourceManager → Option ResourceManager

/-- Decoders and listeners that make no call on the manager. -/
def Callbacks.inert : Callbacks :=
  { duringLoad := fun _ _ s => some s
    OnResourceLoaded := fun _ _ s => some s }

/-- What code called back cannot reach: the listener map that is a local of the loader thread,
and the two flags, which no public operation writes. -/
def ResourceManager.keepLocals (s : ResourceManager) (r : Option ResourceManager) :
    Option ResourceManager :=
  r.map (fun s1 =>
    { s1 with
      m_quitThread := s.m_quitThread
      m_useRawAssets := s.m_useRawAssets
      processingResourceListenersMap := s.processingResourceListenersMap })

/-- The events of a trace that are a step of a load or the call of a listener: all but the
signals. -/
def loadsAndCalls (t : List Event) : List Event :=
  t.filter (fun e => e ≠ Event.notifyOne)

/-- Code called back that writes no step of a load and no call of a listener to the trace: the
calls it makes on the manager read nothing from storage and notify nobody. -/
def Callbacks.Quiet (cb : Callbacks) : Prop :=
  (∀ pResource data s s1, cb.duringLoad pResource data s = some s1 →
      loadsAndCalls s1.trace = loadsAndCalls s.trace)
    ∧ (∀ pListener resourceID s s1, cb.OnResourceLoaded pListener resourceID s = some s1 →
      loadsAndCalls s1.trace = loadsAndCalls s.trace)

namespace Reentrant

/-- The lines `if (!pListener.expired()) pListener.lock()->OnResourceLoaded(resourceID);`, the
callback run. -/
def notifyListener (cb : Callbacks) (s : ResourceManager) (pListener : ResourceListenerPtr)
    (resourceID : ResourceID) : Option ResourceManager :=
  if !pListener.expired then
    s.keepLocals
      (cb.OnResourceLoaded pListener resourceID
        (s.record (Event.onResourceLoaded pListener resourceID)))
  else some s

/-- The function `ResourceManager::LoadResource` up to the end of `pResource->Load`: the events
of the load are written, and the decoder, if the load gets to it, has made its calls. -/
def afterDecoder (cb : Callbacks) (env : Collaborators) (s : ResourceManager)
    (resourceID : ResourceID) : Option ResourceManager :=
  let rawData := rawDataOf env s.m_useRawAssets resourceID
  let s1 := { s with trace := s.trace ++ loadEvents env rawData resourceID }
  if rawData.isEmpty then some s1
  else
    match env.CreateResource resourceID with
    | none => some s1
    | some pResource => s1.keepLocals (cb.duringLoad pResource rawData s1)

/-- The end of `LoadResource`, on the manager the decoder left: `Unload` when the load gave up,
`SetResource` and `SetLoadStatus(kLoaded)` when it decoded. -/
def finishLoad (env : Collaborators) (rawData : Bytes) (resourceID : ResourceID)
    (s : ResourceManager) : Option ResourceManager :=
  match decodedResource env rawData resourceID with
  | none => some (s.unloadEntry resourceID)
  | some loaded =>
    match s.m_resourceDatabase.GetEntry resourceID with
    | none => none
    | some _ =>
      some { s with
        m_resourceDatabase :=
          (s.m_resourceDatabase.modifyEntry resourceID
            (fun e => e.SetResource loaded)).SetLoadStatus resourceID
              ResourceLoadStatus.kLoaded }

/-- The function `ResourceManager::LoadResource`, the decoder's calls run. -/
def LoadResource (cb : Callbacks) (env : Collaborators) (s : ResourceManager)
    (resourceID : ResourceID) : Option ResourceManager :=
  if !env.IsValid resourceID then none
  else
    match ResourceManager.LoadRawData env s resourceID with
    | none => none
    | some rawData =>
      let s1 := s.record (Event.storageRead resourceID)
      if rawData.isEmpty then some (s1.unloadEntry resourceID)
      else
        let s2 := s1.record (Event.factoryCreate resourceID)
        match env.CreateResource resourceID with
        | none => some (s2.unloadEntry resourceID)
        | some pResource =>
          let s3 := s2.record (Event.decode resourceID)
          match s3.keepLocals (cb.duringLoad pResource rawData s3) with
          | none => none
          | some s4 =>
            if (env.Load pResource rawData).1 != LoadResult.kFailed then
              match s4.m_resourceDatabase.GetEntry resourceID with
              | none => none
              | some _ =>
                some { s4 with
                  m_resourceDatabase :=
                    ((s4.m_resourceDatabase.modifyEntry resourceID
                        (fun e => e.SetResource (env.Load pResource rawData).2)).SetLoadStatus
                      resourceID ResourceLoadStatus.kLoaded) }
            else some (s4.unloadEntry resourceID)

/-- The function `ResourceManager::QueueLoad`, the callback run. -/
def QueueLoad (cb : Callbacks) (env : Collaborators) (s : ResourceManager)
    (resourceID : ResourceID) (signalLoaderThread : Bool) (pListener : ResourceListenerPtr) :
    Option ResourceManager :=
  if !env.IsValid resourceID then none
  else if !s.m_resourceDatabase.IsFound resourceID then
    let s1 := { s with m_resourceDatabase := s.m_resourceDatabase.CreateEntry resourceID }
    let s2 := { s1 with
      m_deferredResourceListenersMap :=
        s1.m_deferredResourceListenersMap.emplaceBack resourceID pListener }
    some (s2.queueLoadTail resourceID signalLoaderThread)
  else if s.m_resourceDatabase.GetLoadStatus resourceID = some ResourceLoadStatus.kLoaded
      || s.m_resourceDatabase.GetLoadStatus resourceID = some ResourceLoadStatus.kLoading then
    notifyListener cb s pListener resourceID
  else
    let s1 := { s with
      m_deferredResourceListenersMap :=
        s.m_deferredResourceListenersMap.emplaceBack resourceID pListener }
    some (s1.queueLoadTail resourceID signalLoaderThread)

/-- The end of `LoadNow`, after the `if`: mark the entry Loading, load it on the calling thread,
then call the listener if there is one. -/
def loadNowTail (cb : Callbacks) (env : Collaborators) (s : ResourceManager)
    (resourceID : ResourceID) (pListener : ResourceListenerPtr) : Option ResourceManager :=
  let s1 := { s with
    m_resourceDatabase :=
      s.m_resourceDatabase.SetLoadStatus resourceID ResourceLoadStatus.kLoading }
  match LoadResource cb env s1 resourceID with
  | none => none
  | some s2 => notifyListener cb s2 pListener resourceID

/-- The function `ResourceManager::LoadNow`, the decoder's calls and the callback run. -/
def LoadNow (cb : Callbacks) (env : Collaborators) (s : ResourceManager)
    (resourceID : ResourceID) (pListener : ResourceListenerPtr) : Option ResourceManager :=
  if !env.IsValid resourceID then none
  else if !s.m_resourceDatabase.IsFound resourceID then
    loadNowTail cb env
      { s with m_resourceDatabase := s.m_resourceDatabase.CreateEntry resourceID }
      resourceID pListener
  else if s.m_resourceDatabase.GetLoadStatus resourceID = some ResourceLoadStatus.kLoaded
      || s.m_resourceDatabase.GetLoadStatus resourceID = some ResourceLoadStatus.kLoading then
    some s
  else loadNowTail cb env s resourceID pListener

/-- The function `ResourceManager::ReloadResource`, the decoder's calls and the callback run. -/
def ReloadResource (cb : Callbacks) (env : Collaborators) (s : ResourceManager)
    (resourceID : ResourceID) (forceLoad : Bool) (pListener : ResourceListenerPtr) :
    Option ResourceManager :=
  if !env.IsValid resourceID then none
  else if s.m_resourceDatabase.GetLoadStatus resourceID ≠ some ResourceLoadStatus.kLoaded then
    if forceLoad then LoadNow cb env s resourceID pListener
    else QueueLoad cb env s resourceID true pListener
  else
    let s1 := { s with m_resourceDatabase := s.m_resourceDatabase.Unload resourceID }
    if forceLoad then LoadNow cb env s1 resourceID pListener
    else QueueLoad cb env s1 resourceID true pListener

/-- The loop `for (auto& listener : processingResourceListenersMap[front])` of the loader
thread, the callbacks run: every listener that has not expired is called, in the order of the
vector. -/
def notifyListeners (cb : Callbacks) (resourceID : ResourceID) :
    List ResourceListenerPtr → ResourceManager → Option ResourceManager
  | [], s => some s
  | listener :: rest, s =>
    match notifyListener cb s listener resourceID with
    | none => none
    | some s1 => notifyListeners cb resourceID rest s1

/-- The loop `while (!processingQueue.empty())` of the loader thread, on the processing queue
given: load the front, call its listeners, clear its vector, pop it. -/
def processQueue (cb : Callbacks) (env : Collaborators) :
    List ResourceID → ResourceManager → Option ResourceManager
  | [], s => some s
  | front :: rest, s =>
    match LoadResource cb env s front with
    | none => none
    | some s1 =>
      match notifyListeners cb front (s1.processingResourceListenersMap front) s1 with
      | none => none
      | some s2 =>
        processQueue cb env rest
          { s2 with
            processingResourceListenersMap := s2.processingResourceListenersMap.set front [] }

/-- One wake-up of the loop of `ProcessResourceQueueThreaded`, the decoders' calls and the
callbacks run. -/
def ProcessResourceQueueThreaded (cb : Callbacks) (env : Collaborators) (s : ResourceManager) :
    Option ResourceManager :=
  if s.m_quitThread then some (s.record Event.notifyOne)
  else if s.m_deferredQueue.isEmpty then some s
  else
    let s1 := { s with
      m_deferredQueue := []
      m_deferredResourceListenersMap := s.processingResourceListenersMap
      processingResourceListenersMap := s.m_deferredResourceListenersMap }
    match processQueue cb env s.m_deferredQueue s1 with
    | none => none
    | some s2 => some (s2.record Event.notifyOne)

end Reentrant

/-- Modelled from the spec: the function `GameObject::OnResourceLoaded` (`GameObject.cpp`), as
far as it calls the manager.  `ResourceHandle` is not among the sources: by the spec its
construction increments `referenceCount`, `GetAs` hands out the payload of a Loaded entry
(without one, `GetAs<TextFileResource>()->GetRawText()` goes through a null pointer: no result),
and its destruction is the manager's `ReleaseResource`; `UnlockResource` is the manager's. -/
def GameObject.OnResourceLoaded (env : Collaborators) (resourceID : ResourceID)
    (s : ResourceManager) : Option ResourceManager :=
  if !env.IsValid resourceID then none
  else
    let s1 := s.acquireHandle resourceID
    match s1.m_resourceDatabase.GetEntry resourceID with
    | none => none
    | some pResourceEntry =>
      match pResourceEntry.payload with
      | none => none
      | some _ =>
        match ResourceManager.UnlockResource env s1 resourceID with
        | none => none
        | some s2 => ResourceManager.ReleaseResource env s2 resourceID

/-- The function `ResourceManager::LoadResource` up to and with line 464,
`GetEntry(resourceID)->SetResource(pResource)`: the manager as it is while the decoded resource
is installed and line 473, `SetLoadStatus(resourceID, kLoaded)`, has not run; `none` when the
load does not get to that line. -/
def ResourceManager.LoadResourceInstalled (env : Collaborators) (s : ResourceManager)
    (resourceID : ResourceID) : Option ResourceManager :=
  if !env.IsValid resourceID then none
  else
    match ResourceManager.LoadRawData env s resourceID with
    | none => none
    | some rawData =>
      let s1 := s.record (Event.storageRead resourceID)
      if rawData.isEmpty then none
      else
        let s2 := s1.record (Event.factoryCreate resourceID)
        match env.CreateResource resourceID with
        | none => none
        | some pResource =>
          let s3 := s2.record (Event.decode resourceID)
          if (env.Load pResource rawData).1 != LoadResult.kFailed then
            match s3.m_resourceDatabase.GetEntry resourceID with
            | none => none
            | some _ =>
              some { s3 with
                m_resourceDatabase :=
                  s3.m_resourceDatabase.modifyEntry resourceID
                    (fun e => e.SetResource (env.Load pResource rawData).2) }
          else none

/-! ## Concrete collaborators, for the examples -/

/-- A file system with a file of three bytes under every name but `missing`, a factory that
knows every identifier but `nofactory`, and a decoder that fails on `bad` only.  The empty name
is the invalid identifier. -/
def demoEnv : Collaborators :=
  { IsValid := fun resourceID => resourceID != ""
    readFile := fun resourceID => if resourceID = "missing" then none else some [1, 2, 3]
    CreateResource := fun resourceID =>
      if resourceID = "nofactory" then none else some { id := resourceID, contents := [] }
    Load := fun pResource data =>
      if pResource.id = "bad" then (LoadResult.kFailed, pResource)
      else (LoadResult.kKeptRawData, { pResource with contents := data }) }

/-- A listener that is alive. -/
def liveListener (target : Nat) : ResourceListenerPtr := { target := target, expired := false }

/-- A listener whose owner is gone. -/
def deadListener (target : Nat) : ResourceListenerPtr := { target := target, expired := true }

/-- The scenario of the spec: `a`, `b`, `a` are requested, each with a listener of its own. -/
def demoRequests : List (ResourceID × Bool × ResourceListenerPtr) :=
  [("a", true, liveListener 1), ("b", false, liveListener 2), ("a", true, liveListener 3)]

/-- The manager after `a` and `b` were queued with the listeners 1 and 2 and without signal. -/
def demoQueued : ResourceManager :=
  (ResourceManager.queueLoads demoEnv
    [("a", false, liveListener 1), ("b", false, liveListener 2)]
    (ResourceManager.Initialize true)).getD (ResourceManager.Initialize true)

/-- A manager whose database has the one identifier, queued: its entry is Loading. -/
def demoLoading (resourceID : ResourceID) : ResourceManager :=
  { ResourceManager.Initialize true with
    m_resourceDatabase :=
      [(resourceID, { ResourceEntry.fresh with status := ResourceLoadStatus.kLoading })]
    m_deferredQueue := [resourceID] }

/-- The manager after `a` was loaded at once and `b` was queued: one entry Loaded, one Loading. -/
def demoLoadedAndQueued : ResourceManager :=
  ((ResourceManager.LoadNow demoEnv (ResourceManager.Initialize true) "a"
      ResourceListenerPtr.null).bind
    (fun s => ResourceManager.QueueLoad demoEnv s "b" false ResourceListenerPtr.null)).getD
    (ResourceManager.Initialize true)

/-- The manager after `a` was queued twice and then loaded at once, which the Loading entry turns
into a call without effect. -/
def demoAskedThrice : ResourceManager :=
  (((ResourceManager.QueueLoad demoEnv (ResourceManager.Initialize true) "a" false
        ResourceListenerPtr.null).bind
      (fun s => ResourceManager.QueueLoad demoEnv s "a" false ResourceListenerPtr.null)).bind
    (fun s => ResourceManager.LoadNow demoEnv s "a" ResourceListenerPtr.null)).getD
    (ResourceManager.Initialize true)


/-- The manager after `a` and `b` were queued and `a` was asked for twice more, by `QueueLoad`
and by `LoadNow`. -/
def demoQueuedAgain : ResourceManager :=
  ((((ResourceManager.QueueLoad demoEnv (ResourceManager.Initialize true) "a" false
          ResourceListenerPtr.null).bind
        (fun s => ResourceManager.QueueLoad demoEnv s "b" false ResourceListenerPtr.null)).bind
      (fun s => ResourceManager.QueueLoad demoEnv s "a" true ResourceListenerPtr.null)).bind
    (fun s => ResourceManager.LoadNow demoEnv s "a" ResourceListenerPtr.null)).getD
    (ResourceManager.Initialize true)

/-- A parser for the examples, from one-byte texts to documents: `1` is a sheet with a texture
and no `Sprites`, `2` one whose `Sprites` is empty, `3` a sheet with the sprites `idle`, `run`
and `idle` once more, `4` a sheet whose `Texture` is a number; every other text has a parse
error. -/
def demoParse (data : Bytes) : Option JsonValue :=
  match data with
  | [1] => some (JsonValue.object [("Texture", JsonValue.string "x")])
  | [2] =>
    some (JsonValue.object [("Texture", JsonValue.string "x"), ("Sprites", JsonValue.object [])])
  | [3] =>
    some (JsonValue.object
      [("Texture", JsonValue.string "x"),
        ("Sprites", JsonValue.object
          [("idle", JsonValue.object
              [("sourceX", JsonValue.number 0), ("sourceY", JsonValue.number 0),
                ("sourceW", JsonValue.number 16), ("sourceH", JsonValue.number 16)]),
            ("run", JsonValue.object [("sourceX", JsonValue.number 16)]),
            ("idle", JsonValue.object [("sourceX", JsonValue.number 32)])])])
  | [4] =>
    some (JsonValue.object
      [("Texture", JsonValue.number 5),
        ("Sprites", JsonValue.object [("idle", JsonValue.object [])])])
  | _ => none

/-- A file system, factory and decoders as `demoEnv`, with two sprite sheets: the file of
`sheet` is the one-byte text `3` (a sheet with the texture `x` and sprites), the file of
`badsheet` the one-byte text `1` (a sheet with the texture `x` and no `Sprites`); their decoder
answers as `SpritesheetResource::Load` does. -/
def sheetEnv : Collaborators :=
  { demoEnv with
    readFile := fun resourceID =>
      if resourceID = "sheet" then some [3]
      else if resourceID = "badsheet" then some [1]
      else demoEnv.readFile resourceID
    Load := fun pResource data =>
      if pResource.id = "sheet" ∨ pResource.id = "badsheet" then
        (match SpritesheetResource.Load demoEnv demoParse SpritesheetResource.fresh data
            (ResourceManager.Initialize true) with
          | some r => (r.1, pResource)
          | none => (LoadResult.kFailed, pResource))
      else demoEnv.Load pResource data }

/-- The listener that is a `GameObject`. -/
def gameObjectListener : ResourceListenerPtr := liveListener 7

/-- The code called back in the examples: the decoder of the two sheets makes the calls of
`SpritesheetResource::Load`, the other decoders make none; the listener `gameObjectListener`
runs `GameObject::OnResourceLoaded`, the other listeners make no call. -/
def demoCallbacks : Callbacks :=
  { duringLoad := fun pResource data s =>
      if pResource.id = "sheet" ∨ pResource.id = "badsheet" then
        (SpritesheetResource.Load demoEnv demoParse SpritesheetResource.fresh data s).map
          (fun r => r.2.2)
      else some s
    OnResourceLoaded := fun pListener resourceID s =>
      if pListener = gameObjectListener then GameObject.OnResourceLoaded demoEnv resourceID s
      else some s }

/-- The manager in which `sheet` is Loading, as the decoder of the sheet leaves it: the three
events of the load written, the texture `x` queued and pinned. -/
def demoSheetDecoded : ResourceManager :=
  (Reentrant.afterDecoder demoCallbacks sheetEnv (demoLoading "sheet") "sheet").getD
    (ResourceManager.Initialize true)

/-- The manager after `sheet` was queued with the listener 1 and `a` with a `GameObject` as
listener, which pins `a` for the time of the load. -/
def demoSheetQueued : ResourceManager :=
  ((ResourceManager.queueLoads sheetEnv
      [("sheet", false, liveListener 1), ("a", false, gameObjectListener)]
      (ResourceManager.Initialize true)).bind
    (fun s => ResourceManager.LockResource sheetEnv s "a")).getD (ResourceManager.Initialize true)

/-- The manager after the loader thread has drained `demoSheetQueued`, the decoder of the sheet
and the `GameObject` calling the manager. -/
def demoSheetDrained : ResourceManager :=
  (Reentrant.ProcessResourceQueueThreaded demoCallbacks sheetEnv demoSheetQueued).getD
    (ResourceManager.Initialize true)

/-- A manager whose database has `x` Loaded and pinned once, as a `LockResource` after the
request leaves it, with no handle taken yet. -/
def demoLocked : ResourceManager :=
  { ResourceManager.Initialize true with
    m_resourceDatabase :=
      [("x", { status := ResourceLoadStatus.kLoaded, referenceCount := 0, lockCount := 1,
               payload := some { id := "x", contents := [1, 2, 3] } })] }

/-- The manager while the loader thread loads `a`: the decoded resource is installed, the status
is not yet set to Loaded. -/
def demoInstalled : ResourceManager :=
  (ResourceManager.LoadResourceInstalled demoEnv (demoLoading "a") "a").getD
    (ResourceManager.Initialize true)

/-- A manager whose database has `x` Loaded, with one reference and one pin. -/
def demoPinned : ResourceManager :=
  { ResourceManager.Initialize true with
    m_resourceDatabase :=
      [("x", { status := ResourceLoadStatus.kLoaded, referenceCount := 1, lockCount := 1,
               payload := some { id := "x", contents := [1, 2, 3] } })] }

/-- A manager whose database has `x` Loaded, with the given number of references (taken by
handles) and no pin. -/
def demoHeld (referenceCount : Nat) : ResourceManager :=
  { ResourceManager.Initialize true with
    m_resourceDatabase :=
      [("x", { status := ResourceLoadStatus.kLoaded, referenceCount := referenceCount,
               lockCount := 0, payload := some { id := "x", contents := [1, 2, 3] } })] }

end Exelius

/-! # Properties -/

namespace Exelius

open ResourceLoadStatus

namespace ResourceDatabase

theorem GetEntry_modifyEntry_self (db : ResourceDatabase) (resourceID : ResourceID)
    (f : ResourceEntry → ResourceEntry) :
    GetEntry (modifyEntry db resourceID f) resourceID = (GetEntry db resourceID).map f := by
  induction db with
  | nil => rfl
  | cons p rest ih =>
    obtain ⟨key, entry⟩ := p
    by_cases h : key = resourceID
    · simp [modifyEntry, GetEntry, h]
    · simp [modifyEntry, GetEntry, h, ih]

theorem GetEntry_modifyEntry_other (db : ResourceDatabase) (resourceID other : ResourceID)
    (f : ResourceEntry → ResourceEntry) (hne : other ≠ resourceID) :
    GetEntry (modifyEntry db resourceID f) other = GetEntry db other := by
  induction db with
  | nil => rfl
  | cons p rest ih =>
    obtain ⟨key, entry⟩ := p
    by_cases h : key = resourceID
    · subst h
      simp [modifyEntry, GetEntry, Ne.symm hne, ih]
    · by_cases hk : key = other
      · subst hk
        simp [modifyEntry, GetEntry, h]
      · simp [modifyEntry, GetEntry, h, hk, ih]

theorem GetEntry_CreateEntry_self (db : ResourceDatabase) (resourceID : ResourceID) :
    GetEntry (CreateEntry db resourceID) resourceID = some ResourceEntry.fresh := by
  simp [CreateEntry, GetEntry]

theorem GetEntry_CreateEntry_other (db : ResourceDatabase) (resourceID other : ResourceID)
    (hne : other ≠ resourceID) :
    GetEntry (CreateEntry db resourceID) other = GetEntry db other := by
  simp [CreateEntry, GetEntry, Ne.symm hne]

theorem IsFound_of_GetLoadStatus (db : ResourceDatabase) (resourceID : ResourceID)
    (status : ResourceLoadStatus) (h : GetLoadStatus db resourceID = some status) :
    IsFound db resourceID = true := by
  unfold GetLoadStatus at h
  unfold IsFound
  cases hget : GetEntry db resourceID with
  | none => simp [hget] at h
  | some e => rfl

end ResourceDatabase

/-! ## The trace observers and `++` -/

theorem storageReads_append (a b : List Event) :
    storageReads (a ++ b) = storageReads a ++ storageReads b := by
  induction a with
  | nil => rfl
  | cons e rest ih => cases e <;> simp [storageReads, ih]

theorem factoryCreates_append (a b : List Event) :
    factoryCreates (a ++ b) = factoryCreates a ++ factoryCreates b := by
  induction a with
  | nil => rfl
  | cons e rest ih => cases e <;> simp [factoryCreates, ih]

theorem decodes_append (a b : List Event) :
    decodes (a ++ b) = decodes a ++ decodes b := by
  induction a with
  | nil => rfl
  | cons e rest ih => cases e <;> simp [decodes, ih]

theorem listenerCalls_append (a b : List Event) :
    listenerCalls (a ++ b) = listenerCalls a ++ listenerCalls b := by
  induction a with
  | nil => rfl
  | cons e rest ih => cases e <;> simp [listenerCalls, ih]

open ResourceDatabase ResourceManager

/-- What `queueLoadTail` leaves behind, member by member. -/
theorem queueLoadTail_fields (s : ResourceManager) (resourceID : ResourceID)
    (signalLoaderThread : Bool) :
    (s.queueLoadTail resourceID signalLoaderThread).m_resourceDatabase
        = s.m_resourceDatabase.SetLoadStatus resourceID kLoading
      ∧ (s.queueLoadTail resourceID signalLoaderThread).m_deferredQueue
        = s.m_deferredQueue ++ [resourceID]
      ∧ (s.queueLoadTail resourceID signalLoaderThread).m_deferredResourceListenersMap
        = s.m_deferredResourceListenersMap
      ∧ (s.queueLoadTail resourceID signalLoaderThread).processingResourceListenersMap
        = s.processingResourceListenersMap
      ∧ (s.queueLoadTail resourceID signalLoaderThread).m_quitThread = s.m_quitThread
      ∧ (s.queueLoadTail resourceID signalLoaderThread).m_useRawAssets = s.m_useRawAssets
      ∧ (s.queueLoadTail resourceID signalLoaderThread).trace
        = s.trace ++ (if signalLoaderThread then [Event.notifyOne] else []) := by
  cases signalLoaderThread <;> simp [queueLoadTail, SignalLoaderThread, record]

/-- C1. For a valid identifier without registry entry, `QueueLoad` succeeds and leaves an entry
for it with status Loading, the identifier appended at the tail of the deferred queue (the
identifiers already queued keep their places), the listener appended at the end of the
identifier's vector in the listener map (the other vectors untouched), and a trace that grew by
the signal to the loader thread at most: no listener is called during the call. -/
theorem QueueLoad_absent_entry (env : Collaborators) (s : ResourceManager)
    (resourceID : ResourceID) (signalLoaderThread : Bool) (pListener : ResourceListenerPtr)
    (hvalid : env.IsValid resourceID = true)
    (habsent : s.m_resourceDatabase.GetEntry resourceID = none) :
    ∃ s1, QueueLoad env s resourceID signalLoaderThread pListener = some s1
      ∧ s1.m_resourceDatabase.GetLoadStatus resourceID = some kLoading
      ∧ s1.m_deferredQueue = s.m_deferredQueue ++ [resourceID]
      ∧ s1.m_deferredResourceListenersMap resourceID
          = s.m_deferredResourceListenersMap resourceID ++ [pListener]
      ∧ (∀ other, other ≠ resourceID →
          s1.m_deferredResourceListenersMap other = s.m_deferredResourceListenersMap other)
      ∧ s1.trace = s.trace ++ (if signalLoaderThread then [Event.notifyOne] else [])
      ∧ listenerCalls s1.trace = listenerCalls s.trace := by
  have hfound : s.m_resourceDatabase.IsFound resourceID = false := by
    simp [IsFound, habsent]
  refine ⟨_, by simp [QueueLoad, hvalid, hfound]; rfl, ?_, ?_, ?_, ?_, ?_, ?_⟩
  · simp [queueLoadTail_fields, GetLoadStatus, SetLoadStatus, GetEntry_modifyEntry_self,
      GetEntry_CreateEntry_self]
  · simp [queueLoadTail_fields]
  · simp [queueLoadTail_fields, ListenersMap.emplaceBack, ListenersMap.set]
  · intro other hne
    simp [queueLoadTail_fields, ListenersMap.emplaceBack, ListenersMap.set, hne]
  · simp [queueLoadTail_fields]
  · cases signalLoaderThread <;> simp [queueLoadTail_fields, listenerCalls_append, listenerCalls]

/-- C1, at a concrete input: the first request for `a` on a manager fresh from `Initialize`. -/
theorem QueueLoad_absent_entry_witness :
    demoEnv.IsValid "a" = true
      ∧ (Initialize true).m_resourceDatabase.GetEntry "a" = none
      ∧ ∃ s1, QueueLoad demoEnv (Initialize true) "a" true (liveListener 1) = some s1
        ∧ s1.m_resourceDatabase.GetLoadStatus "a" = some kLoading
        ∧ s1.m_deferredQueue = (Initialize true).m_deferredQueue ++ ["a"]
        ∧ s1.m_deferredResourceListenersMap "a"
            = (Initialize true).m_deferredResourceListenersMap "a" ++ [liveListener 1]
        ∧ (∀ other, other ≠ "a" →
            s1.m_deferredResourceListenersMap other
              = (Initialize true).m_deferredResourceListenersMap other)
        ∧ s1.trace = (Initialize true).trace ++ (if true then [Event.notifyOne] else [])
        ∧ listenerCalls s1.trace = listenerCalls (Initialize true).trace :=
  ⟨by decide, by decide,
    QueueLoad_absent_entry demoEnv (Initialize true) "a" true (liveListener 1)
      (by decide) (by decide)⟩

/-! ## `LoadResource` -/

theorem LoadRawData_eq (env : Collaborators) (s : ResourceManager) (resourceID : ResourceID)
    (hvalid : env.IsValid resourceID = true) :
    LoadRawData env s resourceID = some (rawDataOf env s.m_useRawAssets resourceID) := by
  cases h : s.m_useRawAssets <;> simp [LoadRawData, rawDataOf, hvalid, h]

/-- `LoadResource` in one equation: a load that gives up unloads the entry; a load that decodes
installs the resource and marks the entry Loaded, and has no result without an entry. -/
theorem LoadResource_eq (env : Collaborators) (s : ResourceManager) (resourceID : ResourceID)
    (hvalid : env.IsValid resourceID = true) :
    LoadResource env s resourceID =
      match decodedResource env (rawDataOf env s.m_useRawAssets resourceID) resourceID with
      | none =>
        some { s with
          m_resourceDatabase := s.m_resourceDatabase.Unload resourceID
          trace := s.trace
            ++ loadEvents env (rawDataOf env s.m_useRawAssets resourceID) resourceID }
      | some loaded =>
        match s.m_resourceDatabase.GetEntry resourceID with
        | none => none
        | some _ =>
          some { s with
            m_resourceDatabase :=
              (s.m_resourceDatabase.modifyEntry resourceID
                (fun e => e.SetResource loaded)).SetLoadStatus resourceID kLoaded
            trace := s.trace
              ++ loadEvents env (rawDataOf env s.m_useRawAssets resourceID) resourceID } := by
  unfold LoadResource
  rw [LoadRawData_eq env s resourceID hvalid]
  simp only [hvalid, Bool.not_true, Bool.false_eq_true, if_false]
  unfold decodedResource loadEvents
  by_cases hempty : (rawDataOf env s.m_useRawAssets resourceID).isEmpty = true
  · simp [hempty, unloadEntry, record]
  · simp only [hempty, if_false, Bool.false_eq_true]
    cases hcreate : env.CreateResource resourceID with
    | none => simp [unloadEntry, record]
    | some pResource =>
      by_cases hload :
          ((env.Load pResource (rawDataOf env s.m_useRawAssets resourceID)).1
            != LoadResult.kFailed) = true
      · simp only [hload, if_true]
        cases hentry : s.m_resourceDatabase.GetEntry resourceID with
        | none => simp [record, hentry]
        | some e => simp [record, hentry]
      · simp only [hload, if_false, Bool.false_eq_true]
        simp [unloadEntry, record]

theorem decodedResource_eq_some_iff (env : Collaborators) (rawData : Bytes)
    (resourceID : ResourceID) (loaded : Resource) :
    decodedResource env rawData resourceID = some loaded ↔
      rawData ≠ [] ∧ ∃ pResource, env.CreateResource resourceID = some pResource
        ∧ (env.Load pResource rawData).1 ≠ LoadResult.kFailed
        ∧ (env.Load pResource rawData).2 = loaded := by
  unfold decodedResource
  by_cases hempty : rawData = []
  · simp [hempty]
  · cases hcreate : env.CreateResource resourceID with
    | none => simp [hempty]
    | some pResource =>
      by_cases hload : (env.Load pResource rawData).1 = LoadResult.kFailed
      · simp [hempty, hload]
      · simp [hempty, hload]

theorem decodedResource_isSome_iff (env : Collaborators) (rawData : Bytes)
    (resourceID : ResourceID) :
    (decodedResource env rawData resourceID).isSome = true ↔
      rawData ≠ [] ∧ ∃ pResource, env.CreateResource resourceID = some pResource
        ∧ (env.Load pResource rawData).1 ≠ LoadResult.kFailed := by
  rw [Option.isSome_iff_exists]
  constructor
  · rintro ⟨loaded, h⟩
    obtain ⟨h1, p, h2, h3, _⟩ := (decodedResource_eq_some_iff env rawData resourceID loaded).1 h
    exact ⟨h1, p, h2, h3⟩
  · rintro ⟨h1, p, h2, h3⟩
    exact ⟨_, (decodedResource_eq_some_iff env rawData resourceID _).2 ⟨h1, p, h2, h3, rfl⟩⟩

/-- The members `notifyListener` leaves alone: all but the trace. -/
theorem notifyListener_fields (s : ResourceManager) (pListener : ResourceListenerPtr)
    (resourceID : ResourceID) :
    (s.notifyListener pListener resourceID).m_resourceDatabase = s.m_resourceDatabase
      ∧ (s.notifyListener pListener resourceID).m_deferredQueue = s.m_deferredQueue
      ∧ (s.notifyListener pListener resourceID).m_deferredResourceListenersMap
        = s.m_deferredResourceListenersMap
      ∧ (s.notifyListener pListener resourceID).processingResourceListenersMap
        = s.processingResourceListenersMap
      ∧ (s.notifyListener pListener resourceID).m_quitThread = s.m_quitThread
      ∧ (s.notifyListener pListener resourceID).m_useRawAssets = s.m_useRawAssets := by
  unfold notifyListener record
  split <;> simp

/-- The database a load leaves, from the database it found: the entry unloaded when the load
gives up, the resource installed and the entry Loaded when it decodes. -/
theorem LoadResource_some (env : Collaborators) (s : ResourceManager) (resourceID : ResourceID)
    (hvalid : env.IsValid resourceID = true)
    (hfound : s.m_resourceDatabase.IsFound resourceID = true) :
    ∃ s1, LoadResource env s resourceID = some s1
      ∧ s1.m_resourceDatabase =
        (match decodedResource env (rawDataOf env s.m_useRawAssets resourceID) resourceID with
          | none => s.m_resourceDatabase.Unload resourceID
          | some loaded =>
            (s.m_resourceDatabase.modifyEntry resourceID
              (fun e => e.SetResource loaded)).SetLoadStatus resourceID kLoaded)
      ∧ s1.trace = s.trace ++ loadEvents env (rawDataOf env s.m_useRawAssets resourceID) resourceID
      ∧ s1.m_deferredQueue = s.m_deferredQueue
      ∧ s1.m_deferredResourceListenersMap = s.m_deferredResourceListenersMap
      ∧ s1.processingResourceListenersMap = s.processingResourceListenersMap
      ∧ s1.m_quitThread = s.m_quitThread
      ∧ s1.m_useRawAssets = s.m_useRawAssets := by
  rw [LoadResource_eq env s resourceID hvalid]
  cases hdec : decodedResource env (rawDataOf env s.m_useRawAssets resourceID) resourceID with
  | none => exact ⟨_, rfl, rfl, rfl, rfl, rfl, rfl, rfl, rfl⟩
  | some loaded =>
    cases hentry : s.m_resourceDatabase.GetEntry resourceID with
    | none => simp [IsFound, hentry] at hfound
    | some e => exact ⟨_, rfl, rfl, rfl, rfl, rfl, rfl, rfl, rfl⟩

/-- The status a load leaves: Loaded when it decodes, Unloaded when it gives up. -/
theorem GetLoadStatus_after_load (env : Collaborators) (db : ResourceDatabase)
    (rawData : Bytes) (resourceID : ResourceID)
    (hfound : db.IsFound resourceID = true) :
    GetLoadStatus
        (match decodedResource env rawData resourceID with
          | none => db.Unload resourceID
          | some loaded =>
            (db.modifyEntry resourceID (fun e => e.SetResource loaded)).SetLoadStatus
              resourceID kLoaded)
        resourceID
      = some (if (decodedResource env rawData resourceID).isSome then kLoaded else kUnloaded) := by
  cases hentry : db.GetEntry resourceID with
  | none => simp [IsFound, hentry] at hfound
  | some e =>
    cases hdec : decodedResource env rawData resourceID with
    | none =>
      simp [GetLoadStatus, Unload, GetEntry_modifyEntry_self, hentry, ResourceEntry.unloaded]
    | some loaded =>
      simp [GetLoadStatus, SetLoadStatus, GetEntry_modifyEntry_self, hentry]

theorem IsFound_modifyEntry (db : ResourceDatabase) (resourceID other : ResourceID)
    (f : ResourceEntry → ResourceEntry) :
    IsFound (modifyEntry db resourceID f) other = IsFound db other := by
  by_cases h : other = resourceID
  · subst h
    simp [IsFound, GetEntry_modifyEntry_self]
  · simp [IsFound, GetEntry_modifyEntry_other _ _ _ _ h]

/-- The end of `LoadNow` on an identifier with an entry: it returns, with the status the load
decides, and touches neither the queue nor the listener maps. -/
theorem loadNowTail_spec (env : Collaborators) (s : ResourceManager)
    (resourceID : ResourceID) (pListener : ResourceListenerPtr)
    (hvalid : env.IsValid resourceID = true)
    (hfound : s.m_resourceDatabase.IsFound resourceID = true) :
    ∃ s1, loadNowTail env s resourceID pListener = some s1
      ∧ s1.m_resourceDatabase.GetLoadStatus resourceID
        = some (if (decodedResource env (rawDataOf env s.m_useRawAssets resourceID)
            resourceID).isSome then kLoaded else kUnloaded)
      ∧ s1.m_deferredQueue = s.m_deferredQueue
      ∧ s1.m_deferredResourceListenersMap = s.m_deferredResourceListenersMap
      ∧ s1.processingResourceListenersMap = s.processingResourceListenersMap := by
  have hfound1 : (s.m_resourceDatabase.SetLoadStatus resourceID kLoading).IsFound resourceID
      = true := by
    rw [SetLoadStatus, IsFound_modifyEntry]; exact hfound
  obtain ⟨s2, h2, hdb, -, hq, hm, hp, -, -⟩ :=
    LoadResource_some env
      { s with m_resourceDatabase := s.m_resourceDatabase.SetLoadStatus resourceID kLoading }
      resourceID hvalid hfound1
  refine ⟨s2.notifyListener pListener resourceID, ?_, ?_, ?_, ?_, ?_⟩
  · simp [loadNowTail, h2]
  · rw [(notifyListener_fields s2 pListener resourceID).1, hdb]
    exact GetLoadStatus_after_load env _ _ resourceID hfound1
  · rw [(notifyListener_fields s2 pListener resourceID).2.1, hq]
  · rw [(notifyListener_fields s2 pListener resourceID).2.2.1, hm]
  · rw [(notifyListener_fields s2 pListener resourceID).2.2.2.1, hp]

/-- C8. For a valid identifier whose entry is Loaded or Loading, `LoadNow` returns the manager it
was given: no listener is called, nothing is read or decoded (the trace is the same), and the
registry, the deferred queue and the listener maps are unchanged. -/
theorem LoadNow_loaded_or_loading_noop (env : Collaborators) (s : ResourceManager)
    (resourceID : ResourceID) (pListener : ResourceListenerPtr)
    (hvalid : env.IsValid resourceID = true)
    (hstatus : s.m_resourceDatabase.GetLoadStatus resourceID = some kLoaded
      ∨ s.m_resourceDatabase.GetLoadStatus resourceID = some kLoading) :
    LoadNow env s resourceID pListener = some s := by
  have hfound : s.m_resourceDatabase.IsFound resourceID = true := by
    rcases hstatus with h | h <;> exact IsFound_of_GetLoadStatus _ _ _ h
  rcases hstatus with h | h <;> simp [LoadNow, hvalid, hfound, h]

/-- C8, at a concrete input: `LoadNow` of `x` right after `x` was loaded. -/
theorem LoadNow_loaded_or_loading_noop_witness :
    ∃ s, LoadNow demoEnv (Initialize true) "x" (liveListener 1) = some s
      ∧ demoEnv.IsValid "x" = true
      ∧ (s.m_resourceDatabase.GetLoadStatus "x" = some kLoaded
        ∨ s.m_resourceDatabase.GetLoadStatus "x" = some kLoading)
      ∧ LoadNow demoEnv s "x" (liveListener 2) = some s :=
  ⟨_, rfl, by decide, Or.inl (by decide),
    LoadNow_loaded_or_loading_noop demoEnv _ "x" (liveListener 2) (by decide)
      (Or.inl (by decide))⟩

/-- C6, as stated, fails on the code.  `missing` has no file, so a `LoadNow` leaves its entry
Unloaded; a `QueueLoad` of it then does trigger a load: the identifier is in the deferred queue
and the entry is Loading. -/
theorem QueueLoad_unloaded_counterexample :
    ∃ s s1, LoadNow demoEnv (Initialize true) "missing" ResourceListenerPtr.null = some s
      ∧ s.m_resourceDatabase.GetLoadStatus "missing" = some kUnloaded
      ∧ s.m_deferredQueue = []
      ∧ QueueLoad demoEnv s "missing" false (liveListener 1) = some s1
      ∧ s1.m_deferredQueue = ["missing"]
      ∧ s1.m_resourceDatabase.GetLoadStatus "missing" = some kLoading
      ∧ s1.m_deferredQueue ≠ s.m_deferredQueue
      ∧ s1.m_resourceDatabase.GetLoadStatus "missing"
          ≠ s.m_resourceDatabase.GetLoadStatus "missing" :=
  ⟨_, _, rfl, by decide, by decide, rfl, by decide, by decide, by decide, by decide⟩

/-- C6, amended.  For a valid identifier whose entry is Unloaded or Unloading, `QueueLoad` appends
the listener to the identifier's vector in the listener map and does trigger a load: the entry is
marked Loading and the identifier is appended to the deferred queue.  No listener is called during
the call. -/
theorem QueueLoad_unloaded_requeues (env : Collaborators) (s : ResourceManager)
    (resourceID : ResourceID) (signalLoaderThread : Bool) (pListener : ResourceListenerPtr)
    (hvalid : env.IsValid resourceID = true)
    (hstatus : s.m_resourceDatabase.GetLoadStatus resourceID = some kUnloaded
      ∨ s.m_resourceDatabase.GetLoadStatus resourceID = some kUnloading) :
    ∃ s1, QueueLoad env s resourceID signalLoaderThread pListener = some s1
      ∧ s1.m_deferredResourceListenersMap resourceID
          = s.m_deferredResourceListenersMap resourceID ++ [pListener]
      ∧ (∀ other, other ≠ resourceID →
          s1.m_deferredResourceListenersMap other = s.m_deferredResourceListenersMap other)
      ∧ s1.m_resourceDatabase.GetLoadStatus resourceID = some kLoading
      ∧ s1.m_deferredQueue = s.m_deferredQueue ++ [resourceID]
      ∧ listenerCalls s1.trace = listenerCalls s.trace := by
  have hfound : s.m_resourceDatabase.IsFound resourceID = true := by
    rcases hstatus with h | h <;> exact IsFound_of_GetLoadStatus _ _ _ h
  obtain ⟨e, hentry⟩ : ∃ e, s.m_resourceDatabase.GetEntry resourceID = some e := by
    simpa [IsFound, Option.isSome_iff_exists] using hfound
  refine ⟨_, by rcases hstatus with h | h <;> simp [QueueLoad, hvalid, hfound, h] <;> rfl,
    ?_, ?_, ?_, ?_, ?_⟩
  · simp [queueLoadTail_fields, ListenersMap.emplaceBack, ListenersMap.set]
  · intro other hne
    simp [queueLoadTail_fields, ListenersMap.emplaceBack, ListenersMap.set, hne]
  · simp [queueLoadTail_fields, GetLoadStatus, SetLoadStatus, GetEntry_modifyEntry_self, hentry]
  · simp [queueLoadTail_fields]
  · cases signalLoaderThread <;> simp [queueLoadTail_fields, listenerCalls_append, listenerCalls]

/-- C6 amended, at a concrete input: `missing` is Unloaded after a `LoadNow` that found no
file. -/
theorem QueueLoad_unloaded_requeues_witness :
    ∃ s, LoadNow demoEnv (Initialize true) "missing" ResourceListenerPtr.null = some s
      ∧ demoEnv.IsValid "missing" = true
      ∧ (s.m_resourceDatabase.GetLoadStatus "missing" = some kUnloaded
        ∨ s.m_resourceDatabase.GetLoadStatus "missing" = some kUnloading)
      ∧ ∃ s1, QueueLoad demoEnv s "missing" false (liveListener 1) = some s1
        ∧ s1.m_deferredResourceListenersMap "missing"
            = s.m_deferredResourceListenersMap "missing" ++ [liveListener 1]
        ∧ (∀ other, other ≠ "missing" →
            s1.m_deferredResourceListenersMap other = s.m_deferredResourceListenersMap other)
        ∧ s1.m_resourceDatabase.GetLoadStatus "missing" = some kLoading
        ∧ s1.m_deferredQueue = s.m_deferredQueue ++ ["missing"]
        ∧ listenerCalls s1.trace = listenerCalls s.trace :=
  ⟨_, rfl, by decide, Or.inl (by decide),
    QueueLoad_unloaded_requeues demoEnv _ "missing" false (liveListener 1) (by decide)
      (Or.inl (by decide))⟩

/-- What `QueueLoad` does on an entry that is Loaded or Loading.  It
returns the manager with one more event when the listener is alive, the call of the listener, and
the manager unchanged when the listener has expired. -/
theorem QueueLoad_loaded_or_loading_eq (env : Collaborators) (s : ResourceManager)
    (resourceID : ResourceID) (signalLoaderThread : Bool) (pListener : ResourceListenerPtr)
    (hvalid : env.IsValid resourceID = true)
    (hstatus : s.m_resourceDatabase.GetLoadStatus resourceID = some kLoaded
      ∨ s.m_resourceDatabase.GetLoadStatus resourceID = some kLoading) :
    QueueLoad env s resourceID signalLoaderThread pListener
      = some (s.notifyListener pListener resourceID) := by
  have hfound : s.m_resourceDatabase.IsFound resourceID = true := by
    rcases hstatus with h | h <;> exact IsFound_of_GetLoadStatus _ _ _ h
  rcases hstatus with h | h <;> simp [QueueLoad, hvalid, hfound, h]

/-- C3, the code at the failing input.  `a` is queued with listener 1 and is Loading; a second
`QueueLoad` of `a` with the live listener 2 calls listener 2 during the call, while `a` is still
Loading, and does not register it: the drain pass that follows loads `a` and calls listener 1
only. -/
theorem QueueLoad_loading_calls_listener_at_once :
    ∃ s s1 s2, QueueLoad demoEnv (Initialize true) "a" true (liveListener 1) = some s
      ∧ s.m_resourceDatabase.GetLoadStatus "a" = some kLoading
      ∧ QueueLoad demoEnv s "a" true (liveListener 2) = some s1
      ∧ s1.m_resourceDatabase.GetLoadStatus "a" = some kLoading
      ∧ s1.trace = s.trace ++ [Event.onResourceLoaded (liveListener 2) "a"]
      ∧ s1.m_deferredResourceListenersMap "a" = [liveListener 1]
      ∧ ProcessResourceQueueThreaded demoEnv s1 = some s2
      ∧ s2.m_resourceDatabase.GetLoadStatus "a" = some kLoaded
      ∧ s2.trace = s1.trace ++ [Event.storageRead "a", Event.factoryCreate "a", Event.decode "a",
          Event.onResourceLoaded (liveListener 1) "a", Event.notifyOne] :=
  ⟨_, _, _, rfl, by decide, rfl, by decide, by decide, by decide, rfl, by decide, by decide⟩

/-- C9, the code at the failing input.  `missing` has no file: `LoadNow` with a live listener
reads nothing, leaves the entry Unloaded, and calls the listener all the same, as the last thing
it does; the loader thread does the same for a queued `missing`. -/
theorem listener_called_after_failed_load :
    ∃ s1 s2 s3, LoadNow demoEnv (Initialize true) "missing" (liveListener 1) = some s1
      ∧ s1.trace = [Event.storageRead "missing", Event.onResourceLoaded (liveListener 1) "missing"]
      ∧ s1.m_resourceDatabase.GetLoadStatus "missing" = some kUnloaded
      ∧ QueueLoad demoEnv (Initialize true) "missing" false (liveListener 1) = some s2
      ∧ ProcessResourceQueueThreaded demoEnv s2 = some s3
      ∧ s3.trace = [Event.storageRead "missing",
          Event.onResourceLoaded (liveListener 1) "missing", Event.notifyOne]
      ∧ s3.m_resourceDatabase.GetLoadStatus "missing" = some kUnloaded :=
  ⟨_, _, _, rfl, by decide, by decide, rfl, rfl, by decide, by decide⟩

/-- C10. `ReleaseResource` of a valid identifier returns, and: if the entry had one reference and
no pin, it is left Unloaded and without payload; if the entry keeps a reference after the
decrement (it had more than one), its status and payload are as before and it has one reference
less; if there is no entry, the manager is unchanged. -/
theorem ReleaseResource_spec (env : Collaborators) (s : ResourceManager)
    (resourceID : ResourceID) (hvalid : env.IsValid resourceID = true) :
    ∃ s1, ReleaseResource env s resourceID = some s1
      ∧ (∀ e, s.m_resourceDatabase.GetEntry resourceID = some e →
          e.referenceCount = 1 → e.lockCount = 0 →
          ∃ e1, s1.m_resourceDatabase.GetEntry resourceID = some e1
            ∧ e1.status = kUnloaded ∧ e1.payload = none)
      ∧ (∀ e, s.m_resourceDatabase.GetEntry resourceID = some e →
          1 < e.referenceCount →
          ∃ e1, s1.m_resourceDatabase.GetEntry resourceID = some e1
            ∧ e1.referenceCount = e.referenceCount - 1
            ∧ e1.status = e.status ∧ e1.payload = e.payload)
      ∧ (s.m_resourceDatabase.GetEntry resourceID = none → s1 = s) := by
  cases hentry : s.m_resourceDatabase.GetEntry resourceID with
  | none =>
    refine ⟨s, by simp [ReleaseResource, hvalid, hentry], ?_, ?_, fun _ => rfl⟩ <;>
      intro e he <;> cases he
  | some e0 =>
    by_cases hunload : e0.DecrementRefCount.2 = true
    · refine ⟨_, by simp [ReleaseResource, hvalid, hentry, hunload]; rfl, ?_, ?_, ?_⟩
      · intro e he _ _
        cases he
        exact ⟨e0.DecrementRefCount.1.unloaded,
          by simp [Unload, GetEntry_modifyEntry_self, hentry], rfl, rfl⟩
      · intro e he hgt
        cases he
        simp [ResourceEntry.DecrementRefCount] at hunload
        omega
      · intro h; cases h
    · refine ⟨_, by simp [ReleaseResource, hvalid, hentry, hunload]; rfl, ?_, ?_, ?_⟩
      · intro e he h1 h0
        cases he
        simp [ResourceEntry.DecrementRefCount, h1, h0] at hunload
      · intro e he _
        cases he
        exact ⟨e0.DecrementRefCount.1, by simp [GetEntry_modifyEntry_self, hentry], rfl, rfl, rfl⟩
      · intro h; cases h

/-- C10, at concrete inputs: `x` Loaded with one reference, `x` Loaded with two references, and
a manager without any entry. -/
theorem ReleaseResource_spec_witness :
    demoEnv.IsValid "x" = true
      ∧ (∃ s1 e1, ReleaseResource demoEnv (demoHeld 1) "x" = some s1
          ∧ s1.m_resourceDatabase.GetEntry "x" = some e1
          ∧ e1.status = kUnloaded ∧ e1.payload = none)
      ∧ (∃ s1 e1, ReleaseResource demoEnv (demoHeld 2) "x" = some s1
          ∧ s1.m_resourceDatabase.GetEntry "x" = some e1
          ∧ e1.referenceCount = 1 ∧ e1.status = kLoaded
          ∧ e1.payload = some { id := "x", contents := [1, 2, 3] })
      ∧ ReleaseResource demoEnv (Initialize true) "x" = some (Initialize true) := by
  obtain ⟨s1, h1, ha, -, -⟩ := ReleaseResource_spec demoEnv (demoHeld 1) "x" (by decide)
  obtain ⟨s2, h2, -, hb, -⟩ := ReleaseResource_spec demoEnv (demoHeld 2) "x" (by decide)
  obtain ⟨s3, h3, -, -, hc⟩ := ReleaseResource_spec demoEnv (Initialize true) "x" (by decide)
  obtain ⟨e1, he1, hst1, hp1⟩ := ha _ rfl rfl rfl
  obtain ⟨e2, he2, hr2, hst2, hp2⟩ := hb _ rfl (by decide)
  refine ⟨by decide, ⟨s1, e1, h1, he1, hst1, hp1⟩, ⟨s2, e2, h2, he2, hr2, hst2, hp2⟩, ?_⟩
  rw [h3, hc rfl]

/-! ## The drain pass -/

/-- The listener loop changes the trace only, by `notifyEvents`. -/
theorem notifyListeners_eq (resourceID : ResourceID) (ls : List ResourceListenerPtr)
    (s : ResourceManager) :
    notifyListeners resourceID ls s
      = { s with trace := s.trace ++ notifyEvents resourceID ls } := by
  induction ls generalizing s with
  | nil => simp [notifyListeners, notifyEvents]
  | cons listener rest ih =>
    cases hexp : listener.expired <;> simp [notifyListeners, notifyEvents, hexp, ih, record]

theorem storageReads_loadEvents (env : Collaborators) (rawData : Bytes)
    (resourceID : ResourceID) :
    storageReads (loadEvents env rawData resourceID) = [resourceID] := by
  unfold loadEvents
  split
  · rfl
  · split <;> rfl

theorem storageReads_notifyEvents (resourceID : ResourceID) (ls : List ResourceListenerPtr) :
    storageReads (notifyEvents resourceID ls) = [] := by
  induction ls with
  | nil => rfl
  | cons listener rest ih =>
    cases hexp : listener.expired <;> simp [notifyEvents, hexp, storageReads, ih]

/-- One drain reads the storage once for each identifier of the queue, in the order of the
queue. -/
theorem storageReads_drainEvents (env : Collaborators) (useRawAssets : Bool) (m : ListenersMap)
    (queue : List ResourceID) :
    storageReads (drainEvents env useRawAssets m queue) = queue := by
  induction queue generalizing m with
  | nil => rfl
  | cons front rest ih =>
    simp [drainEvents, storageReads_append, storageReads_loadEvents, storageReads_notifyEvents, ih]

/-! ## A run of `QueueLoad` calls -/

/-- The manager `QueueLoad` returns for an identifier without entry. -/
theorem QueueLoad_absent_eq (env : Collaborators) (s : ResourceManager)
    (resourceID : ResourceID) (signalLoaderThread : Bool) (pListener : ResourceListenerPtr)
    (hvalid : env.IsValid resourceID = true)
    (habsent : s.m_resourceDatabase.GetEntry resourceID = none) :
    QueueLoad env s resourceID signalLoaderThread pListener
      = some (queueLoadTail
          { s with
            m_resourceDatabase := s.m_resourceDatabase.CreateEntry resourceID
            m_deferredResourceListenersMap :=
              s.m_deferredResourceListenersMap.emplaceBack resourceID pListener }
          resourceID signalLoaderThread) := by
  have hfound : s.m_resourceDatabase.IsFound resourceID = false := by
    simp [IsFound, habsent]
  simp [QueueLoad, hvalid, hfound]

theorem notifyListener_trace (s : ResourceManager) (pListener : ResourceListenerPtr)
    (resourceID : ResourceID) :
    (s.notifyListener pListener resourceID).trace
      = s.trace
        ++ (if pListener.expired then [] else [Event.onResourceLoaded pListener resourceID]) := by
  cases h : pListener.expired <;> simp [notifyListener, record, h]

theorem listenerCalls_loadEvents (env : Collaborators) (rawData : Bytes)
    (resourceID : ResourceID) :
    listenerCalls (loadEvents env rawData resourceID) = [] := by
  unfold loadEvents
  split
  · rfl
  · split <;> rfl

/-- The scenario of the spec, run: `a`, `b`, `a` are requested with the listeners 1, 2 and 3, then
the loader thread wakes up once.  The storage is read and the bytes are decoded for `a`, then for
`b`; listener 3 is called by the third `QueueLoad` itself, listeners 1 and 2 by the pass. -/
theorem demoRequests_run :
    ∃ s1 s2, queueLoads demoEnv demoRequests (Initialize true) = some s1
      ∧ ProcessResourceQueueThreaded demoEnv s1 = some s2
      ∧ s1.m_deferredQueue = ["a", "b"]
      ∧ listenerCalls s1.trace = [(liveListener 3, "a")]
      ∧ storageReads s2.trace = ["a", "b"]
      ∧ decodes s2.trace = ["a", "b"]
      ∧ listenerCalls s2.trace
          = [(liveListener 3, "a"), (liveListener 1, "a"), (liveListener 2, "b")]
      ∧ s2.m_resourceDatabase.GetLoadStatus "a" = some kLoaded
      ∧ s2.m_resourceDatabase.GetLoadStatus "b" = some kLoaded
      ∧ s2.m_deferredQueue = [] :=
  ⟨_, _, rfl, rfl, by decide, by decide, by decide, by decide, by decide, by decide, by decide,
    by decide⟩

/-! ## Release, lock, reload -/

/-- What `ReleaseResource` does to an identifier with an entry: the entry has one reference less
and is unloaded if `DecrementRefCount` says so; nothing else changes. -/
theorem ReleaseResource_found (env : Collaborators) (s : ResourceManager)
    (resourceID : ResourceID) (e : ResourceEntry)
    (hvalid : env.IsValid resourceID = true)
    (hentry : s.m_resourceDatabase.GetEntry resourceID = some e) :
    ∃ s1, ReleaseResource env s resourceID = some s1
      ∧ s1.m_resourceDatabase.GetEntry resourceID
        = some (if e.DecrementRefCount.2 then e.DecrementRefCount.1.unloaded
            else e.DecrementRefCount.1)
      ∧ (∀ other, other ≠ resourceID →
          s1.m_resourceDatabase.GetEntry other = s.m_resourceDatabase.GetEntry other)
      ∧ s1.m_deferredQueue = s.m_deferredQueue
      ∧ s1.m_deferredResourceListenersMap = s.m_deferredResourceListenersMap
      ∧ s1.processingResourceListenersMap = s.processingResourceListenersMap
      ∧ s1.m_quitThread = s.m_quitThread
      ∧ s1.m_useRawAssets = s.m_useRawAssets
      ∧ s1.trace = s.trace := by
  by_cases hunload : e.DecrementRefCount.2 = true
  · refine ⟨{ s with
        m_resourceDatabase :=
          (s.m_resourceDatabase.modifyEntry resourceID
            (fun e => e.DecrementRefCount.1)).Unload resourceID },
      by simp [ReleaseResource, hvalid, hentry, hunload], ?_, ?_, rfl, rfl, rfl, rfl, rfl, rfl⟩
    · simp [Unload, GetEntry_modifyEntry_self, hentry, hunload]
    · intro other hne
      simp [Unload, GetEntry_modifyEntry_other _ _ _ _ hne]
  · refine ⟨{ s with
        m_resourceDatabase :=
          s.m_resourceDatabase.modifyEntry resourceID (fun e => e.DecrementRefCount.1) },
      by simp [ReleaseResource, hvalid, hentry, hunload], ?_, ?_, rfl, rfl, rfl, rfl, rfl, rfl⟩
    · simp [GetEntry_modifyEntry_self, hentry, hunload]
    · intro other hne
      simp [GetEntry_modifyEntry_other _ _ _ _ hne]

/-- C12. On an identifier whose entry is not Loaded, `ReloadResource` is `LoadNow` when forced and
`QueueLoad` with the signal when not: the same result, so the same registry, queue, listener map
and trace of listener calls, and no result in the same cases. -/
theorem ReloadResource_not_loaded (env : Collaborators) (s : ResourceManager)
    (resourceID : ResourceID) (forceLoad : Bool) (pListener : ResourceListenerPtr)
    (hstatus : s.m_resourceDatabase.GetLoadStatus resourceID ≠ some kLoaded) :
    ReloadResource env s resourceID forceLoad pListener
      = if forceLoad then LoadNow env s resourceID pListener
        else QueueLoad env s resourceID true pListener := by
  by_cases hvalid : env.IsValid resourceID = true
  · simp [ReloadResource, hvalid, hstatus]
  · cases forceLoad <;> simp [ReloadResource, LoadNow, QueueLoad, hvalid]

/-- C12, at a concrete input: `a` has no entry in a manager fresh from `Initialize`. -/
theorem ReloadResource_not_loaded_witness :
    (Initialize true).m_resourceDatabase.GetLoadStatus "a" ≠ some kLoaded
      ∧ ReloadResource demoEnv (Initialize true) "a" false (liveListener 1)
        = (if false then LoadNow demoEnv (Initialize true) "a" (liveListener 1)
          else QueueLoad demoEnv (Initialize true) "a" true (liveListener 1))
      ∧ ReloadResource demoEnv (Initialize true) "a" true (liveListener 1)
        = (if true then LoadNow demoEnv (Initialize true) "a" (liveListener 1)
          else QueueLoad demoEnv (Initialize true) "a" true (liveListener 1)) :=
  ⟨by decide,
    ReloadResource_not_loaded demoEnv (Initialize true) "a" false (liveListener 1) (by decide),
    ReloadResource_not_loaded demoEnv (Initialize true) "a" true (liveListener 1) (by decide)⟩

/-! ## The entry after a load -/

theorem GetEntry_after_load_self (env : Collaborators) (db : ResourceDatabase)
    (rawData : Bytes) (resourceID : ResourceID) :
    GetEntry
        (match decodedResource env rawData resourceID with
          | none => db.Unload resourceID
          | some loaded =>
            (db.modifyEntry resourceID (fun e => e.SetResource loaded)).SetLoadStatus
              resourceID kLoaded)
        resourceID
      = (GetEntry db resourceID).map (loadedEntry env rawData resourceID) := by
  unfold loadedEntry
  cases decodedResource env rawData resourceID with
  | none => simp [Unload, GetEntry_modifyEntry_self]
  | some loaded =>
    simp only [SetLoadStatus, GetEntry_modifyEntry_self, Option.map_map]
    rfl

theorem GetEntry_after_load_other (env : Collaborators) (db : ResourceDatabase)
    (rawData : Bytes) (resourceID other : ResourceID) (hne : other ≠ resourceID) :
    GetEntry
        (match decodedResource env rawData resourceID with
          | none => db.Unload resourceID
          | some loaded =>
            (db.modifyEntry resourceID (fun e => e.SetResource loaded)).SetLoadStatus
              resourceID kLoaded)
        other
      = GetEntry db other := by
  cases decodedResource env rawData resourceID <;>
    simp [Unload, SetLoadStatus, GetEntry_modifyEntry_other _ _ _ _ hne]

theorem loadedEntry_status (env : Collaborators) (rawData : Bytes) (resourceID : ResourceID)
    (e : ResourceEntry) :
    (loadedEntry env rawData resourceID e).status
      = if (decodedResource env rawData resourceID).isSome then kLoaded else kUnloaded := by
  unfold loadedEntry
  cases decodedResource env rawData resourceID <;> rfl

theorem loadedEntry_payload (env : Collaborators) (rawData : Bytes) (resourceID : ResourceID)
    (e : ResourceEntry) :
    (loadedEntry env rawData resourceID e).payload
      = decodedResource env rawData resourceID := by
  unfold loadedEntry
  cases decodedResource env rawData resourceID <;> rfl

/-- The end of `LoadNow` on an identifier with an entry, in full: the entry is marked Loading and
loaded, the trace grows by the events of the load and the call of the listener if it is alive,
and nothing else changes. -/
theorem loadNowTail_found (env : Collaborators) (s : ResourceManager)
    (resourceID : ResourceID) (pListener : ResourceListenerPtr) (e : ResourceEntry)
    (hvalid : env.IsValid resourceID = true)
    (hentry : s.m_resourceDatabase.GetEntry resourceID = some e) :
    ∃ s1, loadNowTail env s resourceID pListener = some s1
      ∧ s1.m_resourceDatabase.GetEntry resourceID
        = some (loadedEntry env (rawDataOf env s.m_useRawAssets resourceID) resourceID
            { e with status := kLoading })
      ∧ (∀ other, other ≠ resourceID →
          s1.m_resourceDatabase.GetEntry other = s.m_resourceDatabase.GetEntry other)
      ∧ s1.trace = s.trace
          ++ loadEvents env (rawDataOf env s.m_useRawAssets resourceID) resourceID
          ++ (if pListener.expired then []
              else [Event.onResourceLoaded pListener resourceID])
      ∧ s1.m_deferredQueue = s.m_deferredQueue
      ∧ s1.m_deferredResourceListenersMap = s.m_deferredResourceListenersMap
      ∧ s1.processingResourceListenersMap = s.processingResourceListenersMap
      ∧ s1.m_quitThread = s.m_quitThread
      ∧ s1.m_useRawAssets = s.m_useRawAssets := by
  have hentry1 : (s.m_resourceDatabase.SetLoadStatus resourceID kLoading).GetEntry resourceID
      = some { e with status := kLoading } := by
    simp [SetLoadStatus, GetEntry_modifyEntry_self, hentry]
  have hfound1 : (s.m_resourceDatabase.SetLoadStatus resourceID kLoading).IsFound resourceID
      = true := by
    simp [IsFound, hentry1]
  obtain ⟨s2, h2, hdb, ht, hq, hm, hp, hquit, hraw⟩ :=
    LoadResource_some env
      { s with m_resourceDatabase := s.m_resourceDatabase.SetLoadStatus resourceID kLoading }
      resourceID hvalid hfound1
  have hf := notifyListener_fields s2 pListener resourceID
  refine ⟨s2.notifyListener pListener resourceID, by simp [loadNowTail, h2],
    ?_, ?_, ?_, ?_, ?_, ?_, ?_, ?_⟩
  · rw [hf.1, hdb, GetEntry_after_load_self, hentry1]; rfl
  · intro other hne
    rw [hf.1, hdb, GetEntry_after_load_other _ _ _ _ _ hne]
    simp [SetLoadStatus, GetEntry_modifyEntry_other _ _ _ _ hne]
  · rw [notifyListener_trace, ht]
  · rw [hf.2.1, hq]
  · rw [hf.2.2.1, hm]
  · rw [hf.2.2.2.1, hp]
  · rw [hf.2.2.2.2.1, hquit]
  · rw [hf.2.2.2.2.2, hraw]

theorem loadEvents_of_decoded (env : Collaborators) (rawData : Bytes) (resourceID : ResourceID)
    (h : (decodedResource env rawData resourceID).isSome = true) :
    loadEvents env rawData resourceID
      = [Event.storageRead resourceID, Event.factoryCreate resourceID,
          Event.decode resourceID] := by
  obtain ⟨hraw, p, hp, -⟩ := (decodedResource_isSome_iff env rawData resourceID).1 h
  simp [loadEvents, hraw, hp]

/-! ## Handles and releases -/

/-- A `LoadResource` that returns was given a valid identifier, left the database loaded at that
identifier, wrote the events of the load, and changed nothing else. -/
theorem LoadResource_result (env : Collaborators) (s s1 : ResourceManager)
    (resourceID : ResourceID) (h : LoadResource env s resourceID = some s1) :
    env.IsValid resourceID = true
      ∧ s1.m_resourceDatabase =
        (match decodedResource env (rawDataOf env s.m_useRawAssets resourceID) resourceID with
          | none => s.m_resourceDatabase.Unload resourceID
          | some loaded =>
            (s.m_resourceDatabase.modifyEntry resourceID
              (fun e => e.SetResource loaded)).SetLoadStatus resourceID kLoaded)
      ∧ s1.trace = s.trace ++ loadEvents env (rawDataOf env s.m_useRawAssets resourceID) resourceID
      ∧ s1.m_deferredQueue = s.m_deferredQueue
      ∧ s1.m_deferredResourceListenersMap = s.m_deferredResourceListenersMap
      ∧ s1.processingResourceListenersMap = s.processingResourceListenersMap
      ∧ s1.m_quitThread = s.m_quitThread
      ∧ s1.m_useRawAssets = s.m_useRawAssets := by
  by_cases hvalid : env.IsValid resourceID = true
  · rw [LoadResource_eq env s resourceID hvalid] at h
    refine ⟨hvalid, ?_⟩
    cases hdec : decodedResource env (rawDataOf env s.m_useRawAssets resourceID) resourceID with
    | none =>
      simp only [hdec, Option.some.injEq] at h
      subst h
      exact ⟨rfl, rfl, rfl, rfl, rfl, rfl, rfl⟩
    | some loaded =>
      simp only [hdec] at h
      cases hentry : s.m_resourceDatabase.GetEntry resourceID with
      | none => simp [hentry] at h
      | some e =>
        simp only [hentry, Option.some.injEq] at h
        subst h
        exact ⟨rfl, rfl, rfl, rfl, rfl, rfl, rfl⟩
  · simp [LoadResource, hvalid] at h

theorem loadedEntry_idem (env : Collaborators) (rawData : Bytes) (resourceID : ResourceID)
    (e : ResourceEntry) :
    loadedEntry env rawData resourceID (loadedEntry env rawData resourceID e)
      = loadedEntry env rawData resourceID e := by
  unfold loadedEntry
  cases decodedResource env rawData resourceID <;> rfl

/-- A drain that returns has loaded the entries of the identifiers of its queue and no other,
has cleared their listener vectors and no other, and has left the deferred queue, the deferred
listener map and the flags as they were. -/
theorem processQueue_result (env : Collaborators) (queue : List ResourceID)
    (s s1 : ResourceManager) (h : processQueue env queue s = some s1) :
    (∀ k, s1.m_resourceDatabase.GetEntry k
        = if k ∈ queue then
            (s.m_resourceDatabase.GetEntry k).map
              (loadedEntry env (rawDataOf env s.m_useRawAssets k) k)
          else s.m_resourceDatabase.GetEntry k)
      ∧ (∀ k, s1.processingResourceListenersMap k
          = if k ∈ queue then [] else s.processingResourceListenersMap k)
      ∧ s1.m_deferredQueue = s.m_deferredQueue
      ∧ s1.m_deferredResourceListenersMap = s.m_deferredResourceListenersMap
      ∧ s1.m_quitThread = s.m_quitThread
      ∧ s1.m_useRawAssets = s.m_useRawAssets := by
  induction queue generalizing s with
  | nil =>
    simp only [processQueue, Option.some.injEq] at h
    subst h
    simp
  | cons front rest ih =>
    simp only [processQueue] at h
    cases hload : LoadResource env s front with
    | none => simp [hload] at h
    | some s2 =>
      simp only [hload] at h
      obtain ⟨-, hdb, -, hq, hm, hp, hquit, hraw⟩ := LoadResource_result env s s2 front hload
      obtain ⟨he, hl, hq1, hm1, hquit1, hraw1⟩ := ih _ h
      simp only [notifyListeners_eq] at he hl hq1 hm1 hquit1 hraw1
      refine ⟨?_, ?_, by rw [hq1, hq], by rw [hm1, hm], by rw [hquit1, hquit],
        by rw [hraw1, hraw]⟩
      · intro k
        rw [he k, hdb, hraw]
        by_cases hk : k = front
        · subst hk
          rw [GetEntry_after_load_self]
          by_cases hr : k ∈ rest
          · simp only [hr, if_true, List.mem_cons, true_or, Option.map_map]
            cases s.m_resourceDatabase.GetEntry k with
            | none => rfl
            | some e => simp [loadedEntry_idem]
          · simp [hr]
        · rw [GetEntry_after_load_other _ _ _ _ _ hk]
          simp [hk]
      · intro k
        rw [hl k]
        by_cases hk : k = front
        · subst hk
          simp [ListenersMap.set]
        · simp [ListenersMap.set, hk, hp]

/-- What `LoadNow` does to an identifier without entry, in full. -/
theorem LoadNow_absent_found (env : Collaborators) (s : ResourceManager)
    (resourceID : ResourceID) (pListener : ResourceListenerPtr)
    (hvalid : env.IsValid resourceID = true)
    (habsent : s.m_resourceDatabase.GetEntry resourceID = none) :
    ∃ s1, LoadNow env s resourceID pListener = some s1
      ∧ s1.m_resourceDatabase.GetEntry resourceID
        = some (loadedEntry env (rawDataOf env s.m_useRawAssets resourceID) resourceID
            { ResourceEntry.fresh with status := kLoading })
      ∧ (∀ other, other ≠ resourceID →
          s1.m_resourceDatabase.GetEntry other = s.m_resourceDatabase.GetEntry other)
      ∧ s1.trace = s.trace
          ++ loadEvents env (rawDataOf env s.m_useRawAssets resourceID) resourceID
          ++ (if pListener.expired then []
              else [Event.onResourceLoaded pListener resourceID])
      ∧ s1.m_deferredQueue = s.m_deferredQueue
      ∧ s1.m_deferredResourceListenersMap = s.m_deferredResourceListenersMap
      ∧ s1.m_quitThread = s.m_quitThread
      ∧ s1.m_useRawAssets = s.m_useRawAssets := by
  have hnotfound : s.m_resourceDatabase.IsFound resourceID = false := by
    simp [IsFound, habsent]
  obtain ⟨s1, h1, he1, hother, ht, hq, hm, -, hquit, hraw⟩ :=
    loadNowTail_found env
      { s with m_resourceDatabase := s.m_resourceDatabase.CreateEntry resourceID }
      resourceID pListener ResourceEntry.fresh hvalid
      (GetEntry_CreateEntry_self _ _)
  refine ⟨s1, by simp [LoadNow, hvalid, hnotfound, h1], he1, ?_, ht, hq, hm, hquit, hraw⟩
  intro other hne
  rw [hother other hne]
  exact GetEntry_CreateEntry_other _ _ _ hne

/-- What `LoadNow` does to an identifier whose entry is neither Loaded nor Loading, in full. -/
theorem LoadNow_unloaded_found (env : Collaborators) (s : ResourceManager)
    (resourceID : ResourceID) (pListener : ResourceListenerPtr) (e : ResourceEntry)
    (hvalid : env.IsValid resourceID = true)
    (hentry : s.m_resourceDatabase.GetEntry resourceID = some e)
    (hloaded : e.status ≠ kLoaded) (hloading : e.status ≠ kLoading) :
    ∃ s1, LoadNow env s resourceID pListener = some s1
      ∧ s1.m_resourceDatabase.GetEntry resourceID
        = some (loadedEntry env (rawDataOf env s.m_useRawAssets resourceID) resourceID
            { e with status := kLoading })
      ∧ (∀ other, other ≠ resourceID →
          s1.m_resourceDatabase.GetEntry other = s.m_resourceDatabase.GetEntry other)
      ∧ s1.trace = s.trace
          ++ loadEvents env (rawDataOf env s.m_useRawAssets resourceID) resourceID
          ++ (if pListener.expired then []
              else [Event.onResourceLoaded pListener resourceID])
      ∧ s1.m_deferredQueue = s.m_deferredQueue
      ∧ s1.m_deferredResourceListenersMap = s.m_deferredResourceListenersMap
      ∧ s1.m_quitThread = s.m_quitThread
      ∧ s1.m_useRawAssets = s.m_useRawAssets := by
  have hfound : s.m_resourceDatabase.IsFound resourceID = true := by
    simp [IsFound, hentry]
  obtain ⟨s1, h1, he1, hother, ht, hq, hm, -, hquit, hraw⟩ :=
    loadNowTail_found env s resourceID pListener e hvalid hentry
  refine ⟨s1, ?_, he1, hother, ht, hq, hm, hquit, hraw⟩
  simp [LoadNow, hvalid, hfound, GetLoadStatus, hentry, hloaded, hloading, h1]

/-- What `QueueLoad` does to an identifier whose entry is neither Loaded nor Loading, in full. -/
theorem QueueLoad_unloaded_found (env : Collaborators) (s : ResourceManager)
    (resourceID : ResourceID) (signalLoaderThread : Bool) (pListener : ResourceListenerPtr)
    (e : ResourceEntry)
    (hvalid : env.IsValid resourceID = true)
    (hentry : s.m_resourceDatabase.GetEntry resourceID = some e)
    (hloaded : e.status ≠ kLoaded) (hloading : e.status ≠ kLoading) :
    ∃ s1, QueueLoad env s resourceID signalLoaderThread pListener = some s1
      ∧ s1.m_resourceDatabase.GetEntry resourceID = some { e with status := kLoading }
      ∧ (∀ other, other ≠ resourceID →
          s1.m_resourceDatabase.GetEntry other = s.m_resourceDatabase.GetEntry other)
      ∧ s1.m_deferredQueue = s.m_deferredQueue ++ [resourceID]
      ∧ s1.m_deferredResourceListenersMap
        = s.m_deferredResourceListenersMap.emplaceBack resourceID pListener
      ∧ s1.m_quitThread = s.m_quitThread
      ∧ s1.m_useRawAssets = s.m_useRawAssets
      ∧ s1.trace = s.trace ++ (if signalLoaderThread then [Event.notifyOne] else []) := by
  have hfound : s.m_resourceDatabase.IsFound resourceID = true := by
    simp [IsFound, hentry]
  obtain ⟨hdb, hq0, hm0, -, hquit0, hraw0, ht0⟩ := queueLoadTail_fields
    { s with
      m_deferredResourceListenersMap :=
        s.m_deferredResourceListenersMap.emplaceBack resourceID pListener }
    resourceID signalLoaderThread
  refine ⟨_, ?_, ?_, ?_, hq0, hm0, hquit0, hraw0, ht0⟩
  · simp [QueueLoad, hvalid, hfound, GetLoadStatus, hentry, hloaded, hloading]
  · rw [hdb]; simp [SetLoadStatus, GetEntry_modifyEntry_self, hentry]
  · intro other hne
    rw [hdb]; simp [SetLoadStatus, GetEntry_modifyEntry_other _ _ _ _ hne]

/-- A wake-up of the loader thread that is not told to quit and returns has loaded the entries of
the queued identifiers and no other. -/
theorem pass_result (env : Collaborators) (s s1 : ResourceManager)
    (hquit : s.m_quitThread = false)
    (h : ProcessResourceQueueThreaded env s = some s1) :
    ∀ k, s1.m_resourceDatabase.GetEntry k
      = if k ∈ s.m_deferredQueue then
          (s.m_resourceDatabase.GetEntry k).map
            (loadedEntry env (rawDataOf env s.m_useRawAssets k) k)
        else s.m_resourceDatabase.GetEntry k := by
  unfold ProcessResourceQueueThreaded at h
  rw [if_neg (by simp [hquit])] at h
  by_cases hempty : s.m_deferredQueue.isEmpty = true
  · rw [if_pos hempty] at h
    simp only [Option.some.injEq] at h
    subst h
    intro k
    simp [List.isEmpty_iff.1 hempty]
  · rw [if_neg hempty] at h
    cases hp : processQueue env s.m_deferredQueue
        { s with
          m_deferredQueue := []
          m_deferredResourceListenersMap := s.processingResourceListenersMap
          processingResourceListenersMap := s.m_deferredResourceListenersMap } with
    | none => simp [hp] at h
    | some s2 =>
      simp only [hp, Option.some.injEq] at h
      subst h
      obtain ⟨he, -⟩ := processQueue_result env _ _ _ hp
      intro k
      simpa [record] using he k

/-- The round trip of `x`, run: the first load and the reload after two handles were taken and
released both end Loaded with the payload decoded from the three bytes of the file. -/
theorem demo_round_trip :
    ∃ s1 s2 s3, LoadNow demoEnv (Initialize true) "x" (liveListener 1) = some s1
      ∧ s1.m_resourceDatabase.GetEntry "x"
        = some { status := kLoaded, referenceCount := 0, lockCount := 0,
                 payload := some { id := "x", contents := [1, 2, 3] } }
      ∧ releaseTimes demoEnv "x" 2 (acquireHandles "x" 2 s1) = some s2
      ∧ s2.m_resourceDatabase.GetEntry "x"
        = some { status := kUnloaded, referenceCount := 0, lockCount := 0, payload := none }
      ∧ ReloadResource demoEnv s2 "x" true (liveListener 2) = some s3
      ∧ s3.m_resourceDatabase.GetEntry "x"
        = some { status := kLoaded, referenceCount := 0, lockCount := 0,
                 payload := some { id := "x", contents := [1, 2, 3] } } :=
  ⟨_, _, _, rfl, by decide, rfl, by decide, rfl, by decide⟩

theorem PayloadIffLoaded_loadedEntry (env : Collaborators) (rawData : Bytes)
    (resourceID : ResourceID) (e : ResourceEntry) :
    (loadedEntry env rawData resourceID e).PayloadIffLoaded := by
  unfold ResourceEntry.PayloadIffLoaded
  rw [loadedEntry_status, loadedEntry_payload]
  cases decodedResource env rawData resourceID <;> simp

/-- A database keeps the invariant when each identifier finds what it found before or an entry
with the invariant. -/
theorem PayloadIffLoaded_of_view (db db1 : ResourceDatabase)
    (hinv : ResourceDatabase.PayloadIffLoaded db)
    (h : ∀ k, GetEntry db1 k = GetEntry db k
      ∨ ∃ e, GetEntry db1 k = some e ∧ e.PayloadIffLoaded) :
    ResourceDatabase.PayloadIffLoaded db1 := by
  intro k e he
  rcases h k with hk | ⟨e1, hk, hinv1⟩
  · exact hinv k e (hk ▸ he)
  · rw [hk] at he
    cases he
    exact hinv1

/-- A database keeps the invariant when the entry of one identifier is replaced by one with the
invariant and the others find what they found. -/
theorem PayloadIffLoaded_of_one (db db1 : ResourceDatabase) (resourceID : ResourceID)
    (e1 : ResourceEntry)
    (hinv : ResourceDatabase.PayloadIffLoaded db)
    (hself : GetEntry db1 resourceID = some e1) (hinv1 : e1.PayloadIffLoaded)
    (hother : ∀ other, other ≠ resourceID → GetEntry db1 other = GetEntry db other) :
    ResourceDatabase.PayloadIffLoaded db1 := by
  apply PayloadIffLoaded_of_view db db1 hinv
  intro k
  by_cases hk : k = resourceID
  · subst hk; exact Or.inr ⟨e1, hself, hinv1⟩
  · exact Or.inl (hother k hk)

theorem PayloadIffLoaded_setLoading (e : ResourceEntry) (hinv : e.PayloadIffLoaded)
    (hloaded : e.status ≠ kLoaded) :
    ResourceEntry.PayloadIffLoaded { e with status := kLoading } := by
  unfold ResourceEntry.PayloadIffLoaded at hinv ⊢
  constructor
  · intro h; exact absurd (hinv.1 h) hloaded
  · intro h; cases h

theorem QueueLoad_keeps_PayloadIffLoaded (env : Collaborators) (s s1 : ResourceManager)
    (resourceID : ResourceID) (signalLoaderThread : Bool) (pListener : ResourceListenerPtr)
    (hinv : ResourceDatabase.PayloadIffLoaded s.m_resourceDatabase)
    (h : QueueLoad env s resourceID signalLoaderThread pListener = some s1) :
    ResourceDatabase.PayloadIffLoaded s1.m_resourceDatabase := by
  by_cases hvalid : env.IsValid resourceID = true
  · cases hentry : s.m_resourceDatabase.GetEntry resourceID with
    | none =>
      rw [QueueLoad_absent_eq env s resourceID signalLoaderThread pListener hvalid hentry] at h
      cases h
      apply PayloadIffLoaded_of_one s.m_resourceDatabase _ resourceID
        { ResourceEntry.fresh with status := kLoading } hinv
      · rw [(queueLoadTail_fields _ _ _).1]
        simp [SetLoadStatus, GetEntry_modifyEntry_self, GetEntry_CreateEntry_self]
      · unfold ResourceEntry.PayloadIffLoaded; simp [ResourceEntry.fresh]
      · intro other hne
        rw [(queueLoadTail_fields _ _ _).1]
        simp [SetLoadStatus, GetEntry_modifyEntry_other _ _ _ _ hne,
          GetEntry_CreateEntry_other _ _ _ hne]
    | some e =>
      by_cases hst : e.status = kLoaded ∨ e.status = kLoading
      · rw [QueueLoad_loaded_or_loading_eq env s resourceID signalLoaderThread pListener hvalid
          (by rcases hst with h1 | h1 <;> simp [GetLoadStatus, hentry, h1])] at h
        cases h
        rw [(notifyListener_fields s pListener resourceID).1]
        exact hinv
      · have hl : e.status ≠ kLoaded := fun h1 => hst (Or.inl h1)
        have hg : e.status ≠ kLoading := fun h1 => hst (Or.inr h1)
        obtain ⟨s2, h2, he2, hother, -⟩ :=
          QueueLoad_unloaded_found env s resourceID signalLoaderThread pListener e hvalid
            hentry hl hg
        rw [h2] at h
        cases h
        exact PayloadIffLoaded_of_one s.m_resourceDatabase _ resourceID _ hinv he2
          (PayloadIffLoaded_setLoading e (hinv _ _ hentry) hl) hother
  · simp [QueueLoad, hvalid] at h

theorem LoadNow_keeps_PayloadIffLoaded (env : Collaborators) (s s1 : ResourceManager)
    (resourceID : ResourceID) (pListener : ResourceListenerPtr)
    (hinv : ResourceDatabase.PayloadIffLoaded s.m_resourceDatabase)
    (h : LoadNow env s resourceID pListener = some s1) :
    ResourceDatabase.PayloadIffLoaded s1.m_resourceDatabase := by
  by_cases hvalid : env.IsValid resourceID = true
  · cases hentry : s.m_resourceDatabase.GetEntry resourceID with
    | none =>
      obtain ⟨s2, h2, he2, hother, -⟩ :=
        LoadNow_absent_found env s resourceID pListener hvalid hentry
      rw [h2] at h
      cases h
      exact PayloadIffLoaded_of_one s.m_resourceDatabase _ resourceID _ hinv he2
        (PayloadIffLoaded_loadedEntry env _ _ _) hother
    | some e =>
      by_cases hst : e.status = kLoaded ∨ e.status = kLoading
      · have hfound : s.m_resourceDatabase.IsFound resourceID = true := by
          simp [IsFound, hentry]
        have : LoadNow env s resourceID pListener = some s := by
          rcases hst with h1 | h1 <;>
            simp [LoadNow, hvalid, hfound, GetLoadStatus, hentry, h1]
        rw [this] at h
        cases h
        exact hinv
      · have hl : e.status ≠ kLoaded := fun h1 => hst (Or.inl h1)
        have hg : e.status ≠ kLoading := fun h1 => hst (Or.inr h1)
        obtain ⟨s2, h2, he2, hother, -⟩ :=
          LoadNow_unloaded_found env s resourceID pListener e hvalid hentry hl hg
        rw [h2] at h
        cases h
        exact PayloadIffLoaded_of_one s.m_resourceDatabase _ resourceID _ hinv he2
          (PayloadIffLoaded_loadedEntry env _ _ _) hother
  · simp [LoadNow, hvalid] at h

theorem Unload_keeps_PayloadIffLoaded (db : ResourceDatabase) (resourceID : ResourceID)
    (hinv : ResourceDatabase.PayloadIffLoaded db) :
    ResourceDatabase.PayloadIffLoaded (db.Unload resourceID) := by
  apply PayloadIffLoaded_of_view db _ hinv
  intro k
  by_cases hk : k = resourceID
  · subst hk
    cases hentry : db.GetEntry k with
    | none => left; simp [Unload, GetEntry_modifyEntry_self, hentry]
    | some e =>
      right
      refine ⟨e.unloaded, by simp [Unload, GetEntry_modifyEntry_self, hentry], ?_⟩
      unfold ResourceEntry.PayloadIffLoaded
      simp [ResourceEntry.unloaded]
  · left; simp [Unload, GetEntry_modifyEntry_other _ _ _ _ hk]

/-- A change of the counts of one entry keeps the invariant. -/
theorem modifyEntry_keeps_PayloadIffLoaded (db : ResourceDatabase) (resourceID : ResourceID)
    (f : ResourceEntry → ResourceEntry)
    (hf : ∀ e, (f e).status = e.status ∧ (f e).payload = e.payload)
    (hinv : ResourceDatabase.PayloadIffLoaded db) :
    ResourceDatabase.PayloadIffLoaded (db.modifyEntry resourceID f) := by
  apply PayloadIffLoaded_of_view db _ hinv
  intro k
  by_cases hk : k = resourceID
  · subst hk
    cases hentry : db.GetEntry k with
    | none => left; simp [GetEntry_modifyEntry_self, hentry]
    | some e =>
      right
      refine ⟨f e, by simp [GetEntry_modifyEntry_self, hentry], ?_⟩
      have := hinv k e hentry
      unfold ResourceEntry.PayloadIffLoaded at this ⊢
      rw [(hf e).1, (hf e).2]
      exact this
  · left; simp [GetEntry_modifyEntry_other _ _ _ _ hk]

theorem ReleaseResource_keeps_PayloadIffLoaded (env : Collaborators) (s s1 : ResourceManager)
    (resourceID : ResourceID)
    (hinv : ResourceDatabase.PayloadIffLoaded s.m_resourceDatabase)
    (h : ReleaseResource env s resourceID = some s1) :
    ResourceDatabase.PayloadIffLoaded s1.m_resourceDatabase := by
  by_cases hvalid : env.IsValid resourceID = true
  · have hdec := modifyEntry_keeps_PayloadIffLoaded s.m_resourceDatabase resourceID
      (fun e => e.DecrementRefCount.1) (fun e => ⟨rfl, rfl⟩) hinv
    cases hentry : s.m_resourceDatabase.GetEntry resourceID with
    | none =>
      simp [ReleaseResource, hvalid, hentry] at h
      subst h
      exact hinv
    | some e =>
      by_cases hunload : e.DecrementRefCount.2 = true
      · simp [ReleaseResource, hvalid, hentry, hunload] at h
        subst h
        exact Unload_keeps_PayloadIffLoaded _ _ hdec
      · simp [ReleaseResource, hvalid, hentry, hunload] at h
        subst h
        exact hdec
  · simp [ReleaseResource, hvalid] at h

theorem ReloadResource_keeps_PayloadIffLoaded (env : Collaborators) (s s1 : ResourceManager)
    (resourceID : ResourceID) (forceLoad : Bool) (pListener : ResourceListenerPtr)
    (hinv : ResourceDatabase.PayloadIffLoaded s.m_resourceDatabase)
    (h : ReloadResource env s resourceID forceLoad pListener = some s1) :
    ResourceDatabase.PayloadIffLoaded s1.m_resourceDatabase := by
  by_cases hvalid : env.IsValid resourceID = true
  · by_cases hst : s.m_resourceDatabase.GetLoadStatus resourceID = some kLoaded
    · have hunl := Unload_keeps_PayloadIffLoaded _ resourceID hinv
      cases forceLoad
      · simp only [ReloadResource, hvalid, hst] at h
        exact QueueLoad_keeps_PayloadIffLoaded env _ s1 resourceID true pListener hunl
          (by simpa using h)
      · simp only [ReloadResource, hvalid, hst] at h
        exact LoadNow_keeps_PayloadIffLoaded env _ s1 resourceID pListener hunl
          (by simpa using h)
    · cases forceLoad
      · exact QueueLoad_keeps_PayloadIffLoaded env _ s1 resourceID true pListener hinv
          (by simpa [ReloadResource, hvalid, hst] using h)
      · exact LoadNow_keeps_PayloadIffLoaded env _ s1 resourceID pListener hinv
          (by simpa [ReloadResource, hvalid, hst] using h)
  · simp [ReloadResource, hvalid] at h

theorem LockResource_keeps_PayloadIffLoaded (env : Collaborators) (s s1 : ResourceManager)
    (resourceID : ResourceID)
    (hinv : ResourceDatabase.PayloadIffLoaded s.m_resourceDatabase)
    (h : LockResource env s resourceID = some s1) :
    ResourceDatabase.PayloadIffLoaded s1.m_resourceDatabase := by
  by_cases hvalid : env.IsValid resourceID = true
  · cases hentry : s.m_resourceDatabase.GetEntry resourceID with
    | none =>
      simp [LockResource, hvalid, hentry] at h
      subst h
      exact hinv
    | some e =>
      simp [LockResource, hvalid, hentry] at h
      subst h
      exact modifyEntry_keeps_PayloadIffLoaded _ _ _ (fun e => ⟨rfl, rfl⟩) hinv
  · simp [LockResource, hvalid] at h

theorem UnlockResource_keeps_PayloadIffLoaded (env : Collaborators) (s s1 : ResourceManager)
    (resourceID : ResourceID)
    (hinv : ResourceDatabase.PayloadIffLoaded s.m_resourceDatabase)
    (h : UnlockResource env s resourceID = some s1) :
    ResourceDatabase.PayloadIffLoaded s1.m_resourceDatabase := by
  by_cases hvalid : env.IsValid resourceID = true
  · cases hentry : s.m_resourceDatabase.GetEntry resourceID with
    | none =>
      simp [UnlockResource, hvalid, hentry] at h
      subst h
      exact hinv
    | some e =>
      simp [UnlockResource, hvalid, hentry] at h
      subst h
      exact modifyEntry_keeps_PayloadIffLoaded _ _ _ (fun e => ⟨rfl, rfl⟩) hinv
  · simp [UnlockResource, hvalid] at h

theorem GetResource_keeps_PayloadIffLoaded (env : Collaborators) (s s1 : ResourceManager)
    (resourceID : ResourceID) (forceLoad : Bool) (pResource : Option Resource)
    (hinv : ResourceDatabase.PayloadIffLoaded s.m_resourceDatabase)
    (h : GetResource env s resourceID forceLoad = some (pResource, s1)) :
    ResourceDatabase.PayloadIffLoaded s1.m_resourceDatabase := by
  by_cases hvalid : env.IsValid resourceID = true
  · cases hentry : s.m_resourceDatabase.GetEntry resourceID with
    | none =>
      cases forceLoad
      · simp [GetResource, hvalid, hentry] at h
        rw [← h.2]
        exact hinv
      · cases hload : LoadNow env s resourceID ResourceListenerPtr.null with
        | none => simp [GetResource, hvalid, hentry, hload] at h
        | some s2 =>
          have hinv2 := LoadNow_keeps_PayloadIffLoaded env s s2 resourceID _ hinv hload
          simp only [GetResource, hvalid, hentry, hload] at h
          cases hentry2 : s2.m_resourceDatabase.GetEntry resourceID with
          | none =>
            simp [hentry2] at h
            rw [← h.2]
            exact hinv2
          | some e2 =>
            simp [hentry2] at h
            rw [← h.2]
            exact hinv2
    | some e =>
      simp [GetResource, hvalid, hentry] at h
      rw [← h.2]
      exact hinv
  · simp [GetResource, hvalid] at h

theorem pass_keeps_PayloadIffLoaded (env : Collaborators) (s s1 : ResourceManager)
    (hinv : ResourceDatabase.PayloadIffLoaded s.m_resourceDatabase)
    (h : ProcessResourceQueueThreaded env s = some s1) :
    ResourceDatabase.PayloadIffLoaded s1.m_resourceDatabase := by
  cases hquit : s.m_quitThread with
  | true =>
    simp [ProcessResourceQueueThreaded, hquit] at h
    subst h
    exact hinv
  | false =>
    have hview := pass_result env s s1 hquit h
    apply PayloadIffLoaded_of_view s.m_resourceDatabase _ hinv
    intro k
    rw [hview k]
    by_cases hk : k ∈ s.m_deferredQueue
    · cases hentry : s.m_resourceDatabase.GetEntry k with
      | none => left; simp [hk]
      | some e =>
        right
        exact ⟨loadedEntry env (rawDataOf env s.m_useRawAssets k) k e, by simp [hk],
          PayloadIffLoaded_loadedEntry env _ k e⟩
    · left; simp [hk]

/-- In every reachable state every entry has a payload exactly when it is Loaded. -/
theorem Reachable_PayloadIffLoaded (env : Collaborators) (s : ResourceManager)
    (hreach : Reachable env s) :
    ResourceDatabase.PayloadIffLoaded s.m_resourceDatabase := by
  induction hreach with
  | start useRawAssets =>
    intro k e he
    simp [Initialize, GetEntry] at he
  | queueLoad resourceID signalLoaderThread pListener _ h ih =>
    exact QueueLoad_keeps_PayloadIffLoaded env _ _ _ _ _ ih h
  | loadNow resourceID pListener _ h ih =>
    exact LoadNow_keeps_PayloadIffLoaded env _ _ _ _ ih h
  | releaseResource resourceID _ h ih =>
    exact ReleaseResource_keeps_PayloadIffLoaded env _ _ _ ih h
  | reloadResource resourceID forceLoad pListener _ h ih =>
    exact ReloadResource_keeps_PayloadIffLoaded env _ _ _ _ _ ih h
  | lockResource resourceID _ h ih =>
    exact LockResource_keeps_PayloadIffLoaded env _ _ _ ih h
  | unlockResource resourceID _ h ih =>
    exact UnlockResource_keeps_PayloadIffLoaded env _ _ _ ih h
  | getResource resourceID forceLoad pResource _ h ih =>
    exact GetResource_keeps_PayloadIffLoaded env _ _ _ _ _ ih h
  | drainPass _ h ih =>
    exact pass_keeps_PayloadIffLoaded env _ _ ih h

/-! ## The order of one drain -/

theorem notifyEvents_eq_map (resourceID : ResourceID) (ls : List ResourceListenerPtr) :
    notifyEvents resourceID ls
      = (ls.filter (fun l => !l.expired)).map (fun l => Event.onResourceLoaded l resourceID) := by
  induction ls with
  | nil => rfl
  | cons listener rest ih =>
    cases hexp : listener.expired <;> simp [notifyEvents, hexp, ih]

/-- The drain of a queue in two parts: the second part finds the vectors of the identifiers of
the first part cleared. -/
theorem drainEvents_append (env : Collaborators) (useRawAssets : Bool) (m : ListenersMap)
    (first second : List ResourceID) :
    drainEvents env useRawAssets m (first ++ second)
      = drainEvents env useRawAssets m first
        ++ drainEvents env useRawAssets (fun k => if k ∈ first then [] else m k) second := by
  induction first generalizing m with
  | nil => simp [drainEvents]
  | cons front rest ih =>
    have hfun : (fun k => if k ∈ rest then [] else (m.set front []) k)
        = (fun k => if k ∈ front :: rest then [] else m k) := by
      funext k
      by_cases hk : k = front
      · subst hk; simp [ListenersMap.set]
      · simp [ListenersMap.set, hk]
    rw [List.cons_append]
    simp only [drainEvents]
    rw [ih, hfun]
    simp only [List.append_assoc]

/-- A wake-up of the loader thread that is not told to quit, has something queued and returns:
the deferred queue is empty, the deferred listener map is the map the thread held before, and the
map the thread holds now is the former deferred one with the vectors of the queued identifiers
cleared. -/
theorem pass_result_maps (env : Collaborators) (s s1 : ResourceManager)
    (hquit : s.m_quitThread = false) (hnonempty : s.m_deferredQueue ≠ [])
    (h : ProcessResourceQueueThreaded env s = some s1) :
    s1.m_deferredQueue = []
      ∧ s1.m_deferredResourceListenersMap = s.processingResourceListenersMap
      ∧ (∀ k, s1.processingResourceListenersMap k
          = if k ∈ s.m_deferredQueue then [] else s.m_deferredResourceListenersMap k) := by
  unfold ProcessResourceQueueThreaded at h
  have hempty : ¬ s.m_deferredQueue.isEmpty = true := by
    simpa [List.isEmpty_iff] using hnonempty
  rw [if_neg (by simp [hquit]), if_neg hempty] at h
  cases hp : processQueue env s.m_deferredQueue
      { s with
        m_deferredQueue := []
        m_deferredResourceListenersMap := s.processingResourceListenersMap
        processingResourceListenersMap := s.m_deferredResourceListenersMap } with
  | none => simp [hp] at h
  | some s2 =>
    simp only [hp, Option.some.injEq] at h
    subst h
    obtain ⟨-, hl, hq, hm, -⟩ := processQueue_result env _ _ _ hp
    exact ⟨by simpa [record] using hq, by simpa [record] using hm,
      fun k => by simpa [record] using hl k⟩

/-! ## Expired listeners -/

theorem withoutTrace_notifyListener (s : ResourceManager) (pListener : ResourceListenerPtr)
    (resourceID : ResourceID) :
    (s.notifyListener pListener resourceID).withoutTrace = s.withoutTrace := by
  unfold notifyListener record withoutTrace
  split <;> rfl

theorem notifyListener_expired (s : ResourceManager) (pListener : ResourceListenerPtr)
    (resourceID : ResourceID) (hexp : pListener.expired = true) :
    s.notifyListener pListener resourceID = s := by
  simp [notifyListener, hexp]

theorem loadNowTail_eq_map (env : Collaborators) (s : ResourceManager)
    (resourceID : ResourceID) (pListener : ResourceListenerPtr) :
    loadNowTail env s resourceID pListener
      = (LoadResource env
          { s with
            m_resourceDatabase := s.m_resourceDatabase.SetLoadStatus resourceID kLoading }
          resourceID).map (fun t => t.notifyListener pListener resourceID) := by
  cases h : LoadResource env
    { s with m_resourceDatabase := s.m_resourceDatabase.SetLoadStatus resourceID kLoading }
    resourceID <;> simp [loadNowTail, h]

theorem loadNowTail_withoutTrace (env : Collaborators) (s : ResourceManager)
    (resourceID : ResourceID) (pListener pListener2 : ResourceListenerPtr) :
    (loadNowTail env s resourceID pListener).map withoutTrace
      = (loadNowTail env s resourceID pListener2).map withoutTrace := by
  rw [loadNowTail_eq_map, loadNowTail_eq_map]
  cases LoadResource env
    { s with m_resourceDatabase := s.m_resourceDatabase.SetLoadStatus resourceID kLoading }
    resourceID with
  | none => rfl
  | some t => simp [withoutTrace_notifyListener]

theorem loadNowTail_expired_calls (env : Collaborators) (s s1 : ResourceManager)
    (resourceID : ResourceID) (pListener : ResourceListenerPtr)
    (hexp : pListener.expired = true)
    (h : loadNowTail env s resourceID pListener = some s1) :
    listenerCalls s1.trace = listenerCalls s.trace := by
  rw [loadNowTail_eq_map] at h
  cases hload : LoadResource env
    { s with m_resourceDatabase := s.m_resourceDatabase.SetLoadStatus resourceID kLoading }
    resourceID with
  | none => simp [hload] at h
  | some t =>
    simp only [hload, Option.map_some', Option.some.injEq] at h
    rw [notifyListener_expired t pListener resourceID hexp] at h
    subst h
    obtain ⟨-, -, ht, -⟩ := LoadResource_result env _ _ _ hload
    rw [ht]
    simp [listenerCalls_append, listenerCalls_loadEvents]

/-- What `LoadNow` leaves in the members does not depend on the listener it is given. -/
theorem LoadNow_withoutTrace (env : Collaborators) (s : ResourceManager)
    (resourceID : ResourceID) (pListener pListener2 : ResourceListenerPtr) :
    (LoadNow env s resourceID pListener).map withoutTrace
      = (LoadNow env s resourceID pListener2).map withoutTrace := by
  unfold LoadNow
  split
  · rfl
  · split
    · exact loadNowTail_withoutTrace env _ resourceID pListener pListener2
    · split
      · rfl
      · exact loadNowTail_withoutTrace env _ resourceID pListener pListener2

/-- A `LoadNow` with an expired listener calls no listener. -/
theorem LoadNow_expired_calls (env : Collaborators) (s s1 : ResourceManager)
    (resourceID : ResourceID) (pListener : ResourceListenerPtr)
    (hexp : pListener.expired = true)
    (h : LoadNow env s resourceID pListener = some s1) :
    listenerCalls s1.trace = listenerCalls s.trace := by
  unfold LoadNow at h
  split at h
  · cases h
  · split at h
    · have := loadNowTail_expired_calls env _ s1 resourceID pListener hexp h
      exact this
    · split at h
      · cases h; rfl
      · exact loadNowTail_expired_calls env s s1 resourceID pListener hexp h

/-- The drain does to the database what it does whatever the listener maps and the trace hold:
two managers with the same database and the same `m_useRawAssets` both run the drain to its end,
or neither, and end with the same database. -/
theorem processQueue_listeners_irrelevant (env : Collaborators) (queue : List ResourceID)
    (s t s1 : ResourceManager)
    (hdb : t.m_resourceDatabase = s.m_resourceDatabase)
    (hraw : t.m_useRawAssets = s.m_useRawAssets)
    (h : processQueue env queue s = some s1) :
    ∃ t1, processQueue env queue t = some t1
      ∧ t1.m_resourceDatabase = s1.m_resourceDatabase
      ∧ t1.m_deferredQueue = t.m_deferredQueue
      ∧ t1.m_deferredResourceListenersMap = t.m_deferredResourceListenersMap := by
  induction queue generalizing s t with
  | nil =>
    simp only [processQueue, Option.some.injEq] at h
    subst h
    exact ⟨t, rfl, hdb, rfl, rfl⟩
  | cons front rest ih =>
    simp only [processQueue] at h
    cases hload : LoadResource env s front with
    | none => simp [hload] at h
    | some s2 =>
      simp only [hload] at h
      obtain ⟨hvalid, hdb2, -, -, -, -, -, hraw2⟩ := LoadResource_result env s s2 front hload
      have hfound : s.m_resourceDatabase.IsFound front = true
          ∨ decodedResource env (rawDataOf env s.m_useRawAssets front) front = none := by
        rw [LoadResource_eq env s front hvalid] at hload
        cases hdec : decodedResource env (rawDataOf env s.m_useRawAssets front) front with
        | none => exact Or.inr rfl
        | some loaded =>
          left
          cases hentry : s.m_resourceDatabase.GetEntry front with
          | none => simp [hdec, hentry] at hload
          | some e => simp [IsFound, hentry]
      have hloadt : ∃ t2, LoadResource env t front = some t2
          ∧ t2.m_resourceDatabase = s2.m_resourceDatabase
          ∧ t2.m_useRawAssets = s2.m_useRawAssets
          ∧ t2.m_deferredQueue = t.m_deferredQueue
          ∧ t2.m_deferredResourceListenersMap = t.m_deferredResourceListenersMap := by
        rw [LoadResource_eq env t front hvalid, hraw, hdb]
        cases hdec : decodedResource env (rawDataOf env s.m_useRawAssets front) front with
        | none =>
          refine ⟨_, rfl, ?_, ?_, rfl, rfl⟩
          · rw [hdb2, hdec]
          · simp [hraw2, hraw]
        | some loaded =>
          rcases hfound with hf | hf
          · cases hentry : s.m_resourceDatabase.GetEntry front with
            | none => simp [IsFound, hentry] at hf
            | some e =>
              refine ⟨_, rfl, ?_, ?_, rfl, rfl⟩
              · rw [hdb2, hdec]
              · simp [hraw2, hraw]
          · rw [hdec] at hf; cases hf
      obtain ⟨t2, ht2, hdbt, hrawt, hqt, hmt⟩ := hloadt
      obtain ⟨t1, ht1, hdb1, hq1, hm1⟩ :=
        ih _
          { notifyListeners front (t2.processingResourceListenersMap front) t2 with
            processingResourceListenersMap :=
              (notifyListeners front (t2.processingResourceListenersMap front)
                t2).processingResourceListenersMap.set front [] }
          (by simp [notifyListeners_eq, hdbt])
          (by simp [notifyListeners_eq, hrawt])
          h
      refine ⟨t1, by simp [processQueue, ht2, ht1], hdb1, ?_, ?_⟩
      · rw [hq1]; simp [notifyListeners_eq, hqt]
      · rw [hm1]; simp [notifyListeners_eq, hmt]

theorem listenerCalls_map_onResourceLoaded (resourceID : ResourceID)
    (ls : List ResourceListenerPtr) :
    listenerCalls (ls.map (fun l => Event.onResourceLoaded l resourceID))
      = ls.map (fun l => (l, resourceID)) := by
  induction ls with
  | nil => rfl
  | cons l rest ih => simp [listenerCalls, ih]

/-! ## Shutdown -/

/-- A wake-up of the loader thread with the quit flag set: the thread leaves its loop and signals;
nothing queued is touched. -/
theorem pass_quit (env : Collaborators) (s : ResourceManager) (hquit : s.m_quitThread = true) :
    ProcessResourceQueueThreaded env s = some (s.record Event.notifyOne) := by
  simp [ProcessResourceQueueThreaded, hquit]

/-- The manager at the end of the destructor, when the signal of the loader thread reaches its
wait; when it does not, the destructor does not return. -/
theorem Destructor_eq (env : Collaborators) (s : ResourceManager) :
    Destructor env true s
        = some { s with
            m_deferredQueue := []
            m_deferredResourceListenersMap := ListenersMap.empty
            m_quitThread := true
            trace := s.trace ++ [Event.notifyOne, Event.notifyOne] }
      ∧ Destructor env false s = none := by
  simp [Destructor, DestructorClears, SignalAndWaitForLoaderThread, SignalLoaderThread,
    ProcessResourceQueueThreaded, record]

/-- A `QueueLoad` of whatever identifier leaves a Loading entry Loading. -/
theorem QueueLoad_keeps_loading (env : Collaborators) (s s1 : ResourceManager)
    (resourceID : ResourceID) (signalLoaderThread : Bool) (pListener : ResourceListenerPtr)
    (k : ResourceID)
    (hk : s.m_resourceDatabase.GetLoadStatus k = some kLoading)
    (h : QueueLoad env s resourceID signalLoaderThread pListener = some s1) :
    s1.m_resourceDatabase.GetLoadStatus k = some kLoading := by
  by_cases hvalid : env.IsValid resourceID = true
  · by_cases hkid : k = resourceID
    · subst hkid
      rw [QueueLoad_loaded_or_loading_eq env s k signalLoaderThread pListener hvalid
        (Or.inr hk)] at h
      cases h
      rw [(notifyListener_fields s pListener k).1]
      exact hk
    · cases hentry : s.m_resourceDatabase.GetEntry resourceID with
      | none =>
        rw [QueueLoad_absent_eq env s resourceID signalLoaderThread pListener hvalid hentry] at h
        cases h
        rw [(queueLoadTail_fields _ _ _).1]
        simpa [GetLoadStatus, SetLoadStatus, GetEntry_modifyEntry_other _ _ _ _ hkid,
          GetEntry_CreateEntry_other _ _ _ hkid] using hk
      | some e =>
        by_cases hst : e.status = kLoaded ∨ e.status = kLoading
        · rw [QueueLoad_loaded_or_loading_eq env s resourceID signalLoaderThread pListener
            hvalid (by rcases hst with h1 | h1 <;> simp [GetLoadStatus, hentry, h1])] at h
          cases h
          rw [(notifyListener_fields s pListener resourceID).1]
          exact hk
        · obtain ⟨s2, h2, -, hother, -⟩ :=
            QueueLoad_unloaded_found env s resourceID signalLoaderThread pListener e hvalid
              hentry (fun h1 => hst (Or.inl h1)) (fun h1 => hst (Or.inr h1))
          rw [h2] at h
          cases h
          simpa [GetLoadStatus, hother k hkid] using hk
  · simp [QueueLoad, hvalid] at h

/-- A `QueueLoad` of an identifier that has no entry or a Loading one leaves it Loading. -/
theorem QueueLoad_leaves_loading (env : Collaborators) (s s1 : ResourceManager)
    (resourceID : ResourceID) (signalLoaderThread : Bool) (pListener : ResourceListenerPtr)
    (hk : s.m_resourceDatabase.GetEntry resourceID = none
      ∨ s.m_resourceDatabase.GetLoadStatus resourceID = some kLoading)
    (h : QueueLoad env s resourceID signalLoaderThread pListener = some s1) :
    s1.m_resourceDatabase.GetLoadStatus resourceID = some kLoading := by
  rcases hk with hk | hk
  · by_cases hvalid : env.IsValid resourceID = true
    · rw [QueueLoad_absent_eq env s resourceID signalLoaderThread pListener hvalid hk] at h
      cases h
      rw [(queueLoadTail_fields _ _ _).1]
      simp [GetLoadStatus, SetLoadStatus, GetEntry_modifyEntry_self, GetEntry_CreateEntry_self]
    · simp [QueueLoad, hvalid] at h
  · exact QueueLoad_keeps_loading env s s1 resourceID signalLoaderThread pListener resourceID hk h

/-- A `QueueLoad` of another identifier leaves an identifier without entry without entry. -/
theorem QueueLoad_keeps_absent (env : Collaborators) (s s1 : ResourceManager)
    (resourceID : ResourceID) (signalLoaderThread : Bool) (pListener : ResourceListenerPtr)
    (k : ResourceID) (hkid : k ≠ resourceID)
    (hk : s.m_resourceDatabase.GetEntry k = none)
    (h : QueueLoad env s resourceID signalLoaderThread pListener = some s1) :
    s1.m_resourceDatabase.GetEntry k = none := by
  by_cases hvalid : env.IsValid resourceID = true
  · cases hentry : s.m_resourceDatabase.GetEntry resourceID with
    | none =>
      rw [QueueLoad_absent_eq env s resourceID signalLoaderThread pListener hvalid hentry] at h
      cases h
      rw [(queueLoadTail_fields _ _ _).1]
      simpa [SetLoadStatus, GetEntry_modifyEntry_other _ _ _ _ hkid,
        GetEntry_CreateEntry_other _ _ _ hkid] using hk
    | some e =>
      by_cases hst : e.status = kLoaded ∨ e.status = kLoading
      · rw [QueueLoad_loaded_or_loading_eq env s resourceID signalLoaderThread pListener
          hvalid (by rcases hst with h1 | h1 <;> simp [GetLoadStatus, hentry, h1])] at h
        cases h
        rw [(notifyListener_fields s pListener resourceID).1]
        exact hk
      · obtain ⟨s2, h2, -, hother, -⟩ :=
          QueueLoad_unloaded_found env s resourceID signalLoaderThread pListener e hvalid
            hentry (fun h1 => hst (Or.inl h1)) (fun h1 => hst (Or.inr h1))
        rw [h2] at h
        cases h
        rw [hother k hkid]; exact hk
  · simp [QueueLoad, hvalid] at h

/-- After a run of `QueueLoad` calls for identifiers that had no entry or a Loading one, every
identifier of the run is Loading. -/
theorem queueLoads_all_loading (env : Collaborators)
    (rs : List (ResourceID × Bool × ResourceListenerPtr)) (s s1 : ResourceManager)
    (hrs : ∀ r ∈ rs, s.m_resourceDatabase.GetEntry r.1 = none
      ∨ s.m_resourceDatabase.GetLoadStatus r.1 = some kLoading)
    (h : queueLoads env rs s = some s1) :
    (∀ r ∈ rs, s1.m_resourceDatabase.GetLoadStatus r.1 = some kLoading)
      ∧ (∀ k, s.m_resourceDatabase.GetLoadStatus k = some kLoading →
          s1.m_resourceDatabase.GetLoadStatus k = some kLoading) := by
  induction rs generalizing s with
  | nil =>
    simp only [queueLoads, Option.some.injEq] at h
    subst h
    exact ⟨by simp, fun _ hk => hk⟩
  | cons r rest ih =>
    obtain ⟨resourceID, signalLoaderThread, pListener⟩ := r
    simp only [queueLoads] at h
    cases hq : QueueLoad env s resourceID signalLoaderThread pListener with
    | none => simp [hq] at h
    | some s2 =>
      simp only [hq] at h
      have hfirst := QueueLoad_leaves_loading env s s2 resourceID signalLoaderThread pListener
        (hrs _ (List.mem_cons_self _ _)) hq
      obtain ⟨hrest, hkeep⟩ := ih s2
        (by
          intro r hr
          by_cases hrid : r.1 = resourceID
          · right; rw [hrid]; exact hfirst
          · rcases hrs r (List.mem_cons_of_mem _ hr) with h0 | h0
            · left
              exact QueueLoad_keeps_absent env s s2 resourceID signalLoaderThread pListener
                r.1 hrid h0 hq
            · right
              exact QueueLoad_keeps_loading env s s2 resourceID signalLoaderThread pListener
                r.1 h0 hq)
        h
      refine ⟨?_, ?_⟩
      · intro r hr
        rcases List.mem_cons.1 hr with hr | hr
        · subst hr; exact hkeep _ hfirst
        · exact hrest r hr
      · intro k hk
        exact hkeep k
          (QueueLoad_keeps_loading env s s2 resourceID signalLoaderThread pListener k hk hq)

/-! ## The bytes a load reads -/

/-- The bytes `LoadRawData` answers with are the ones `rawDataOf` names. -/
theorem rawDataOf_of_LoadRawData (env : Collaborators) (s : ResourceManager)
    (resourceID : ResourceID) (rawData : Bytes)
    (hread : LoadRawData env s resourceID = some rawData) :
    env.IsValid resourceID = true ∧ rawDataOf env s.m_useRawAssets resourceID = rawData := by
  by_cases hvalid : env.IsValid resourceID = true
  · rw [LoadRawData_eq env s resourceID hvalid] at hread
    exact ⟨hvalid, Option.some.inj hread⟩
  · simp [LoadRawData, hvalid] at hread

/-! ## One entry per identifier (C23, C24) -/

theorem keys_modifyEntry (db : ResourceDatabase) (resourceID : ResourceID)
    (f : ResourceEntry → ResourceEntry) :
    keys (modifyEntry db resourceID f) = keys db := by
  induction db with
  | nil => rfl
  | cons p rest ih =>
    obtain ⟨key, entry⟩ := p
    unfold keys at ih ⊢
    by_cases hk : key = resourceID <;> simp [modifyEntry, hk, ih]

theorem keys_CreateEntry (db : ResourceDatabase) (resourceID : ResourceID) :
    keys (CreateEntry db resourceID) = resourceID :: keys db := rfl

theorem GetEntry_eq_none_iff (db : ResourceDatabase) (resourceID : ResourceID) :
    GetEntry db resourceID = none ↔ resourceID ∉ keys db := by
  induction db with
  | nil => simp [GetEntry, keys]
  | cons p rest ih =>
    obtain ⟨key, entry⟩ := p
    unfold keys at ih ⊢
    by_cases hk : key = resourceID
    · simp [GetEntry, hk]
    · have hk2 : ¬ resourceID = key := fun h => hk h.symm
      simp [GetEntry, hk, hk2, ih]

/-- In a database with one entry per identifier `GetEntry` finds every entry there is. -/
theorem GetEntry_of_mem (db : ResourceDatabase) (hone : db.OneEntryPerID)
    (resourceID : ResourceID) (e : ResourceEntry) (hmem : (resourceID, e) ∈ db) :
    GetEntry db resourceID = some e := by
  induction db with
  | nil => cases hmem
  | cons p rest ih =>
    obtain ⟨key, entry⟩ := p
    unfold OneEntryPerID keys at hone ih
    simp only [List.map_cons, List.nodup_cons] at hone
    rcases List.mem_cons.1 hmem with h | h
    · cases h
      simp [GetEntry]
    · have hne : key ≠ resourceID := by
        intro hk
        subst hk
        exact hone.1 (List.mem_map.2 ⟨(key, e), h, rfl⟩)
      simp only [GetEntry, hne, if_false]
      exact ih hone.2 h

theorem mem_of_GetEntry (db : ResourceDatabase) (resourceID : ResourceID) (e : ResourceEntry)
    (h : GetEntry db resourceID = some e) : (resourceID, e) ∈ db := by
  induction db with
  | nil => simp [GetEntry] at h
  | cons p rest ih =>
    obtain ⟨key, entry⟩ := p
    by_cases hk : key = resourceID
    · simp only [GetEntry, hk, if_true, Option.some.injEq] at h
      subst h
      subst hk
      exact List.mem_cons_self _ _
    · simp only [GetEntry, hk, if_false] at h
      exact List.mem_cons_of_mem _ (ih h)

theorem KeysStep.keeps {db db1 : ResourceDatabase} (hstep : KeysStep db db1)
    (hone : db.OneEntryPerID) : db1.OneEntryPerID := by
  unfold OneEntryPerID at hone ⊢
  rcases hstep with h | ⟨k, hk, h⟩
  · rw [h]
    exact hone
  · rw [h]
    exact List.nodup_cons.2 ⟨hk, hone⟩

theorem queueLoadTail_keys (s : ResourceManager) (resourceID : ResourceID)
    (signalLoaderThread : Bool) :
    keys (s.queueLoadTail resourceID signalLoaderThread).m_resourceDatabase
      = keys s.m_resourceDatabase := by
  rw [(queueLoadTail_fields s resourceID signalLoaderThread).1]
  exact keys_modifyEntry _ _ _

theorem QueueLoad_keys (env : Collaborators) (s s1 : ResourceManager) (resourceID : ResourceID)
    (signalLoaderThread : Bool) (pListener : ResourceListenerPtr)
    (h : QueueLoad env s resourceID signalLoaderThread pListener = some s1) :
    KeysStep s.m_resourceDatabase s1.m_resourceDatabase := by
  unfold QueueLoad at h
  split at h
  · cases h
  · split at h
    · rename_i hfound
      simp only [Option.some.injEq] at h
      subst h
      right
      refine ⟨resourceID, ?_, ?_⟩
      · apply (GetEntry_eq_none_iff _ _).1
        simpa [IsFound] using hfound
      · rw [queueLoadTail_keys]
        rfl
    · split at h
      · simp only [Option.some.injEq] at h
        subst h
        left
        rw [(notifyListener_fields s pListener resourceID).1]
      · simp only [Option.some.injEq] at h
        subst h
        left
        rw [queueLoadTail_keys]

theorem LoadResource_keys (env : Collaborators) (s s1 : ResourceManager)
    (resourceID : ResourceID) (h : LoadResource env s resourceID = some s1) :
    keys s1.m_resourceDatabase = keys s.m_resourceDatabase := by
  obtain ⟨_, hdb, _⟩ := LoadResource_result env s s1 resourceID h
  rw [hdb]
  cases decodedResource env (rawDataOf env s.m_useRawAssets resourceID) resourceID <;>
    simp [Unload, SetLoadStatus, keys_modifyEntry]

theorem loadNowTail_keys (env : Collaborators) (s s1 : ResourceManager)
    (resourceID : ResourceID) (pListener : ResourceListenerPtr)
    (h : loadNowTail env s resourceID pListener = some s1) :
    keys s1.m_resourceDatabase = keys s.m_resourceDatabase := by
  unfold loadNowTail at h
  simp only at h
  split at h
  · cases h
  · rename_i s2 hload
    simp only [Option.some.injEq] at h
    subst h
    rw [(notifyListener_fields s2 pListener resourceID).1,
      LoadResource_keys env _ s2 resourceID hload]
    exact keys_modifyEntry _ _ _

theorem LoadNow_keys (env : Collaborators) (s s1 : ResourceManager) (resourceID : ResourceID)
    (pListener : ResourceListenerPtr) (h : LoadNow env s resourceID pListener = some s1) :
    KeysStep s.m_resourceDatabase s1.m_resourceDatabase := by
  unfold LoadNow at h
  split at h
  · cases h
  · split at h
    · rename_i hfound
      right
      refine ⟨resourceID, ?_, ?_⟩
      · apply (GetEntry_eq_none_iff _ _).1
        simpa [IsFound] using hfound
      · rw [loadNowTail_keys env _ s1 resourceID pListener h]
        rfl
    · split at h
      · simp only [Option.some.injEq] at h
        subst h
        left
        rfl
      · left
        exact loadNowTail_keys env s s1 resourceID pListener h

theorem ReleaseResource_keys (env : Collaborators) (s s1 : ResourceManager)
    (resourceID : ResourceID) (h : ReleaseResource env s resourceID = some s1) :
    keys s1.m_resourceDatabase = keys s.m_resourceDatabase := by
  unfold ReleaseResource at h
  split at h
  · cases h
  · split at h
    · simp only [Option.some.injEq] at h
      subst h
      rfl
    · simp only at h
      split at h <;>
        · simp only [Option.some.injEq] at h
          subst h
          simp [Unload, keys_modifyEntry]

theorem ReloadResource_keys (env : Collaborators) (s s1 : ResourceManager)
    (resourceID : ResourceID) (forceLoad : Bool) (pListener : ResourceListenerPtr)
    (h : ReloadResource env s resourceID forceLoad pListener = some s1) :
    KeysStep s.m_resourceDatabase s1.m_resourceDatabase := by
  unfold ReloadResource at h
  split at h
  · cases h
  · split at h
    · split at h
      · exact LoadNow_keys env s s1 resourceID pListener h
      · exact QueueLoad_keys env s s1 resourceID true pListener h
    · simp only at h
      have hsame : keys (s.m_resourceDatabase.Unload resourceID) = keys s.m_resourceDatabase :=
        keys_modifyEntry _ _ _
      have hstep : KeysStep (s.m_resourceDatabase.Unload resourceID) s1.m_resourceDatabase := by
        split at h
        · exact LoadNow_keys env _ s1 resourceID pListener h
        · exact QueueLoad_keys env _ s1 resourceID true pListener h
      unfold KeysStep at hstep ⊢
      rw [hsame] at hstep
      exact hstep

theorem LockResource_keys (env : Collaborators) (s s1 : ResourceManager)
    (resourceID : ResourceID) (h : LockResource env s resourceID = some s1) :
    keys s1.m_resourceDatabase = keys s.m_resourceDatabase := by
  unfold LockResource at h
  split at h
  · cases h
  · split at h <;>
      · simp only [Option.some.injEq] at h
        subst h
        simp [keys_modifyEntry]

theorem UnlockResource_keys (env : Collaborators) (s s1 : ResourceManager)
    (resourceID : ResourceID) (h : UnlockResource env s resourceID = some s1) :
    keys s1.m_resourceDatabase = keys s.m_resourceDatabase := by
  unfold UnlockResource at h
  split at h
  · cases h
  · split at h <;>
      · simp only [Option.some.injEq] at h
        subst h
        simp [keys_modifyEntry]

theorem GetResource_keys (env : Collaborators) (s s1 : ResourceManager)
    (resourceID : ResourceID) (forceLoad : Bool) (pResource : Option Resource)
    (h : GetResource env s resourceID forceLoad = some (pResource, s1)) :
    KeysStep s.m_resourceDatabase s1.m_resourceDatabase := by
  unfold GetResource at h
  split at h
  · cases h
  · split at h
    · split at h
      · split at h
        · cases h
        · rename_i s2 hload
          have hs : s2 = s1 := by
            split at h <;>
              · simp only [Option.some.injEq, Prod.mk.injEq] at h
                exact h.2
          subst hs
          exact LoadNow_keys env s s2 resourceID ResourceListenerPtr.null hload
      · simp only [Option.some.injEq, Prod.mk.injEq] at h
        obtain ⟨_, h⟩ := h
        subst h
        left
        rfl
    · simp only [Option.some.injEq, Prod.mk.injEq] at h
      obtain ⟨_, h⟩ := h
      subst h
      left
      rfl

theorem processQueue_keys (env : Collaborators) (queue : List ResourceID)
    (s s1 : ResourceManager) (h : processQueue env queue s = some s1) :
    keys s1.m_resourceDatabase = keys s.m_resourceDatabase := by
  induction queue generalizing s with
  | nil =>
    simp only [processQueue, Option.some.injEq] at h
    subst h
    rfl
  | cons front rest ih =>
    simp only [processQueue] at h
    cases hload : LoadResource env s front with
    | none => simp [hload] at h
    | some s2 =>
      simp only [hload] at h
      rw [ih _ h]
      simp only [notifyListeners_eq]
      exact LoadResource_keys env s s2 front hload

theorem pass_keys (env : Collaborators) (s s1 : ResourceManager)
    (h : ProcessResourceQueueThreaded env s = some s1) :
    keys s1.m_resourceDatabase = keys s.m_resourceDatabase := by
  unfold ProcessResourceQueueThreaded at h
  split at h
  · simp only [Option.some.injEq] at h
    subst h
    rfl
  · split at h
    · simp only [Option.some.injEq] at h
      subst h
      rfl
    · simp only at h
      split at h
      · cases h
      · rename_i s2 hp
        simp only [Option.some.injEq] at h
        subst h
        have hkeys := processQueue_keys env _ _ s2 hp
        exact hkeys

/-- In every reachable state the database has one entry per identifier. -/
theorem Reachable_OneEntryPerID (env : Collaborators) (s : ResourceManager)
    (hreach : Reachable env s) : s.m_resourceDatabase.OneEntryPerID := by
  induction hreach with
  | start useRawAssets => exact List.nodup_nil
  | queueLoad resourceID signalLoaderThread pListener _ h ih =>
    exact (QueueLoad_keys env _ _ _ _ _ h).keeps ih
  | loadNow resourceID pListener _ h ih =>
    exact (LoadNow_keys env _ _ _ _ h).keeps ih
  | releaseResource resourceID _ h ih =>
    exact KeysStep.keeps (Or.inl (ReleaseResource_keys env _ _ _ h)) ih
  | reloadResource resourceID forceLoad pListener _ h ih =>
    exact (ReloadResource_keys env _ _ _ _ _ h).keeps ih
  | lockResource resourceID _ h ih =>
    exact KeysStep.keeps (Or.inl (LockResource_keys env _ _ _ h)) ih
  | unlockResource resourceID _ h ih =>
    exact KeysStep.keeps (Or.inl (UnlockResource_keys env _ _ _ h)) ih
  | getResource resourceID forceLoad pResource _ h ih =>
    exact (GetResource_keys env _ _ _ _ _ h).keeps ih
  | drainPass _ h ih =>
    exact KeysStep.keeps (Or.inl (pass_keys env _ _ h)) ih

/-- C23: in every state reached from `Initialize` by `QueueLoad`, `LoadNow`, `ReleaseResource`,
`ReloadResource`, `LockResource`, `UnlockResource`, `GetResource` and complete passes of the
loader thread, every entry of the database, found under whatever identifier, has a payload
exactly when its status is Loaded. -/
theorem payload_iff_loaded_in_reachable (env : Collaborators) (s : ResourceManager)
    (hreach : Reachable env s) :
    ∀ p ∈ s.m_resourceDatabase, (p.2.payload.isSome = true ↔ p.2.status = kLoaded) := by
  intro p hp
  obtain ⟨resourceID, e⟩ := p
  exact Reachable_PayloadIffLoaded env s hreach resourceID e
    (GetEntry_of_mem _ (Reachable_OneEntryPerID env s hreach) resourceID e hp)

/-- C23, at a concrete input: `a` was loaded at once and `b` queued. -/
theorem payload_iff_loaded_in_reachable_witness :
    Reachable demoEnv demoLoadedAndQueued
      ∧ ∀ p ∈ demoLoadedAndQueued.m_resourceDatabase,
          (p.2.payload.isSome = true ↔ p.2.status = kLoaded) :=
  ⟨Reachable.queueLoad "b" false ResourceListenerPtr.null
      (Reachable.loadNow "a" ResourceListenerPtr.null (Reachable.start true) rfl) rfl,
    payload_iff_loaded_in_reachable demoEnv demoLoadedAndQueued
      (Reachable.queueLoad "b" false ResourceListenerPtr.null
        (Reachable.loadNow "a" ResourceListenerPtr.null (Reachable.start true) rfl) rfl)⟩

/-- C24: in every reachable state the database holds no two entries for one identifier: its list
of identifiers has no duplicate, two entries stored under one identifier are the same entry, and
the entries stored under an identifier are exactly the one `GetEntry` finds. -/
theorem registry_is_a_function (env : Collaborators) (s : ResourceManager)
    (hreach : Reachable env s) :
    (keys s.m_resourceDatabase).Nodup
      ∧ (∀ resourceID e e1, (resourceID, e) ∈ s.m_resourceDatabase →
          (resourceID, e1) ∈ s.m_resourceDatabase → e = e1)
      ∧ (∀ resourceID e, (resourceID, e) ∈ s.m_resourceDatabase
          ↔ s.m_resourceDatabase.GetEntry resourceID = some e) := by
  have hone := Reachable_OneEntryPerID env s hreach
  refine ⟨hone, ?_, ?_⟩
  · intro resourceID e e1 h h1
    have := GetEntry_of_mem _ hone resourceID e h
    rw [GetEntry_of_mem _ hone resourceID e1 h1] at this
    exact (Option.some.inj this).symm
  · intro resourceID e
    exact ⟨GetEntry_of_mem _ hone resourceID e, mem_of_GetEntry _ resourceID e⟩

/-- C24, at a concrete input: `a` was queued twice and then loaded at once. -/
theorem registry_is_a_function_witness :
    Reachable demoEnv demoAskedThrice
      ∧ (keys demoAskedThrice.m_resourceDatabase).Nodup
      ∧ (∀ resourceID e e1, (resourceID, e) ∈ demoAskedThrice.m_resourceDatabase →
          (resourceID, e1) ∈ demoAskedThrice.m_resourceDatabase → e = e1)
      ∧ (∀ resourceID e, (resourceID, e) ∈ demoAskedThrice.m_resourceDatabase
          ↔ demoAskedThrice.m_resourceDatabase.GetEntry resourceID = some e) :=
  ⟨Reachable.loadNow "a" ResourceListenerPtr.null
      (Reachable.queueLoad "a" false ResourceListenerPtr.null
        (Reachable.queueLoad "a" false ResourceListenerPtr.null (Reachable.start true) rfl) rfl)
      rfl,
    registry_is_a_function demoEnv demoAskedThrice
      (Reachable.loadNow "a" ResourceListenerPtr.null
        (Reachable.queueLoad "a" false ResourceListenerPtr.null
          (Reachable.queueLoad "a" false ResourceListenerPtr.null (Reachable.start true) rfl)
          rfl)
        rfl)⟩

/-! ## Pins (C25) -/

theorem modifyEntry_modifyEntry (db : ResourceDatabase) (resourceID : ResourceID)
    (f g : ResourceEntry → ResourceEntry) :
    modifyEntry (modifyEntry db resourceID f) resourceID g
      = modifyEntry db resourceID (fun e => g (f e)) := by
  induction db with
  | nil => rfl
  | cons p rest ih =>
    obtain ⟨key, entry⟩ := p
    by_cases hk : key = resourceID <;> simp [modifyEntry, hk, ih]

theorem modifyEntry_of_fixed (db : ResourceDatabase) (resourceID : ResourceID)
    (f : ResourceEntry → ResourceEntry) (hf : ∀ e, f e = e) :
    modifyEntry db resourceID f = db := by
  induction db with
  | nil => rfl
  | cons p rest ih =>
    obtain ⟨key, entry⟩ := p
    by_cases hk : key = resourceID <;> simp [modifyEntry, hk, ih, hf]

/-- C25: on a valid identifier with an entry, `LockResource` and `UnlockResource` return; the
entry they leave is the old one with `lockCount` one higher, respectively one lower (a count of
zero stays zero), so `referenceCount`, status and payload are kept; every other entry, the
deferred queue, the listener maps, the flags and the trace are as they were; and
`UnlockResource` after `LockResource` gives back the state before the two calls.  On a valid
identifier without entry both return the state unchanged. -/
theorem Lock_Unlock_change_only_the_pin_count (env : Collaborators) (s : ResourceManager)
    (resourceID : ResourceID) (hvalid : env.IsValid resourceID = true) :
    (∀ e, s.m_resourceDatabase.GetEntry resourceID = some e →
      ∃ locked unlocked,
        LockResource env s resourceID = some locked
          ∧ UnlockResource env s resourceID = some unlocked
          ∧ locked.m_resourceDatabase.GetEntry resourceID
              = some { e with lockCount := e.lockCount + 1 }
          ∧ unlocked.m_resourceDatabase.GetEntry resourceID
              = some { e with lockCount := e.lockCount - 1 }
          ∧ (∀ other, other ≠ resourceID →
              locked.m_resourceDatabase.GetEntry other = s.m_resourceDatabase.GetEntry other
                ∧ unlocked.m_resourceDatabase.GetEntry other
                  = s.m_resourceDatabase.GetEntry other)
          ∧ locked = { s with m_resourceDatabase := locked.m_resourceDatabase }
          ∧ unlocked = { s with m_resourceDatabase := unlocked.m_resourceDatabase }
          ∧ UnlockResource env locked resourceID = some s)
      ∧ (s.m_resourceDatabase.GetEntry resourceID = none →
          LockResource env s resourceID = some s ∧ UnlockResource env s resourceID = some s) := by
  constructor
  · intro e hentry
    refine ⟨{ s with m_resourceDatabase :=
          s.m_resourceDatabase.modifyEntry resourceID ResourceEntry.IncrementLockCount },
      { s with m_resourceDatabase :=
          s.m_resourceDatabase.modifyEntry resourceID ResourceEntry.DecrementLockCount },
      by simp [LockResource, hvalid, hentry], by simp [UnlockResource, hvalid, hentry],
      ?_, ?_, ?_, rfl, rfl, ?_⟩
    · simp only [GetEntry_modifyEntry_self, hentry]
      rfl
    · simp only [GetEntry_modifyEntry_self, hentry]
      rfl
    · intro other hne
      exact ⟨GetEntry_modifyEntry_other _ _ _ _ hne, GetEntry_modifyEntry_other _ _ _ _ hne⟩
    · have hback : modifyEntry
            (modifyEntry s.m_resourceDatabase resourceID ResourceEntry.IncrementLockCount)
            resourceID ResourceEntry.DecrementLockCount = s.m_resourceDatabase := by
        rw [modifyEntry_modifyEntry]
        apply modifyEntry_of_fixed
        intro e1
        cases e1
        simp [ResourceEntry.IncrementLockCount, ResourceEntry.DecrementLockCount]
      simp [UnlockResource, hvalid, GetEntry_modifyEntry_self, hentry, hback]
  · intro hentry
    exact ⟨by simp [LockResource, hvalid, hentry], by simp [UnlockResource, hvalid, hentry]⟩

/-- C25, at a concrete input: `x` is Loaded with two references and no pin. -/
theorem Lock_Unlock_change_only_the_pin_count_witness :
    demoEnv.IsValid "x" = true
      ∧ (demoHeld 2).m_resourceDatabase.GetEntry "x"
          = some { status := kLoaded, referenceCount := 2, lockCount := 0,
                   payload := some { id := "x", contents := [1, 2, 3] } }
      ∧ ∃ locked unlocked,
        LockResource demoEnv (demoHeld 2) "x" = some locked
          ∧ UnlockResource demoEnv (demoHeld 2) "x" = some unlocked
          ∧ locked.m_resourceDatabase.GetEntry "x"
              = some { status := kLoaded, referenceCount := 2, lockCount := 1,
                       payload := some { id := "x", contents := [1, 2, 3] } }
          ∧ unlocked.m_resourceDatabase.GetEntry "x"
              = some { status := kLoaded, referenceCount := 2, lockCount := 0,
                       payload := some { id := "x", contents := [1, 2, 3] } }
          ∧ (∀ other, other ≠ "x" →
              locked.m_resourceDatabase.GetEntry other
                  = (demoHeld 2).m_resourceDatabase.GetEntry other
                ∧ unlocked.m_resourceDatabase.GetEntry other
                  = (demoHeld 2).m_resourceDatabase.GetEntry other)
          ∧ locked = { demoHeld 2 with m_resourceDatabase := locked.m_resourceDatabase }
          ∧ unlocked = { demoHeld 2 with m_resourceDatabase := unlocked.m_resourceDatabase }
          ∧ UnlockResource demoEnv locked "x" = some (demoHeld 2) :=
  ⟨by decide, rfl,
    (Lock_Unlock_change_only_the_pin_count demoEnv (demoHeld 2) "x" (by decide)).1
      { status := kLoaded, referenceCount := 2, lockCount := 0,
        payload := some { id := "x", contents := [1, 2, 3] } } rfl⟩

/-! ## The deferred queue between passes (C30) -/

/-- What `QueueLoad` does to the deferred queue: nothing, or it appends an identifier whose
entry was not Loading and is Loading now. -/
theorem QueueLoad_queue_step (env : Collaborators) (s s1 : ResourceManager)
    (resourceID : ResourceID) (signalLoaderThread : Bool) (pListener : ResourceListenerPtr)
    (h : QueueLoad env s resourceID signalLoaderThread pListener = some s1) :
    s1.m_deferredQueue = s.m_deferredQueue
      ∨ (s.m_resourceDatabase.GetLoadStatus resourceID ≠ some kLoading
          ∧ s1.m_deferredQueue = s.m_deferredQueue ++ [resourceID]
          ∧ s1.m_resourceDatabase.GetLoadStatus resourceID = some kLoading) := by
  by_cases hvalid : env.IsValid resourceID = true
  · cases hentry : s.m_resourceDatabase.GetEntry resourceID with
    | none =>
      right
      refine ⟨by simp [GetLoadStatus, hentry], ?_,
        QueueLoad_leaves_loading env s s1 resourceID signalLoaderThread pListener
          (Or.inl hentry) h⟩
      rw [QueueLoad_absent_eq env s resourceID signalLoaderThread pListener hvalid hentry] at h
      cases h
      rw [(queueLoadTail_fields _ _ _).2.1]
    | some e =>
      by_cases hst : e.status = kLoaded ∨ e.status = kLoading
      · rw [QueueLoad_loaded_or_loading_eq env s resourceID signalLoaderThread pListener hvalid
          (by rcases hst with h1 | h1 <;> simp [GetLoadStatus, hentry, h1])] at h
        cases h
        left
        exact (notifyListener_fields s pListener resourceID).2.1
      · have hl : e.status ≠ kLoaded := fun h1 => hst (Or.inl h1)
        have hg : e.status ≠ kLoading := fun h1 => hst (Or.inr h1)
        obtain ⟨s2, h2, he2, -, hq, -⟩ :=
          QueueLoad_unloaded_found env s resourceID signalLoaderThread pListener e hvalid
            hentry hl hg
        rw [h2] at h
        cases h
        right
        exact ⟨by simpa [GetLoadStatus, hentry] using hg, hq, by simp [GetLoadStatus, he2]⟩
  · simp [QueueLoad, hvalid] at h

/-- What `LoadNow` does to the deferred queue and to the Loading entries: nothing. -/
theorem LoadNow_queue_step (env : Collaborators) (s s1 : ResourceManager)
    (resourceID : ResourceID) (pListener : ResourceListenerPtr)
    (h : LoadNow env s resourceID pListener = some s1) :
    s1.m_deferredQueue = s.m_deferredQueue
      ∧ ∀ k, s.m_resourceDatabase.GetLoadStatus k = some kLoading →
          s1.m_resourceDatabase.GetLoadStatus k = some kLoading := by
  by_cases hvalid : env.IsValid resourceID = true
  · cases hentry : s.m_resourceDatabase.GetEntry resourceID with
    | none =>
      obtain ⟨s2, h2, -, hother, -, hq, -⟩ :=
        LoadNow_absent_found env s resourceID pListener hvalid hentry
      rw [h2] at h
      cases h
      refine ⟨hq, ?_⟩
      intro k hk
      have hne : k ≠ resourceID := by
        intro hkid
        subst hkid
        simp [GetLoadStatus, hentry] at hk
      simpa [GetLoadStatus, hother k hne] using hk
    | some e =>
      by_cases hst : e.status = kLoaded ∨ e.status = kLoading
      · have hfound : s.m_resourceDatabase.IsFound resourceID = true := by
          simp [IsFound, hentry]
        have hsame : LoadNow env s resourceID pListener = some s := by
          rcases hst with h1 | h1 <;>
            simp [LoadNow, hvalid, hfound, GetLoadStatus, hentry, h1]
        rw [hsame] at h
        cases h
        exact ⟨rfl, fun _ hk => hk⟩
      · have hl : e.status ≠ kLoaded := fun h1 => hst (Or.inl h1)
        have hg : e.status ≠ kLoading := fun h1 => hst (Or.inr h1)
        obtain ⟨s2, h2, -, hother, -, hq, -⟩ :=
          LoadNow_unloaded_found env s resourceID pListener e hvalid hentry hl hg
        rw [h2] at h
        cases h
        refine ⟨hq, ?_⟩
        intro k hk
        have hne : k ≠ resourceID := by
          intro hkid
          subst hkid
          simp [GetLoadStatus, hentry] at hk
          exact hg hk
        simpa [GetLoadStatus, hother k hne] using hk
  · simp [LoadNow, hvalid] at h

/-- A wake-up of the loader thread leaves the deferred queue and the database as they were (quit
flag set, or nothing queued), or leaves the deferred queue empty. -/
theorem pass_queue_step (env : Collaborators) (s s1 : ResourceManager)
    (h : ProcessResourceQueueThreaded env s = some s1) :
    (s1.m_deferredQueue = s.m_deferredQueue ∧ s1.m_resourceDatabase = s.m_resourceDatabase)
      ∨ s1.m_deferredQueue = [] := by
  cases hquit : s.m_quitThread with
  | true =>
    rw [pass_quit env s hquit] at h
    cases h
    left
    exact ⟨rfl, rfl⟩
  | false =>
    by_cases hempty : s.m_deferredQueue = []
    · have hsame : ProcessResourceQueueThreaded env s = some s := by
        simp [ProcessResourceQueueThreaded, hquit, hempty]
      rw [hsame] at h
      cases h
      left
      exact ⟨rfl, rfl⟩
    · right
      exact (pass_result_maps env s s1 hquit hempty h).1

theorem QueueLoad_keeps_QueuedAreLoading (env : Collaborators) (s s1 : ResourceManager)
    (resourceID : ResourceID) (signalLoaderThread : Bool) (pListener : ResourceListenerPtr)
    (hinv : s.QueuedAreLoading)
    (h : QueueLoad env s resourceID signalLoaderThread pListener = some s1) :
    s1.QueuedAreLoading := by
  obtain ⟨hload, hnodup⟩ := hinv
  rcases QueueLoad_queue_step env s s1 resourceID signalLoaderThread pListener h with
    hq | ⟨hnot, hq, hnow⟩
  · rw [QueuedAreLoading, hq]
    exact ⟨fun k hk =>
      QueueLoad_keeps_loading env s s1 resourceID signalLoaderThread pListener k (hload k hk) h,
      hnodup⟩
  · rw [QueuedAreLoading, hq]
    constructor
    · intro k hk
      rcases List.mem_append.1 hk with hk | hk
      · exact QueueLoad_keeps_loading env s s1 resourceID signalLoaderThread pListener k
          (hload k hk) h
      · rw [List.mem_singleton.1 hk]
        exact hnow
    · rw [List.nodup_append]
      refine ⟨hnodup, List.nodup_singleton _, ?_⟩
      intro a ha hb
      rw [List.mem_singleton.1 hb] at ha
      exact hnot (hload _ ha)

theorem LoadNow_keeps_QueuedAreLoading (env : Collaborators) (s s1 : ResourceManager)
    (resourceID : ResourceID) (pListener : ResourceListenerPtr)
    (hinv : s.QueuedAreLoading)
    (h : LoadNow env s resourceID pListener = some s1) :
    s1.QueuedAreLoading := by
  obtain ⟨hload, hnodup⟩ := hinv
  obtain ⟨hq, hkeep⟩ := LoadNow_queue_step env s s1 resourceID pListener h
  rw [QueuedAreLoading, hq]
  exact ⟨fun k hk => hkeep k (hload k hk), hnodup⟩

theorem pass_keeps_QueuedAreLoading (env : Collaborators) (s s1 : ResourceManager)
    (hinv : s.QueuedAreLoading)
    (h : ProcessResourceQueueThreaded env s = some s1) :
    s1.QueuedAreLoading := by
  rcases pass_queue_step env s s1 h with ⟨hq, hdb⟩ | hq
  · rw [QueuedAreLoading, hq, hdb]
    exact hinv
  · rw [QueuedAreLoading, hq]
    exact ⟨fun k hk => (by cases hk), List.nodup_nil⟩

theorem ReachableByLoads_QueuedAreLoading (env : Collaborators) (s : ResourceManager)
    (hreach : ReachableByLoads env s) : s.QueuedAreLoading := by
  induction hreach with
  | start useRawAssets => exact ⟨fun k hk => (by cases hk), List.nodup_nil⟩
  | queueLoad resourceID signalLoaderThread pListener _ h ih =>
    exact QueueLoad_keeps_QueuedAreLoading env _ _ _ _ _ ih h
  | loadNow resourceID pListener _ h ih =>
    exact LoadNow_keeps_QueuedAreLoading env _ _ _ _ ih h
  | drainPass _ h ih =>
    exact pass_keeps_QueuedAreLoading env _ _ ih h

/-- C30: in every state reached from the empty manager by `QueueLoad` and `LoadNow` calls and
complete passes of the loader thread, every identifier of the deferred queue has an entry in the
database whose status is Loading, and is in the queue exactly once. -/
theorem queued_identifiers_are_loading_and_queued_once (env : Collaborators)
    (s : ResourceManager) (hreach : ReachableByLoads env s) :
    ∀ k ∈ s.m_deferredQueue,
      (∃ e, s.m_resourceDatabase.GetEntry k = some e ∧ e.status = kLoading)
        ∧ s.m_deferredQueue.count k = 1 := by
  obtain ⟨hload, hnodup⟩ := ReachableByLoads_QueuedAreLoading env s hreach
  intro k hk
  refine ⟨?_, List.count_eq_one_of_mem hnodup hk⟩
  have hst := hload k hk
  unfold GetLoadStatus at hst
  cases hentry : s.m_resourceDatabase.GetEntry k with
  | none => simp [hentry] at hst
  | some e =>
    simp only [hentry, Option.map_some', Option.some.injEq] at hst
    exact ⟨e, rfl, hst⟩

/-- C30, at a concrete input: `a` and `b` were queued, `a` was asked for again by `QueueLoad` and
by `LoadNow`; the queue is `a`, `b`. -/
theorem queued_identifiers_are_loading_and_queued_once_witness :
    ReachableByLoads demoEnv demoQueuedAgain
      ∧ demoQueuedAgain.m_deferredQueue = ["a", "b"]
      ∧ ∀ k ∈ demoQueuedAgain.m_deferredQueue,
          (∃ e, demoQueuedAgain.m_resourceDatabase.GetEntry k = some e ∧ e.status = kLoading)
            ∧ demoQueuedAgain.m_deferredQueue.count k = 1 :=
  ⟨ReachableByLoads.loadNow "a" ResourceListenerPtr.null
      (ReachableByLoads.queueLoad "a" true ResourceListenerPtr.null
        (ReachableByLoads.queueLoad "b" false ResourceListenerPtr.null
          (ReachableByLoads.queueLoad "a" false ResourceListenerPtr.null
            (ReachableByLoads.start true) rfl) rfl) rfl) rfl,
    rfl,
    queued_identifiers_are_loading_and_queued_once demoEnv demoQueuedAgain
      (ReachableByLoads.loadNow "a" ResourceListenerPtr.null
        (ReachableByLoads.queueLoad "a" true ResourceListenerPtr.null
          (ReachableByLoads.queueLoad "b" false ResourceListenerPtr.null
            (ReachableByLoads.queueLoad "a" false ResourceListenerPtr.null
              (ReachableByLoads.start true) rfl) rfl) rfl) rfl)⟩

/-! ## The sort of the render commands (C27) -/

section RenderSort

open RenderManager

theorem RenderCommand.less_eq_false_total (a b : RenderCommand) :
    RenderCommand.less b a = false ∨ RenderCommand.less a b = false := by
  unfold RenderCommand.less
  simp only [bne_iff_ne, ne_eq, ite_not]
  split_ifs <;> simp <;> omega

theorem RenderCommand.less_eq_false_trans (a b c : RenderCommand)
    (hab : RenderCommand.less b a = false) (hbc : RenderCommand.less c b = false) :
    RenderCommand.less c a = false := by
  unfold RenderCommand.less at hab hbc ⊢
  simp only [bne_iff_ne, ne_eq, ite_not] at hab hbc ⊢
  split_ifs at hab hbc ⊢ <;> simp at hab hbc ⊢ <;> omega

/-- The texture lambda says `false` exactly when the left texture is not below the right one. -/
theorem textureLess_eq_false_iff (a b : RenderCommand) :
    textureLess b a = false ↔ a.m_texture ≤ b.m_texture := by
  unfold textureLess
  by_cases h : b.m_texture = a.m_texture
  · simp [h]
  · simp only [bne_iff_ne, ne_eq, h, not_false_eq_true, if_true, decide_eq_false_iff_not, not_lt]

/-- Insertion sort keeps the promise of `eastl::sort` with `operator<`. -/
theorem insertionSortByLess_isSort : IsSort RenderCommand.less insertionSortByLess := by
  intro buffer
  haveI : IsTotal RenderCommand (fun a b => RenderCommand.less b a = false) :=
    ⟨fun a b => (RenderCommand.less_eq_false_total a b)⟩
  haveI : IsTrans RenderCommand (fun a b => RenderCommand.less b a = false) :=
    ⟨fun a b c hab hbc => RenderCommand.less_eq_false_trans a b c hab hbc⟩
  exact ⟨List.perm_insertionSort _ buffer, List.sorted_insertionSort _ buffer⟩

theorem stable_sort_perm (comp : RenderCommand → RenderCommand → Bool)
    (buffer : List RenderCommand) : (stable_sort comp buffer).Perm buffer :=
  List.perm_insertionSort _ buffer

/-- After the texture pass the textures do not go down. -/
theorem stable_sort_textureLess_sorted (buffer : List RenderCommand) :
    (stable_sort textureLess buffer).Pairwise (fun a b => a.m_texture ≤ b.m_texture) := by
  haveI : IsTotal RenderCommand (fun a b => textureLess b a = false) :=
    ⟨fun a b => by
      simp only [textureLess_eq_false_iff]
      exact le_total _ _⟩
  haveI : IsTrans RenderCommand (fun a b => textureLess b a = false) :=
    ⟨fun a b c hab hbc => by
      simp only [textureLess_eq_false_iff] at hab hbc ⊢
      exact le_trans hab hbc⟩
  have h := List.sorted_insertionSort (fun a b => textureLess b a = false) buffer
  exact List.Pairwise.imp (fun {a b} hab => (textureLess_eq_false_iff a b).1 hab) h

/-- Inserting a command into a list keeps a relation pairwise when the command has it to every
element, and the elements it is put behind have it to the command. -/
theorem orderedInsert_pairwise (r P : RenderCommand → RenderCommand → Prop) [DecidableRel r]
    (a : RenderCommand) (l : List RenderCommand)
    (hl : l.Pairwise P) (hafter : ∀ b ∈ l, P a b) (hbefore : ∀ b ∈ l, ¬ r a b → P b a) :
    (l.orderedInsert r a).Pairwise P := by
  induction l with
  | nil => simp
  | cons b t ih =>
    rw [List.pairwise_cons] at hl
    by_cases hab : r a b
    · simp only [List.orderedInsert, hab, if_true]
      exact List.pairwise_cons.2 ⟨hafter, List.pairwise_cons.2 hl⟩
    · simp only [List.orderedInsert, hab, if_false]
      refine List.pairwise_cons.2 ⟨?_, ih hl.2 (fun c hc => hafter c (List.mem_cons_of_mem _ hc))
        (fun c hc => hbefore c (List.mem_cons_of_mem _ hc))⟩
      intro c hc
      rcases (List.mem_orderedInsert r).1 hc with h | h
      · rw [h]
        exact hbefore b (List.mem_cons_self _ _) hab
      · exact hl.1 c h

/-- The texture pass is stable: two commands of one texture that were in order before it are in
order after it. -/
theorem stable_sort_textureLess_keeps (P : RenderCommand → RenderCommand → Prop)
    (buffer : List RenderCommand) (hP : buffer.Pairwise P) :
    (stable_sort textureLess buffer).Pairwise
      (fun a b => a.m_texture = b.m_texture → P a b) := by
  unfold stable_sort
  induction buffer with
  | nil => simp
  | cons a l ih =>
    rw [List.pairwise_cons] at hP
    simp only [List.insertionSort]
    apply orderedInsert_pairwise
    · exact ih hP.2
    · intro b hb _
      exact hP.1 b ((List.mem_insertionSort _).1 hb)
    · intro b _ hab heq
      exact absurd ((textureLess_eq_false_iff a b).2 (le_of_eq heq.symm)) hab

/-- Whatever `eastl::sort` makes of the two layers, `SortRenderCommands` ends with the sprite
(Z 1) before the background (Z 0). -/
theorem SortRenderCommands_demoLayers (sort : List RenderCommand → List RenderCommand)
    (hsort : IsSort RenderCommand.less sort) :
    SortRenderCommands sort demoLayers = [demoCommand "a" 1 0, demoCommand "b" 0 0] := by
  obtain ⟨hperm, hsorted⟩ := hsort demoLayers
  have hlt : ("a" : String) < "b" := by
    rw [String.lt_iff_toList_lt]
    decide
  have hfinal : ∀ l, l = demoLayers ∨ l = demoLayers.reverse →
      stable_sort textureLess l = [demoCommand "a" 1 0, demoCommand "b" 0 0] := by
    intro l hl
    rcases hl with h | h <;>
      · subst h
        simp [stable_sort, demoLayers, demoCommand, textureLess, hlt, not_lt_of_lt hlt]
  apply hfinal
  have hlen := hperm.length_eq
  match hl : sort demoLayers, hlen with
  | [c, d], _ =>
    rw [hl] at hperm hsorted
    have hc : c ∈ demoLayers := hperm.subset (List.mem_cons_self _ _)
    have hd : d ∈ demoLayers := hperm.subset (List.mem_cons_of_mem _ (List.mem_cons_self _ _))
    have hcd : c ≠ d := by
      have hnodup : demoLayers.Nodup := by decide
      have := (hperm.nodup_iff).2 hnodup
      simp at this
      exact this
    simp only [demoLayers, List.mem_cons, List.mem_singleton, List.not_mem_nil, or_false] at hc hd
    rcases hc with hc | hc <;> rcases hd with hd | hd
    · exact absurd (hc.trans hd.symm) hcd
    · left
      rw [hc, hd]
      rfl
    · right
      rw [hc, hd]
      rfl
    · exact absurd (hc.trans hd.symm) hcd

/-- C27: the texture pass does disturb the Z/Y/X sort.  The background (texture `b`, Z 0) and the
sprite in front of it (texture `a`, Z 1) leave `SortRenderCommands` with the sprite first, though
the background is smaller under `operator<`: the command drawn first is the one that belongs on
top. -/
theorem SortRenderCommands_disturbs_the_z_sort :
    SortRenderCommands insertionSortByLess demoLayers
        = [demoCommand "a" 1 0, demoCommand "b" 0 0]
      ∧ RenderCommand.less (demoCommand "b" 0 0) (demoCommand "a" 1 0) = true
      ∧ ¬ (SortRenderCommands insertionSortByLess demoLayers).Pairwise
            (fun a b => RenderCommand.less b a = false) := by
  have h := SortRenderCommands_demoLayers insertionSortByLess insertionSortByLess_isSort
  refine ⟨h, by decide, ?_⟩
  rw [h]
  decide

end RenderSort

/-! ## The sprite sheet decoder (C26, C29) -/

section SpriteSheet

open SpritesheetResource

theorem QueueLoad_isSome (env : Collaborators) (s : ResourceManager) (resourceID : ResourceID)
    (signalLoaderThread : Bool) (pListener : ResourceListenerPtr)
    (hvalid : env.IsValid resourceID = true) :
    ∃ s1, QueueLoad env s resourceID signalLoaderThread pListener = some s1 := by
  unfold QueueLoad
  simp only [hvalid, Bool.not_true, Bool.false_eq_true, if_false]
  split
  · exact ⟨_, rfl⟩
  · split <;> exact ⟨_, rfl⟩

theorem LockResource_isSome (env : Collaborators) (s : ResourceManager) (resourceID : ResourceID)
    (hvalid : env.IsValid resourceID = true) :
    ∃ s1, LockResource env s resourceID = some s1 := by
  unfold LockResource
  simp only [hvalid, Bool.not_true, Bool.false_eq_true, if_false]
  split <;> exact ⟨_, rfl⟩

theorem ReleaseResource_isSome (env : Collaborators) (s : ResourceManager)
    (resourceID : ResourceID) (hvalid : env.IsValid resourceID = true) :
    ∃ s1, ReleaseResource env s resourceID = some s1 := by
  unfold ReleaseResource
  simp only [hvalid, Bool.not_true, Bool.false_eq_true, if_false]
  split
  · exact ⟨_, rfl⟩
  · split <;> exact ⟨_, rfl⟩

theorem holdTexture_isSome (env : Collaborators) (s : ResourceManager) (texture : ResourceID)
    (hvalid : env.IsValid texture = true) :
    ∃ s1, holdTexture env s texture = some s1 := by
  unfold holdTexture
  obtain ⟨s1, h1⟩ := QueueLoad_isSome env (s.acquireHandle texture) texture true
    ResourceListenerPtr.null hvalid
  rw [h1]
  exact LockResource_isSome env s1 texture hvalid

theorem loadSprites_isSome (sprites : List (String × JsonValue))
    (acc : List (String × FRectangle)) :
    (loadSprites sprites acc).isSome = sprites.all (fun p => (buildRect p.2).isSome) := by
  induction sprites generalizing acc with
  | nil => rfl
  | cons p rest ih =>
    obtain ⟨name, value⟩ := p
    cases hrect : buildRect value with
    | none => simp [loadSprites, hrect]
    | some rect => simp [loadSprites, hrect, ih]

/-- The map the loop of `Load` leaves: the pairs it found, and for every name it did not find the
rectangle of the first sprite of that name. -/
theorem loadSprites_mem (sprites : List (String × JsonValue))
    (acc m : List (String × FRectangle)) (h : loadSprites sprites acc = some m)
    (name : String) (rect : FRectangle) :
    (name, rect) ∈ m ↔
      (name, rect) ∈ acc
        ∨ (name ∉ acc.map (fun p => p.1)
            ∧ ∃ value, JsonValue.FindMember sprites name = some value
                ∧ buildRect value = some rect) := by
  induction sprites generalizing acc with
  | nil =>
    simp only [loadSprites, Option.some.injEq] at h
    subst h
    simp [JsonValue.FindMember]
  | cons p rest ih =>
    obtain ⟨key, value⟩ := p
    cases hrect : buildRect value with
    | none => simp [loadSprites, hrect] at h
    | some built =>
      simp only [loadSprites, hrect] at h
      rw [ih _ h]
      unfold try_emplace
      by_cases hkey : key ∈ acc.map (fun p => p.1)
      · simp only [hkey, if_true]
        by_cases hname : key = name
        · subst hname
          simp [hkey]
        · simp [JsonValue.FindMember, hname]
      · simp only [hkey, if_false]
        by_cases hname : key = name
        · subst hname
          have hk : ∀ x, (key, x) ∉ acc := by
            intro x hx
            exact hkey (List.mem_map.2 ⟨(key, x), hx, rfl⟩)
          simp only [List.mem_append, List.mem_singleton, Prod.mk.injEq, true_and,
            List.map_append, List.map_cons, List.map_nil, not_or, not_true_eq_false, and_false,
            false_and, or_false, JsonValue.FindMember, if_true, Option.some.injEq,
            exists_eq_left', hrect, hk, false_or]
          constructor
          · intro hx
            exact ⟨hkey, hx.symm⟩
          · intro hx
            exact hx.2.symm
        · have hname2 : ¬ name = key := fun hx => hname hx.symm
          simp [JsonValue.FindMember, hname, hname2]

/-- The loop of `Load` keeps the names of the map distinct. -/
theorem loadSprites_nodup (sprites : List (String × JsonValue))
    (acc m : List (String × FRectangle)) (h : loadSprites sprites acc = some m)
    (hacc : (acc.map (fun p => p.1)).Nodup) : (m.map (fun p => p.1)).Nodup := by
  induction sprites generalizing acc with
  | nil =>
    simp only [loadSprites, Option.some.injEq] at h
    subst h
    exact hacc
  | cons p rest ih =>
    obtain ⟨key, value⟩ := p
    cases hrect : buildRect value with
    | none => simp [loadSprites, hrect] at h
    | some built =>
      simp only [loadSprites, hrect] at h
      apply ih _ h
      unfold try_emplace
      by_cases hkey : key ∈ acc.map (fun p => p.1)
      · simp only [hkey, if_true]
        exact hacc
      · simp only [hkey, if_false, List.map_append, List.map_cons, List.map_nil]
        rw [List.nodup_append]
        refine ⟨hacc, List.nodup_singleton _, ?_⟩
        intro a ha hb
        rw [List.mem_singleton.1 hb] at ha
        exact hkey ha

/-- On a document with a `Texture` member that names a valid identifier, `Load` holds the texture
before it looks for `Sprites`; what it returns then depends on `Sprites` only. -/
theorem Load_with_texture (env : Collaborators) (parse : Bytes → Option JsonValue)
    (self : SpritesheetResource) (data : Bytes) (s : ResourceManager)
    (members : List (String × JsonValue)) (texture : ResourceID)
    (hdata : data ≠ [])
    (hparse : parse data = some (JsonValue.object members))
    (htexture : JsonValue.FindMember members "Texture" = some (JsonValue.string texture))
    (hvalid : env.IsValid texture = true) :
    ∃ s1 s2, holdTexture env s texture = some s1 ∧ dropHandle env s1 texture = some s2
      ∧ Load env parse self data s =
        match JsonValue.FindMember members "Sprites" with
        | none =>
          some (LoadResult.kFailed,
            { m_text := data, m_textureResourceID := texture, m_sprites := self.m_sprites }, s2)
        | some (JsonValue.object sprites) =>
          (loadSprites sprites self.m_sprites).map
            (fun m_sprites =>
              (if sprites.isEmpty then LoadResult.kFailed else LoadResult.kKeptRawData,
                { m_text := data, m_textureResourceID := texture, m_sprites := m_sprites }, s2))
        | some _ => none := by
  obtain ⟨s1, h1⟩ := holdTexture_isSome env s texture hvalid
  obtain ⟨s2, h2⟩ := ReleaseResource_isSome env s1 texture hvalid
  refine ⟨s1, s2, h1, h2, ?_⟩
  have h2a : dropHandle env s1 texture = some s2 := h2
  unfold Load
  simp only [List.isEmpty_iff, hdata, if_false, hparse, htexture, hvalid, Bool.not_true,
    Bool.false_eq_true, h1]
  cases hsprites : JsonValue.FindMember members "Sprites" with
  | none => simp [h2a]
  | some value =>
    cases value with
    | object sprites =>
      cases hloop : loadSprites sprites self.m_sprites with
      | none => simp [hloop]
      | some m => simp [hloop, h2a]
    | _ => rfl

/-- `Load` returns exactly on the inputs that pass its assertions. -/
theorem Load_isSome (env : Collaborators) (parse : Bytes → Option JsonValue)
    (self : SpritesheetResource) (data : Bytes) (s : ResourceManager) :
    (Load env parse self data s).isSome = passesAssertions env parse data := by
  by_cases hdata : data = []
  · subst hdata
    simp [Load, passesAssertions]
  · cases hparse : parse data with
    | none => simp [Load, passesAssertions, hdata, hparse]
    | some jsonDoc =>
      cases jsonDoc with
      | object members =>
        cases htexture : JsonValue.FindMember members "Texture" with
        | none => simp [Load, passesAssertions, assertionsHold, hdata, hparse, htexture]
        | some value =>
          cases value with
          | string texture =>
            by_cases hvalid : env.IsValid texture = true
            · obtain ⟨s1, s2, -, -, h⟩ :=
                Load_with_texture env parse self data s members texture hdata hparse htexture
                  hvalid
              rw [h]
              cases hsprites : JsonValue.FindMember members "Sprites" with
              | none =>
                simp [passesAssertions, assertionsHold, hdata, hparse, htexture, hvalid,
                  hsprites]
              | some value =>
                cases value with
                | object sprites =>
                  simp [passesAssertions, assertionsHold, hdata, hparse, htexture, hvalid,
                    hsprites, loadSprites_isSome sprites self.m_sprites]
                | _ =>
                  simp [passesAssertions, assertionsHold, hdata, hparse, htexture, hvalid,
                    hsprites]
            · simp [Load, passesAssertions, assertionsHold, hdata, hparse, htexture, hvalid]
          | _ => simp [Load, passesAssertions, assertionsHold, hdata, hparse, htexture]
      | _ => simp [Load, passesAssertions, assertionsHold, hdata, hparse]

/-- C26, the claim as it stands, fails: the one-byte text `4` parses to an object with the members
`Texture` and `Sprites`, and `Sprites` has a member, so none of the five reasons to fail
applies; but `Texture` is a number, `EXE_ASSERT(textureMember->value.IsString())` fails, and
`Load` returns neither `kKeptRawData` nor anything else. -/
theorem Load_asserts_counterexample :
    failsAsSpecified demoParse [4] = false
      ∧ Load demoEnv demoParse SpritesheetResource.fresh [4] (Initialize true) = none :=
  ⟨by decide, rfl⟩

/-- C26, amended: on every input that passes the assertions of `Load` (the parsed document is an
object, its `Texture` is a string that names a valid identifier, its `Sprites` is an object whose
members are objects with numbers in their `source` members), `Load` returns; the result is
`kFailed` exactly when the data is empty, or cannot be parsed, or has no `Texture` member, or no
`Sprites` member, or `Sprites` has no members, and `kKeptRawData` otherwise; and a resource that
had no sprites has then one rectangle for every name among the members of `Sprites` and no
other: the names of its map are distinct, and the rectangle of a name is the one built from the
first member of that name. -/
theorem Load_fails_as_specified (env : Collaborators) (parse : Bytes → Option JsonValue)
    (self : SpritesheetResource) (data : Bytes) (s : ResourceManager)
    (hpass : passesAssertions env parse data = true) :
    ∃ result self1 s1, Load env parse self data s = some (result, self1, s1)
      ∧ (result = LoadResult.kFailed ↔ failsAsSpecified parse data = true)
      ∧ (result ≠ LoadResult.kFailed → result = LoadResult.kKeptRawData)
      ∧ (result = LoadResult.kKeptRawData → self.m_sprites = [] →
          ∃ members sprites, parse data = some (JsonValue.object members)
            ∧ JsonValue.FindMember members "Sprites" = some (JsonValue.object sprites)
            ∧ (self1.m_sprites.map (fun p => p.1)).Nodup
            ∧ ∀ name rect, (name, rect) ∈ self1.m_sprites ↔
                ∃ value, JsonValue.FindMember sprites name = some value
                  ∧ buildRect value = some rect) := by
  by_cases hdata : data = []
  · subst hdata
    exact ⟨LoadResult.kFailed, { self with m_text := [] }, s, by simp [Load],
      by simp [failsAsSpecified], by simp, by simp⟩
  · cases hparse : parse data with
    | none =>
      exact ⟨LoadResult.kFailed, { self with m_text := data }, s,
        by simp [Load, hdata, hparse], by simp [failsAsSpecified, hparse], by simp, by simp⟩
    | some jsonDoc =>
      cases jsonDoc with
      | object members =>
        cases htexture : JsonValue.FindMember members "Texture" with
        | none =>
          exact ⟨LoadResult.kFailed, { self with m_text := data }, s,
            by simp [Load, hdata, hparse, htexture],
            by simp [failsAsSpecified, hparse, htexture, JsonValue.members], by simp, by simp⟩
        | some value =>
          cases value with
          | string texture =>
            have hne : data.isEmpty = false := by simp [hdata]
            unfold passesAssertions at hpass
            rw [hne, Bool.false_or, hparse] at hpass
            simp only [assertionsHold, htexture, Bool.and_eq_true] at hpass
            obtain ⟨hvalid, hsheet⟩ := hpass
            obtain ⟨s1, s2, -, -, h⟩ :=
              Load_with_texture env parse self data s members texture hdata hparse htexture
                hvalid
            rw [h]
            cases hsprites : JsonValue.FindMember members "Sprites" with
            | none =>
              exact ⟨LoadResult.kFailed, _, _, rfl,
                by simp [failsAsSpecified, hdata, hparse, htexture, hsprites,
                  JsonValue.members],
                by simp, by simp⟩
            | some value =>
              cases value with
              | object sprites =>
                simp only [hsprites] at hsheet
                have hloop := loadSprites_isSome sprites self.m_sprites
                rw [hsheet, Option.isSome_iff_exists] at hloop
                obtain ⟨m, hm⟩ := hloop
                simp only [hm, Option.map_some']
                refine ⟨_, _, _, rfl, ?_, ?_, ?_⟩
                · cases sprites <;>
                    simp [failsAsSpecified, hdata, hparse, htexture, hsprites,
                      JsonValue.members]
                · cases sprites <;> simp
                · intro _ hfresh
                  rw [hfresh] at hm
                  refine ⟨members, sprites, rfl, hsprites,
                    loadSprites_nodup sprites [] m hm List.nodup_nil, ?_⟩
                  intro name rect
                  rw [loadSprites_mem sprites [] m hm name rect]
                  simp
              | _ => simp [hsprites] at hsheet
          | _ =>
            simp [passesAssertions, hdata, hparse, assertionsHold, htexture] at hpass
      | _ => simp [passesAssertions, hdata, hparse, assertionsHold] at hpass

/-- C26 amended, at a concrete input: the one-byte text `3` parses to a sheet with the sprites
`idle`, `run` and `idle` once more. -/
theorem Load_fails_as_specified_witness :
    passesAssertions demoEnv demoParse [3] = true
      ∧ ∃ result self1 s1,
        Load demoEnv demoParse SpritesheetResource.fresh [3] (Initialize true)
            = some (result, self1, s1)
          ∧ (result = LoadResult.kFailed ↔ failsAsSpecified demoParse [3] = true)
          ∧ (result ≠ LoadResult.kFailed → result = LoadResult.kKeptRawData)
          ∧ (result = LoadResult.kKeptRawData → SpritesheetResource.fresh.m_sprites = [] →
              ∃ members sprites, demoParse [3] = some (JsonValue.object members)
                ∧ JsonValue.FindMember members "Sprites" = some (JsonValue.object sprites)
                ∧ (self1.m_sprites.map (fun p => p.1)).Nodup
                ∧ ∀ name rect, (name, rect) ∈ self1.m_sprites ↔
                    ∃ value, JsonValue.FindMember sprites name = some value
                      ∧ buildRect value = some rect) :=
  ⟨by decide,
    Load_fails_as_specified demoEnv demoParse SpritesheetResource.fresh [3] (Initialize true)
      (by decide)⟩

/-- The handle lines of `Load` leave the texture with an entry that has one pin more than
before (one pin, if there was no entry). -/
theorem holdTexture_pins (env : Collaborators) (s s1 : ResourceManager) (texture : ResourceID)
    (h : holdTexture env s texture = some s1) :
    ∃ e1, s1.m_resourceDatabase.GetEntry texture = some e1
      ∧ e1.lockCount
        = ((s.m_resourceDatabase.GetEntry texture).map (fun e => e.lockCount)).getD 0 + 1 := by
  unfold holdTexture at h
  cases hq : QueueLoad env (s.acquireHandle texture) texture true ResourceListenerPtr.null with
  | none => simp [hq] at h
  | some s2 =>
    simp only [hq] at h
    have hvalid : env.IsValid texture = true := by
      by_cases hv : env.IsValid texture = true
      · exact hv
      · simp [QueueLoad, hv] at hq
    have hacq : (s.acquireHandle texture).m_resourceDatabase.GetEntry texture
        = (s.m_resourceDatabase.GetEntry texture).map ResourceEntry.IncrementRefCount := by
      simp [acquireHandle, GetEntry_modifyEntry_self]
    have hqueued : ∃ e2, s2.m_resourceDatabase.GetEntry texture = some e2
        ∧ e2.lockCount
          = ((s.m_resourceDatabase.GetEntry texture).map (fun e => e.lockCount)).getD 0 := by
      cases hentry : s.m_resourceDatabase.GetEntry texture with
      | none =>
        rw [hentry] at hacq
        rw [QueueLoad_absent_eq env _ texture true ResourceListenerPtr.null hvalid hacq] at hq
        cases hq
        refine ⟨{ ResourceEntry.fresh with status := kLoading }, ?_, rfl⟩
        rw [(queueLoadTail_fields _ _ _).1]
        simp [SetLoadStatus, GetEntry_modifyEntry_self, GetEntry_CreateEntry_self]
      | some e =>
        rw [hentry] at hacq
        simp only [Option.map_some'] at hacq
        by_cases hst : e.status = kLoaded ∨ e.status = kLoading
        · rw [QueueLoad_loaded_or_loading_eq env _ texture true ResourceListenerPtr.null hvalid
            (by rcases hst with h1 | h1 <;>
              simp [GetLoadStatus, hacq, ResourceEntry.IncrementRefCount, h1])] at hq
          cases hq
          rw [(notifyListener_fields _ _ _).1]
          exact ⟨_, hacq, rfl⟩
        · have hl : (ResourceEntry.IncrementRefCount e).status ≠ kLoaded :=
            fun h1 => hst (Or.inl h1)
          have hg : (ResourceEntry.IncrementRefCount e).status ≠ kLoading :=
            fun h1 => hst (Or.inr h1)
          obtain ⟨s3, h3, he3, -⟩ :=
            QueueLoad_unloaded_found env _ texture true ResourceListenerPtr.null _ hvalid hacq
              hl hg
          rw [h3] at hq
          cases hq
          exact ⟨_, he3, rfl⟩
    obtain ⟨e2, he2, hlock⟩ := hqueued
    simp only [LockResource, hvalid, Bool.not_true, Bool.false_eq_true, if_false, he2,
      Option.some.injEq] at h
    subst h
    refine ⟨e2.IncrementLockCount, by simp [GetEntry_modifyEntry_self, he2], ?_⟩
    rw [← hlock]
    rfl

/-- The end of the handle keeps the pins of the texture. -/
theorem dropHandle_keeps_pins (env : Collaborators) (s s1 : ResourceManager)
    (texture : ResourceID) (e : ResourceEntry)
    (hentry : s.m_resourceDatabase.GetEntry texture = some e)
    (h : dropHandle env s texture = some s1) :
    ∃ e1, s1.m_resourceDatabase.GetEntry texture = some e1 ∧ e1.lockCount = e.lockCount := by
  unfold dropHandle at h
  have hvalid : env.IsValid texture = true := by
    by_cases hv : env.IsValid texture = true
    · exact hv
    · simp [ReleaseResource, hv] at h
  obtain ⟨s2, h2, he2, -⟩ := ReleaseResource_found env s texture e hvalid hentry
  rw [h2] at h
  cases h
  refine ⟨_, he2, ?_⟩
  split <;> rfl

/-- Whenever `Load` returns on a document with a `Texture` member, with whatever result, the
texture has one pin more than before the call: the handle lines come before the look at
`Sprites`, and no path after them unlocks. -/
theorem Load_pins_the_texture (env : Collaborators) (parse : Bytes → Option JsonValue)
    (self self1 : SpritesheetResource) (data : Bytes) (s s1 : ResourceManager)
    (result : LoadResult) (members : List (String × JsonValue)) (texture : ResourceID)
    (hdata : data ≠ [])
    (hparse : parse data = some (JsonValue.object members))
    (htexture : JsonValue.FindMember members "Texture" = some (JsonValue.string texture))
    (h : Load env parse self data s = some (result, self1, s1)) :
    ∃ e1, s1.m_resourceDatabase.GetEntry texture = some e1
      ∧ e1.lockCount
        = ((s.m_resourceDatabase.GetEntry texture).map (fun e => e.lockCount)).getD 0 + 1 := by
  have hvalid : env.IsValid texture = true := by
    by_cases hv : env.IsValid texture = true
    · exact hv
    · simp [Load, hdata, hparse, htexture, hv] at h
  obtain ⟨s2, s3, hhold, hdrop, heq⟩ :=
    Load_with_texture env parse self data s members texture hdata hparse htexture hvalid
  obtain ⟨e2, he2, hlock⟩ := holdTexture_pins env s s2 texture hhold
  obtain ⟨e3, he3, hkeep⟩ := dropHandle_keeps_pins env s2 s3 texture e2 he2 hdrop
  have hs : s1 = s3 := by
    rw [heq] at h
    cases hsprites : JsonValue.FindMember members "Sprites" with
    | none =>
      simp only [hsprites, Option.some.injEq, Prod.mk.injEq] at h
      exact h.2.2.symm
    | some value =>
      cases value with
      | object sprites =>
        simp only [hsprites] at h
        cases hloop : loadSprites sprites self.m_sprites with
        | none => simp [hloop] at h
        | some m =>
          simp only [hloop, Option.map_some', Option.some.injEq, Prod.mk.injEq] at h
          exact h.2.2.symm
      | _ => simp [hsprites] at h
  subst hs
  exact ⟨e3, he3, hkeep.trans hlock⟩

/-- C29: `Load` does leave a pin behind when it fails.  The one-byte text `1` parses to a sheet
with a `Texture` and no `Sprites`: on the empty manager `Load` returns `kFailed` with the texture
`x` queued, Loading and pinned once.  The text `2` parses to a sheet whose `Sprites` is empty: on
a manager that holds `x` Loaded and unpinned, `Load` returns `kFailed` and `x` is pinned once. -/
theorem Load_failure_leaves_the_texture_pinned :
    (Initialize true).m_resourceDatabase.GetEntry "x" = none
      ∧ (Load demoEnv demoParse SpritesheetResource.fresh [1] (Initialize true)).map
          (fun r => (r.1, r.2.2.m_resourceDatabase, r.2.2.m_deferredQueue))
        = some (LoadResult.kFailed,
            [("x", { status := kLoading, referenceCount := 0, lockCount := 1, payload := none })],
            ["x"])
      ∧ ((demoHeld 1).m_resourceDatabase.GetEntry "x").map (fun e => e.lockCount) = some 0
      ∧ (Load demoEnv demoParse SpritesheetResource.fresh [2] (demoHeld 1)).map
          (fun r => (r.1, (r.2.2.m_resourceDatabase.GetEntry "x").map (fun e => e.lockCount)))
        = some (LoadResult.kFailed, some 1) := by
  decide

end SpriteSheet

/-! ## Loads whose decoder calls the manager (C21, C22) -/

theorem keepLocals_eq_some (s s1 : ResourceManager) (r : Option ResourceManager)
    (h : s.keepLocals r = some s1) :
    ∃ s0, r = some s0
      ∧ s1 = { s0 with
          m_quitThread := s.m_quitThread
          m_useRawAssets := s.m_useRawAssets
          processingResourceListenersMap := s.processingResourceListenersMap } := by
  cases r with
  | none => simp [keepLocals] at h
  | some s0 =>
    simp only [keepLocals, Option.map_some', Option.some.injEq] at h
    exact ⟨s0, rfl, h.symm⟩

/-- The end of a load, from the manager the decoder left: the entry of the identifier is the
loaded one, every other entry and every other member is as the decoder left it. -/
theorem finishLoad_result (env : Collaborators) (rawData : Bytes) (resourceID : ResourceID)
    (s s1 : ResourceManager) (h : Reentrant.finishLoad env rawData resourceID s = some s1) :
    s1.m_resourceDatabase.GetEntry resourceID
        = (s.m_resourceDatabase.GetEntry resourceID).map (loadedEntry env rawData resourceID)
      ∧ (∀ other, other ≠ resourceID →
          s1.m_resourceDatabase.GetEntry other = s.m_resourceDatabase.GetEntry other)
      ∧ s1.m_deferredQueue = s.m_deferredQueue
      ∧ s1.m_deferredResourceListenersMap = s.m_deferredResourceListenersMap
      ∧ s1.processingResourceListenersMap = s.processingResourceListenersMap
      ∧ s1.m_quitThread = s.m_quitThread
      ∧ s1.m_useRawAssets = s.m_useRawAssets
      ∧ s1.trace = s.trace := by
  have hdb : s1.m_resourceDatabase =
      (match decodedResource env rawData resourceID with
        | none => s.m_resourceDatabase.Unload resourceID
        | some loaded =>
          (s.m_resourceDatabase.modifyEntry resourceID
            (fun e => e.SetResource loaded)).SetLoadStatus resourceID kLoaded)
      ∧ s1.m_deferredQueue = s.m_deferredQueue
      ∧ s1.m_deferredResourceListenersMap = s.m_deferredResourceListenersMap
      ∧ s1.processingResourceListenersMap = s.processingResourceListenersMap
      ∧ s1.m_quitThread = s.m_quitThread
      ∧ s1.m_useRawAssets = s.m_useRawAssets
      ∧ s1.trace = s.trace := by
    unfold Reentrant.finishLoad at h
    cases hdec : decodedResource env rawData resourceID with
    | none =>
      simp only [hdec, Option.some.injEq] at h
      subst h
      exact ⟨rfl, rfl, rfl, rfl, rfl, rfl, rfl⟩
    | some loaded =>
      simp only [hdec] at h
      cases hentry : s.m_resourceDatabase.GetEntry resourceID with
      | none => simp [hentry] at h
      | some e =>
        simp only [hentry, Option.some.injEq] at h
        subst h
        exact ⟨rfl, rfl, rfl, rfl, rfl, rfl, rfl⟩
  obtain ⟨h1, h2, h3, h4, h5, h6, h7⟩ := hdb
  refine ⟨?_, ?_, h2, h3, h4, h5, h6, h7⟩
  · rw [h1]
    exact GetEntry_after_load_self env _ rawData resourceID
  · intro other hne
    rw [h1]
    exact GetEntry_after_load_other env _ rawData resourceID other hne

/-- The end of a load returns when the identifier has an entry. -/
theorem finishLoad_isSome (env : Collaborators) (rawData : Bytes) (resourceID : ResourceID)
    (s : ResourceManager) (e : ResourceEntry)
    (hentry : s.m_resourceDatabase.GetEntry resourceID = some e) :
    ∃ s1, Reentrant.finishLoad env rawData resourceID s = some s1 := by
  unfold Reentrant.finishLoad
  cases decodedResource env rawData resourceID with
  | none => exact ⟨_, rfl⟩
  | some loaded =>
    simp only [hentry]
    exact ⟨_, rfl⟩

theorem record_thrice (s : ResourceManager) (a b c : Event) :
    ((s.record a).record b).record c = { s with trace := s.trace ++ [a, b, c] } := by
  simp [record]

/-- A load is the decoder's part followed by the manager's end of it. -/
theorem Reentrant_LoadResource_eq (cb : Callbacks) (env : Collaborators) (s : ResourceManager)
    (resourceID : ResourceID) (hvalid : env.IsValid resourceID = true) :
    Reentrant.LoadResource cb env s resourceID
      = (Reentrant.afterDecoder cb env s resourceID).bind
          (Reentrant.finishLoad env (rawDataOf env s.m_useRawAssets resourceID) resourceID) := by
  unfold Reentrant.LoadResource Reentrant.afterDecoder Reentrant.finishLoad
  rw [LoadRawData_eq env s resourceID hvalid]
  simp only [hvalid, Bool.not_true, Bool.false_eq_true, if_false]
  unfold decodedResource loadEvents
  by_cases hempty : (rawDataOf env s.m_useRawAssets resourceID).isEmpty = true
  · simp [hempty, unloadEntry, record]
  · simp only [hempty, if_false, Bool.false_eq_true]
    cases hcreate : env.CreateResource resourceID with
    | none => simp [unloadEntry, record]
    | some pResource =>
      simp only [record_thrice]
      generalize keepLocals
          { s with trace := s.trace ++ [Event.storageRead resourceID,
              Event.factoryCreate resourceID, Event.decode resourceID] }
          (cb.duringLoad pResource (rawDataOf env s.m_useRawAssets resourceID)
            { s with trace := s.trace ++ [Event.storageRead resourceID,
              Event.factoryCreate resourceID, Event.decode resourceID] }) = r
      cases r with
      | none => rfl
      | some s4 =>
        simp only [Option.some_bind]
        by_cases hload :
            ((env.Load pResource (rawDataOf env s.m_useRawAssets resourceID)).1
              != LoadResult.kFailed) = true
        · simp only [hload, if_true]
        · simp only [hload, if_false, Bool.false_eq_true]

/-- What the decoder's part of a load comes to, case by case: without bytes or without a
resource from the factory no decoder runs and the events of the load are all that happened;
otherwise the decoder made its calls on the manager with the three events written. -/
theorem afterDecoder_eq (cb : Callbacks) (env : Collaborators) (s : ResourceManager)
    (resourceID : ResourceID) (rawData : Bytes)
    (hread : LoadRawData env s resourceID = some rawData) :
    (rawData = [] →
        Reentrant.afterDecoder cb env s resourceID
          = some { s with trace := s.trace ++ [Event.storageRead resourceID] })
      ∧ (rawData ≠ [] → env.CreateResource resourceID = none →
        Reentrant.afterDecoder cb env s resourceID
          = some { s with trace := s.trace
              ++ [Event.storageRead resourceID, Event.factoryCreate resourceID] })
      ∧ (∀ pResource, rawData ≠ [] → env.CreateResource resourceID = some pResource →
        Reentrant.afterDecoder cb env s resourceID
          = keepLocals
              { s with trace := s.trace ++ [Event.storageRead resourceID,
                  Event.factoryCreate resourceID, Event.decode resourceID] }
              (cb.duringLoad pResource rawData
                { s with trace := s.trace ++ [Event.storageRead resourceID,
                  Event.factoryCreate resourceID, Event.decode resourceID] })) := by
  obtain ⟨_, hraw⟩ := rawDataOf_of_LoadRawData env s resourceID rawData hread
  unfold Reentrant.afterDecoder
  rw [hraw]
  refine ⟨?_, ?_, ?_⟩
  · intro h
    subst h
    simp [loadEvents]
  · intro h hc
    simp [loadEvents, h, hc]
  · intro p h hc
    simp [loadEvents, h, hc]

/-- C21: a `LoadResource` whose read is empty, whose factory returns no resource or whose decode
answers `kFailed` ends with `Unload` of the identifier, on the manager as the decoder, if it ran,
left it: the entry of the identifier is Unloaded and has no payload when the load returns.  An
empty read and a missing resource run no decoder: the load returns, the database is `Unload` of
the one it found (the entry Unloaded without payload, Loading or not before, every other entry
as it was) and queue and listener map are as they were; after an empty read the trace has grown
by the read only, so the factory was not asked.  A failed decode ends the same way, on the
manager the decoder's calls left. -/
theorem LoadResource_failure_ends_unloaded (cb : Callbacks) (env : Collaborators)
    (s : ResourceManager) (resourceID : ResourceID) (e : ResourceEntry) (rawData : Bytes)
    (hentry : s.m_resourceDatabase.GetEntry resourceID = some e)
    (hread : LoadRawData env s resourceID = some rawData)
    (hfail : rawData = [] ∨ env.CreateResource resourceID = none
      ∨ ∃ pResource, env.CreateResource resourceID = some pResource
          ∧ (env.Load pResource rawData).1 = LoadResult.kFailed) :
    Reentrant.LoadResource cb env s resourceID
        = (Reentrant.afterDecoder cb env s resourceID).map (fun s3 => s3.unloadEntry resourceID)
      ∧ (∀ s1, Reentrant.LoadResource cb env s resourceID = some s1 →
          ∀ e1, s1.m_resourceDatabase.GetEntry resourceID = some e1 →
            e1.status = kUnloaded ∧ e1.payload = none)
      ∧ (rawData = [] ∨ env.CreateResource resourceID = none →
          ∃ s1, Reentrant.LoadResource cb env s resourceID = some s1
            ∧ s1.m_resourceDatabase = s.m_resourceDatabase.Unload resourceID
            ∧ s1.m_resourceDatabase.GetEntry resourceID
                = some { e with status := kUnloaded, payload := none }
            ∧ (∀ other, other ≠ resourceID →
                s1.m_resourceDatabase.GetEntry other = s.m_resourceDatabase.GetEntry other)
            ∧ s1.m_deferredQueue = s.m_deferredQueue
            ∧ s1.m_deferredResourceListenersMap = s.m_deferredResourceListenersMap)
      ∧ (rawData = [] →
          ∃ s1, Reentrant.LoadResource cb env s resourceID = some s1
            ∧ s1.trace = s.trace ++ [Event.storageRead resourceID]
            ∧ factoryCreates s1.trace = factoryCreates s.trace
            ∧ decodes s1.trace = decodes s.trace)
      ∧ (∀ s3 e3, Reentrant.afterDecoder cb env s resourceID = some s3 →
          s3.m_resourceDatabase.GetEntry resourceID = some e3 →
          ∃ s1, Reentrant.LoadResource cb env s resourceID = some s1
            ∧ s1.m_resourceDatabase = s3.m_resourceDatabase.Unload resourceID
            ∧ s1.m_resourceDatabase.GetEntry resourceID
                = some { e3 with status := kUnloaded, payload := none }
            ∧ (∀ other, other ≠ resourceID →
                s1.m_resourceDatabase.GetEntry other = s3.m_resourceDatabase.GetEntry other)
            ∧ s1.m_deferredQueue = s3.m_deferredQueue
            ∧ s1.m_deferredResourceListenersMap = s3.m_deferredResourceListenersMap) := by
  obtain ⟨hvalid, hraw⟩ := rawDataOf_of_LoadRawData env s resourceID rawData hread
  have hdec : decodedResource env rawData resourceID = none := by
    cases hd : decodedResource env rawData resourceID with
    | none => rfl
    | some loaded =>
      obtain ⟨h1, p, h2, h3, _⟩ := (decodedResource_eq_some_iff env rawData resourceID loaded).1 hd
      rcases hfail with h | h | ⟨q, hq, hq2⟩
      · exact absurd h h1
      · rw [h] at h2
        cases h2
      · rw [hq] at h2
        cases h2
        exact absurd hq2 h3
  have heq : Reentrant.LoadResource cb env s resourceID
      = (Reentrant.afterDecoder cb env s resourceID).map
          (fun s3 => s3.unloadEntry resourceID) := by
    rw [Reentrant_LoadResource_eq cb env s resourceID hvalid, hraw]
    cases Reentrant.afterDecoder cb env s resourceID with
    | none => rfl
    | some s3 => simp [Reentrant.finishLoad, hdec]
  obtain ⟨hA, hB, -⟩ := afterDecoder_eq cb env s resourceID rawData hread
  have hunload : ∀ (db : ResourceDatabase) (e0 : ResourceEntry),
      db.GetEntry resourceID = some e0 →
      (db.Unload resourceID).GetEntry resourceID
        = some { e0 with status := kUnloaded, payload := none } := by
    intro db e0 h0
    simp only [Unload, GetEntry_modifyEntry_self, h0]
    rfl
  have hothers : ∀ (db : ResourceDatabase) other, other ≠ resourceID →
      (db.Unload resourceID).GetEntry other = db.GetEntry other := by
    intro db other hne
    simp only [Unload]
    exact GetEntry_modifyEntry_other _ _ _ _ hne
  refine ⟨heq, ?_, ?_, ?_, ?_⟩
  · intro s1 h1 e1 he1
    rw [heq] at h1
    cases h3 : Reentrant.afterDecoder cb env s resourceID with
    | none => simp [h3] at h1
    | some s3 =>
      simp only [h3, Option.map_some', Option.some.injEq] at h1
      subst h1
      simp only [unloadEntry, Unload, GetEntry_modifyEntry_self] at he1
      cases h4 : s3.m_resourceDatabase.GetEntry resourceID with
      | none => simp [h4] at he1
      | some e3 =>
        simp only [h4, Option.map_some', Option.some.injEq] at he1
        subst he1
        exact ⟨rfl, rfl⟩
  · intro hno
    have h3 : ∃ t, Reentrant.afterDecoder cb env s resourceID
        = some { s with trace := s.trace ++ t } := by
      by_cases hempty : rawData = []
      · exact ⟨_, hA hempty⟩
      · rcases hno with h | h
        · exact absurd h hempty
        · exact ⟨_, hB hempty h⟩
    obtain ⟨t, h3⟩ := h3
    rw [heq, h3]
    exact ⟨_, rfl, rfl, hunload _ e hentry, hothers _, rfl, rfl⟩
  · intro hempty
    rw [heq, hA hempty]
    refine ⟨_, rfl, rfl, ?_, ?_⟩
    · simp [unloadEntry, factoryCreates_append, factoryCreates]
    · simp [unloadEntry, decodes_append, decodes]
  · intro s3 e3 h3 he3
    rw [heq, h3]
    exact ⟨_, rfl, rfl, hunload _ e3 he3, hothers _, rfl, rfl⟩

/-- C22: for a read that is not empty and a resource made by the factory, once the decoder has
made its calls and the identifier still has its entry, `LoadResource` returns; the entry is
Loaded exactly when the decode result is not `kFailed`, and then its payload is the decoded
object, for `kLoaded` and `kKeptRawData` alike; on `kFailed` the entry is Unloaded and has no
payload.  The counts of the entry, the other entries, the queue and the listener map are as the
decoder's calls left them. -/
theorem LoadResource_installs_exactly_when_not_failed (cb : Callbacks) (env : Collaborators)
    (s s3 : ResourceManager) (resourceID : ResourceID) (e3 : ResourceEntry) (rawData : Bytes)
    (pResource : Resource)
    (hread : LoadRawData env s resourceID = some rawData)
    (hbytes : rawData ≠ [])
    (hcreate : env.CreateResource resourceID = some pResource)
    (hdecoder : keepLocals
        { s with trace := s.trace ++ [Event.storageRead resourceID,
            Event.factoryCreate resourceID, Event.decode resourceID] }
        (cb.duringLoad pResource rawData
          { s with trace := s.trace ++ [Event.storageRead resourceID,
            Event.factoryCreate resourceID, Event.decode resourceID] }) = some s3)
    (hentry : s3.m_resourceDatabase.GetEntry resourceID = some e3) :
    ∃ s1 e1, Reentrant.LoadResource cb env s resourceID = some s1
      ∧ s1.m_resourceDatabase.GetEntry resourceID = some e1
      ∧ (e1.status = kLoaded ↔ (env.Load pResource rawData).1 ≠ LoadResult.kFailed)
      ∧ (e1.payload = some (env.Load pResource rawData).2
          ↔ (env.Load pResource rawData).1 ≠ LoadResult.kFailed)
      ∧ ((env.Load pResource rawData).1 = LoadResult.kLoaded
            ∨ (env.Load pResource rawData).1 = LoadResult.kKeptRawData →
          e1 = { e3 with status := kLoaded, payload := some (env.Load pResource rawData).2 })
      ∧ ((env.Load pResource rawData).1 = LoadResult.kFailed →
          e1 = { e3 with status := kUnloaded, payload := none })
      ∧ e1.referenceCount = e3.referenceCount ∧ e1.lockCount = e3.lockCount
      ∧ (∀ other, other ≠ resourceID →
          s1.m_resourceDatabase.GetEntry other = s3.m_resourceDatabase.GetEntry other)
      ∧ s1.m_deferredQueue = s3.m_deferredQueue
      ∧ s1.m_deferredResourceListenersMap = s3.m_deferredResourceListenersMap
      ∧ s1.trace = s3.trace := by
  obtain ⟨hvalid, hraw⟩ := rawDataOf_of_LoadRawData env s resourceID rawData hread
  obtain ⟨-, -, hC⟩ := afterDecoder_eq cb env s resourceID rawData hread
  have h3 : Reentrant.afterDecoder cb env s resourceID = some s3 :=
    (hC pResource hbytes hcreate).trans hdecoder
  obtain ⟨s1, h1⟩ := finishLoad_isSome env rawData resourceID s3 e3 hentry
  obtain ⟨hself, hother, hq, hm, -, -, -, ht⟩ := finishLoad_result env rawData resourceID s3 s1 h1
  have hload : Reentrant.LoadResource cb env s resourceID = some s1 := by
    rw [Reentrant_LoadResource_eq cb env s resourceID hvalid, hraw, h3]
    exact h1
  rw [hentry, Option.map_some'] at hself
  by_cases hres : (env.Load pResource rawData).1 = LoadResult.kFailed
  · have hdec : decodedResource env rawData resourceID = none := by
      cases hd : decodedResource env rawData resourceID with
      | none => rfl
      | some loaded =>
        obtain ⟨_, p, h2, h4, _⟩ :=
          (decodedResource_eq_some_iff env rawData resourceID loaded).1 hd
        rw [hcreate] at h2
        cases h2
        exact absurd hres h4
    have he : loadedEntry env rawData resourceID e3
        = { e3 with status := kUnloaded, payload := none } := by
      simp [loadedEntry, hdec, ResourceEntry.unloaded]
    rw [he] at hself
    refine ⟨s1, _, hload, hself, ?_, ?_, ?_, ?_, rfl, rfl, hother, hq, hm, ht⟩
    · simp [hres]
    · simp [hres]
    · intro h
      rcases h with h | h <;> simp [h] at hres
    · intro _
      rfl
  · have hdec : decodedResource env rawData resourceID = some (env.Load pResource rawData).2 :=
      (decodedResource_eq_some_iff env rawData resourceID _).2
        ⟨hbytes, pResource, hcreate, hres, rfl⟩
    have he : loadedEntry env rawData resourceID e3
        = { e3 with status := kLoaded, payload := some (env.Load pResource rawData).2 } := by
      simp [loadedEntry, hdec, ResourceEntry.SetResource]
    rw [he] at hself
    refine ⟨s1, _, hload, hself, ?_, ?_, ?_, ?_, rfl, rfl, hother, hq, hm, ht⟩
    · simp [hres]
    · simp [hres]
    · intro _
      rfl
    · intro h
      exact absurd h hres

/-- C21, at a concrete input: `badsheet` is Loading; its file is a sheet without `Sprites`, whose
decoder queues and pins the texture `x` and answers `kFailed`. -/
theorem LoadResource_failure_ends_unloaded_witness :
    (demoLoading "badsheet").m_resourceDatabase.GetEntry "badsheet"
        = some { ResourceEntry.fresh with status := kLoading }
      ∧ LoadRawData sheetEnv (demoLoading "badsheet") "badsheet" = some [1]
      ∧ (∃ pResource, sheetEnv.CreateResource "badsheet" = some pResource
          ∧ (sheetEnv.Load pResource [1]).1 = LoadResult.kFailed)
      ∧ (Reentrant.LoadResource demoCallbacks sheetEnv (demoLoading "badsheet") "badsheet").map
          (fun s1 => (s1.m_resourceDatabase.GetEntry "badsheet", s1.m_deferredQueue,
            (s1.m_resourceDatabase.GetEntry "x").map (fun e => e.lockCount)))
        = some (some ResourceEntry.fresh, ["badsheet", "x"], some 1)
      ∧ (∀ s1, Reentrant.LoadResource demoCallbacks sheetEnv (demoLoading "badsheet") "badsheet"
            = some s1 →
          ∀ e1, s1.m_resourceDatabase.GetEntry "badsheet" = some e1 →
            e1.status = kUnloaded ∧ e1.payload = none) :=
  ⟨rfl, rfl, ⟨_, rfl, rfl⟩, by decide,
    (LoadResource_failure_ends_unloaded demoCallbacks sheetEnv (demoLoading "badsheet")
      "badsheet" { ResourceEntry.fresh with status := kLoading } [1] rfl rfl
      (Or.inr (Or.inr ⟨_, rfl, rfl⟩))).2.1⟩

/-- C22, at a concrete input: `sheet` is Loading; its decoder queues and pins the texture `x` and
answers `kKeptRawData`. -/
theorem LoadResource_installs_exactly_when_not_failed_witness :
    LoadRawData sheetEnv (demoLoading "sheet") "sheet" = some [3]
      ∧ sheetEnv.CreateResource "sheet" = some { id := "sheet", contents := [] }
      ∧ (sheetEnv.Load { id := "sheet", contents := [] } [3]).1 = LoadResult.kKeptRawData
      ∧ (demoSheetDecoded.m_resourceDatabase.GetEntry "sheet", demoSheetDecoded.m_deferredQueue,
          (demoSheetDecoded.m_resourceDatabase.GetEntry "x").map (fun e => e.lockCount))
        = (some { ResourceEntry.fresh with status := kLoading }, ["sheet", "x"], some 1)
      ∧ ∃ s1 e1, Reentrant.LoadResource demoCallbacks sheetEnv (demoLoading "sheet") "sheet"
            = some s1
        ∧ s1.m_resourceDatabase.GetEntry "sheet" = some e1
        ∧ (e1.status = kLoaded
            ↔ (sheetEnv.Load { id := "sheet", contents := [] } [3]).1 ≠ LoadResult.kFailed)
        ∧ (e1.payload = some (sheetEnv.Load { id := "sheet", contents := [] } [3]).2
            ↔ (sheetEnv.Load { id := "sheet", contents := [] } [3]).1 ≠ LoadResult.kFailed)
        ∧ ((sheetEnv.Load { id := "sheet", contents := [] } [3]).1 = LoadResult.kLoaded
              ∨ (sheetEnv.Load { id := "sheet", contents := [] } [3]).1
                = LoadResult.kKeptRawData →
            e1 = { { ResourceEntry.fresh with status := kLoading } with
                status := kLoaded
                payload := some (sheetEnv.Load { id := "sheet", contents := [] } [3]).2 })
        ∧ ((sheetEnv.Load { id := "sheet", contents := [] } [3]).1 = LoadResult.kFailed →
            e1 = { { ResourceEntry.fresh with status := kLoading } with
                status := kUnloaded, payload := none })
        ∧ e1.referenceCount = ({ ResourceEntry.fresh with status := kLoading }).referenceCount
        ∧ e1.lockCount = ({ ResourceEntry.fresh with status := kLoading }).lockCount
        ∧ (∀ other, other ≠ "sheet" →
            s1.m_resourceDatabase.GetEntry other
              = demoSheetDecoded.m_resourceDatabase.GetEntry other)
        ∧ s1.m_deferredQueue = demoSheetDecoded.m_deferredQueue
        ∧ s1.m_deferredResourceListenersMap = demoSheetDecoded.m_deferredResourceListenersMap
        ∧ s1.trace = demoSheetDecoded.trace :=
  ⟨rfl, rfl, rfl, by decide,
    LoadResource_installs_exactly_when_not_failed demoCallbacks sheetEnv (demoLoading "sheet")
      demoSheetDecoded "sheet" { ResourceEntry.fresh with status := kLoading } [3]
      { id := "sheet", contents := [] } rfl (by decide) rfl rfl rfl⟩

/-! ## Listeners and decoders that call the manager (C2, C7) -/

theorem keepLocals_self (s : ResourceManager) : s.keepLocals (some s) = some s := by
  cases s
  rfl

theorem keepLocals_record (s : ResourceManager) (ev : Event) :
    s.keepLocals (some (s.record ev)) = some (s.record ev) := by
  cases s
  rfl

/-- An expired listener is not called: the manager is left as it was. -/
theorem Reentrant_notifyListener_expired (cb : Callbacks) (s : ResourceManager)
    (pListener : ResourceListenerPtr) (resourceID : ResourceID)
    (hexpired : pListener.expired = true) :
    Reentrant.notifyListener cb s pListener resourceID = some s := by
  simp [Reentrant.notifyListener, hexpired]

/-- A live listener is called once, on the manager with the call written to the trace. -/
theorem Reentrant_notifyListener_live (cb : Callbacks) (s : ResourceManager)
    (pListener : ResourceListenerPtr) (resourceID : ResourceID)
    (hlive : pListener.expired = false) :
    Reentrant.notifyListener cb s pListener resourceID
      = s.keepLocals (cb.OnResourceLoaded pListener resourceID
          (s.record (Event.onResourceLoaded pListener resourceID))) := by
  simp [Reentrant.notifyListener, hlive]

/-- With a listener that is expired or whose callback makes no call on the manager, the call of
the listener is the event of the trace and nothing else. -/
theorem Reentrant_notifyListener_of_inert (cb : Callbacks) (s : ResourceManager)
    (pListener : ResourceListenerPtr) (resourceID : ResourceID)
    (hinert : pListener.expired = true
      ∨ ∀ s1, cb.OnResourceLoaded pListener resourceID s1 = some s1) :
    Reentrant.notifyListener cb s pListener resourceID
      = some (s.notifyListener pListener resourceID) := by
  cases hexp : pListener.expired with
  | true => simp [Reentrant.notifyListener, notifyListener, hexp]
  | false =>
    rcases hinert with h | h
    · rw [hexp] at h
      cases h
    · simp [Reentrant.notifyListener, notifyListener, hexp, h, keepLocals_record]

/-- With a load that runs no decoder, or a decoder that makes no call on the manager, the load is
the one of the definitions without callbacks. -/
theorem Reentrant_LoadResource_of_inert (cb : Callbacks) (env : Collaborators)
    (s : ResourceManager) (resourceID : ResourceID)
    (hinert : ∀ pResource data s1, cb.duringLoad pResource data s1 = some s1) :
    Reentrant.LoadResource cb env s resourceID = LoadResource env s resourceID := by
  unfold Reentrant.LoadResource LoadResource
  by_cases hvalid : env.IsValid resourceID = true
  · simp only [hvalid, Bool.not_true, Bool.false_eq_true, if_false]
    cases LoadRawData env s resourceID with
    | none => rfl
    | some rawData =>
      simp only
      by_cases hempty : rawData.isEmpty = true
      · simp [hempty]
      · simp only [hempty, if_false, Bool.false_eq_true]
        cases env.CreateResource resourceID with
        | none => rfl
        | some pResource => simp only [hinert, keepLocals_self]
  · simp [hvalid]

theorem Reentrant_loadNowTail_of_inert (cb : Callbacks) (env : Collaborators)
    (s : ResourceManager) (resourceID : ResourceID) (pListener : ResourceListenerPtr)
    (hdecoder : ∀ pResource data s1, cb.duringLoad pResource data s1 = some s1)
    (hlistener : pListener.expired = true
      ∨ ∀ s1, cb.OnResourceLoaded pListener resourceID s1 = some s1) :
    Reentrant.loadNowTail cb env s resourceID pListener
      = loadNowTail env s resourceID pListener := by
  unfold Reentrant.loadNowTail loadNowTail
  simp only [Reentrant_LoadResource_of_inert cb env _ resourceID hdecoder]
  cases LoadResource env
      { s with m_resourceDatabase := s.m_resourceDatabase.SetLoadStatus resourceID kLoading }
      resourceID with
  | none => rfl
  | some s2 => exact Reentrant_notifyListener_of_inert cb s2 pListener resourceID hlistener

theorem Reentrant_LoadNow_of_inert (cb : Callbacks) (env : Collaborators)
    (s : ResourceManager) (resourceID : ResourceID) (pListener : ResourceListenerPtr)
    (hdecoder : ∀ pResource data s1, cb.duringLoad pResource data s1 = some s1)
    (hlistener : pListener.expired = true
      ∨ ∀ s1, cb.OnResourceLoaded pListener resourceID s1 = some s1) :
    Reentrant.LoadNow cb env s resourceID pListener = LoadNow env s resourceID pListener := by
  unfold Reentrant.LoadNow LoadNow
  simp only [Reentrant_loadNowTail_of_inert cb env _ resourceID pListener hdecoder hlistener]

theorem Reentrant_QueueLoad_of_inert (cb : Callbacks) (env : Collaborators)
    (s : ResourceManager) (resourceID : ResourceID) (signalLoaderThread : Bool)
    (pListener : ResourceListenerPtr)
    (hlistener : pListener.expired = true
      ∨ ∀ s1, cb.OnResourceLoaded pListener resourceID s1 = some s1) :
    Reentrant.QueueLoad cb env s resourceID signalLoaderThread pListener
      = QueueLoad env s resourceID signalLoaderThread pListener := by
  unfold Reentrant.QueueLoad QueueLoad
  simp only [Reentrant_notifyListener_of_inert cb s pListener resourceID hlistener]

/-- On an entry that is Loaded or Loading `QueueLoad` is the call of the listener and nothing
else. -/
theorem Reentrant_QueueLoad_loaded_or_loading_eq (cb : Callbacks) (env : Collaborators)
    (s : ResourceManager) (resourceID : ResourceID) (signalLoaderThread : Bool)
    (pListener : ResourceListenerPtr)
    (hvalid : env.IsValid resourceID = true)
    (hstatus : s.m_resourceDatabase.GetLoadStatus resourceID = some kLoaded
      ∨ s.m_resourceDatabase.GetLoadStatus resourceID = some kLoading) :
    Reentrant.QueueLoad cb env s resourceID signalLoaderThread pListener
      = Reentrant.notifyListener cb s pListener resourceID := by
  have hfound : s.m_resourceDatabase.IsFound resourceID = true := by
    rcases hstatus with h | h <;> exact IsFound_of_GetLoadStatus _ _ _ h
  unfold Reentrant.QueueLoad
  rcases hstatus with h | h <;> simp [hvalid, hfound, h]

/-- C2, the claim as it stands, fails: `x` is Loaded and pinned once, no handle is held, and
`QueueLoad` is given a live `GameObject` as listener.  The entry is Loaded, so the listener is
called at once; its callback takes a handle, unlocks and lets the handle go, which releases the
last reference of an entry that is no longer pinned: when `QueueLoad` returns the entry is
Unloaded and has no payload. -/
theorem QueueLoad_listener_unloads_counterexample :
    demoEnv.IsValid "x" = true
      ∧ demoLocked.m_resourceDatabase.GetLoadStatus "x" = some kLoaded
      ∧ (Reentrant.QueueLoad demoCallbacks demoEnv demoLocked "x" true
            gameObjectListener).map
          (fun s1 => (s1.m_resourceDatabase.GetEntry "x").map (fun e => (e.status, e.payload)))
        = some (some (kUnloaded, none)) := by
  decide

/-- C2, amended: on a valid identifier whose entry is Loaded or Loading, `QueueLoad` itself
queues nothing, registers nothing and changes no entry: it is the call of the listener and
nothing else.  With an expired (or absent) listener it returns the manager as it was; with a live
one it returns the manager the callback leaves, and when the callback makes no call on the
manager the deferred queue, the listener map and the database, so the status of the entry, are
as they were. -/
theorem QueueLoad_loaded_or_loading_only_notifies (cb : Callbacks) (env : Collaborators)
    (s : ResourceManager) (resourceID : ResourceID) (signalLoaderThread : Bool)
    (pListener : ResourceListenerPtr)
    (hvalid : env.IsValid resourceID = true)
    (hstatus : s.m_resourceDatabase.GetLoadStatus resourceID = some kLoaded
      ∨ s.m_resourceDatabase.GetLoadStatus resourceID = some kLoading) :
    Reentrant.QueueLoad cb env s resourceID signalLoaderThread pListener
        = Reentrant.notifyListener cb s pListener resourceID
      ∧ (pListener.expired = true →
          Reentrant.QueueLoad cb env s resourceID signalLoaderThread pListener = some s)
      ∧ (pListener.expired = false →
          Reentrant.QueueLoad cb env s resourceID signalLoaderThread pListener
            = s.keepLocals (cb.OnResourceLoaded pListener resourceID
                (s.record (Event.onResourceLoaded pListener resourceID))))
      ∧ (pListener.expired = true
            ∨ cb.OnResourceLoaded pListener resourceID
                (s.record (Event.onResourceLoaded pListener resourceID))
              = some (s.record (Event.onResourceLoaded pListener resourceID)) →
          ∃ s1, Reentrant.QueueLoad cb env s resourceID signalLoaderThread pListener = some s1
            ∧ s1.m_deferredQueue = s.m_deferredQueue
            ∧ s1.m_deferredResourceListenersMap = s.m_deferredResourceListenersMap
            ∧ s1.m_resourceDatabase = s.m_resourceDatabase
            ∧ s1.m_resourceDatabase.GetLoadStatus resourceID
                = s.m_resourceDatabase.GetLoadStatus resourceID) := by
  have heq := Reentrant_QueueLoad_loaded_or_loading_eq cb env s resourceID signalLoaderThread
    pListener hvalid hstatus
  refine ⟨heq, ?_, ?_, ?_⟩
  · intro hexp
    rw [heq]
    exact Reentrant_notifyListener_expired cb s pListener resourceID hexp
  · intro hlive
    rw [heq]
    exact Reentrant_notifyListener_live cb s pListener resourceID hlive
  · intro h
    rw [heq]
    cases hexp : pListener.expired with
    | true =>
      rw [Reentrant_notifyListener_expired cb s pListener resourceID hexp]
      exact ⟨s, rfl, rfl, rfl, rfl, rfl⟩
    | false =>
      rcases h with h | h
      · rw [hexp] at h
        cases h
      · rw [Reentrant_notifyListener_live cb s pListener resourceID hexp, h, keepLocals_record]
        exact ⟨_, rfl, rfl, rfl, rfl, rfl⟩

/-- C2 amended, at a concrete input: `x` is Loaded and `QueueLoad` is given a live listener that
makes no call on the manager. -/
theorem QueueLoad_loaded_or_loading_only_notifies_witness :
    demoEnv.IsValid "x" = true
      ∧ (demoHeld 0).m_resourceDatabase.GetLoadStatus "x" = some kLoaded
      ∧ ∃ s1, Reentrant.QueueLoad demoCallbacks demoEnv (demoHeld 0) "x" true (liveListener 1)
            = some s1
        ∧ s1.m_deferredQueue = (demoHeld 0).m_deferredQueue
        ∧ s1.m_deferredResourceListenersMap = (demoHeld 0).m_deferredResourceListenersMap
        ∧ s1.m_resourceDatabase = (demoHeld 0).m_resourceDatabase
        ∧ s1.m_resourceDatabase.GetLoadStatus "x"
            = (demoHeld 0).m_resourceDatabase.GetLoadStatus "x" :=
  ⟨by decide, by decide,
    (QueueLoad_loaded_or_loading_only_notifies demoCallbacks demoEnv (demoHeld 0) "x" true
      (liveListener 1) (by decide) (Or.inl (by decide))).2.2.2 (Or.inr rfl)⟩

/-- The status a load leaves, from whether it decoded. -/
theorem loadedEntry_status_iff (env : Collaborators) (rawData : Bytes) (resourceID : ResourceID)
    (e : ResourceEntry) :
    ((loadedEntry env rawData resourceID e).status = kLoaded
        ∨ (loadedEntry env rawData resourceID e).status = kUnloaded)
      ∧ ((loadedEntry env rawData resourceID e).status = kLoaded ↔
          rawData ≠ [] ∧ ∃ pResource, env.CreateResource resourceID = some pResource
            ∧ (env.Load pResource rawData).1 ≠ LoadResult.kFailed)
      ∧ ((loadedEntry env rawData resourceID e).status = kUnloaded ↔
          ¬ (rawData ≠ [] ∧ ∃ pResource, env.CreateResource resourceID = some pResource
            ∧ (env.Load pResource rawData).1 ≠ LoadResult.kFailed))
      ∧ (loadedEntry env rawData resourceID e).status ≠ kLoading := by
  rw [loadedEntry_status, ← decodedResource_isSome_iff env rawData resourceID]
  cases (decodedResource env rawData resourceID).isSome <;> simp

/-- A load that returns has left the decoder's part behind it and ended on the manager the
decoder left. -/
theorem Reentrant_LoadResource_result (cb : Callbacks) (env : Collaborators)
    (s s1 : ResourceManager) (resourceID : ResourceID)
    (h : Reentrant.LoadResource cb env s resourceID = some s1) :
    env.IsValid resourceID = true
      ∧ ∃ s3, Reentrant.afterDecoder cb env s resourceID = some s3
        ∧ Reentrant.finishLoad env (rawDataOf env s.m_useRawAssets resourceID) resourceID s3
          = some s1 := by
  by_cases hvalid : env.IsValid resourceID = true
  · refine ⟨hvalid, ?_⟩
    rw [Reentrant_LoadResource_eq cb env s resourceID hvalid] at h
    cases h3 : Reentrant.afterDecoder cb env s resourceID with
    | none => simp [h3] at h
    | some s3 =>
      rw [h3, Option.some_bind] at h
      exact ⟨s3, rfl, h⟩
  · simp [Reentrant.LoadResource, hvalid] at h

/-- C7, the claim as it stands, fails: `sheet` has no entry and `LoadNow` loads it; its decoder
calls `QueueLoad(true)` for the texture `x`, so when `LoadNow` returns, with `sheet` Loaded, the
deferred queue is no longer empty: `x` is in it, for the loader thread, and the loader thread
was signalled. -/
theorem LoadNow_sheet_queues_counterexample :
    sheetEnv.IsValid "sheet" = true
      ∧ (Initialize true).m_resourceDatabase.GetEntry "sheet" = none
      ∧ (Initialize true).m_deferredQueue = []
      ∧ (Reentrant.LoadNow demoCallbacks sheetEnv (Initialize true) "sheet"
            ResourceListenerPtr.null).map
          (fun s1 => (s1.m_resourceDatabase.GetLoadStatus "sheet", s1.m_deferredQueue,
            s1.m_resourceDatabase.IsFound "x", s1.trace.count Event.notifyOne))
        = some (some kLoaded, ["x"], true, 1) := by
  decide

/-- C7, amended: on a valid identifier without entry `LoadNow` creates the entry, marks it
Loading, loads it on the calling thread and then calls the listener, if it is alive.  When the
load is done, before the listener is called, the entry (the decoder's calls having left it in
place) is Loaded if the read was not empty, the factory made a resource and its decode did not
fail, and Unloaded otherwise, never Loading.  The manager's own steps leave the deferred queue
and the listener map as the decoder's calls left them.  With a decoder and a listener that make
no call on the manager (or an expired listener) `LoadNow` returns with that status and with the
deferred queue and both listener maps as they were. -/
theorem LoadNow_absent_loads_inline (cb : Callbacks) (env : Collaborators) (s : ResourceManager)
    (resourceID : ResourceID) (pListener : ResourceListenerPtr)
    (hvalid : env.IsValid resourceID = true)
    (habsent : s.m_resourceDatabase.GetEntry resourceID = none) :
    ∃ rawData, LoadRawData env s resourceID = some rawData
      ∧ Reentrant.LoadNow cb env s resourceID pListener
        = (Reentrant.LoadResource cb env
            { s with m_resourceDatabase :=
                (s.m_resourceDatabase.CreateEntry resourceID).SetLoadStatus resourceID kLoading }
            resourceID).bind
          (fun s2 => Reentrant.notifyListener cb s2 pListener resourceID)
      ∧ (∀ s2, Reentrant.LoadResource cb env
            { s with m_resourceDatabase :=
                (s.m_resourceDatabase.CreateEntry resourceID).SetLoadStatus resourceID kLoading }
            resourceID = some s2 →
          (∀ e2, s2.m_resourceDatabase.GetEntry resourceID = some e2 →
            (e2.status = kLoaded ∨ e2.status = kUnloaded)
              ∧ (e2.status = kLoaded ↔
                  rawData ≠ [] ∧ ∃ pResource, env.CreateResource resourceID = some pResource
                    ∧ (env.Load pResource rawData).1 ≠ LoadResult.kFailed)
              ∧ e2.status ≠ kLoading)
            ∧ ∃ s3, Reentrant.afterDecoder cb env
                  { s with m_resourceDatabase :=
                      ((s.m_resourceDatabase.CreateEntry resourceID).SetLoadStatus resourceID
                        kLoading) }
                  resourceID = some s3
                ∧ s2.m_deferredQueue = s3.m_deferredQueue
                ∧ s2.m_deferredResourceListenersMap = s3.m_deferredResourceListenersMap)
      ∧ ((∀ pResource data s1, cb.duringLoad pResource data s1 = some s1) →
          (pListener.expired = true
            ∨ ∀ s1, cb.OnResourceLoaded pListener resourceID s1 = some s1) →
          ∃ s1, Reentrant.LoadNow cb env s resourceID pListener = some s1
            ∧ (s1.m_resourceDatabase.GetLoadStatus resourceID = some kLoaded
              ∨ s1.m_resourceDatabase.GetLoadStatus resourceID = some kUnloaded)
            ∧ (s1.m_resourceDatabase.GetLoadStatus resourceID = some kLoaded ↔
                rawData ≠ [] ∧ ∃ pResource, env.CreateResource resourceID = some pResource
                  ∧ (env.Load pResource rawData).1 ≠ LoadResult.kFailed)
            ∧ s1.m_resourceDatabase.GetLoadStatus resourceID ≠ some kLoading
            ∧ s1.m_deferredQueue = s.m_deferredQueue
            ∧ s1.m_deferredResourceListenersMap = s.m_deferredResourceListenersMap) := by
  refine ⟨rawDataOf env s.m_useRawAssets resourceID, LoadRawData_eq env s resourceID hvalid,
    ?_, ?_, ?_⟩
  · have hfound : s.m_resourceDatabase.IsFound resourceID = false := by
      simp [IsFound, habsent]
    unfold Reentrant.LoadNow Reentrant.loadNowTail
    simp only [hvalid, hfound, Bool.not_true, Bool.false_eq_true, if_false, Bool.not_false,
      if_true]
    cases Reentrant.LoadResource cb env
        { s with m_resourceDatabase :=
            (s.m_resourceDatabase.CreateEntry resourceID).SetLoadStatus resourceID kLoading }
        resourceID <;> rfl
  · intro s2 h2
    obtain ⟨-, s3, h3, hfin⟩ := Reentrant_LoadResource_result cb env _ s2 resourceID h2
    obtain ⟨hself, -, hq, hm, -⟩ := finishLoad_result env _ resourceID s3 s2 hfin
    refine ⟨?_, s3, h3, hq, hm⟩
    intro e2 he2
    rw [he2] at hself
    cases he3 : s3.m_resourceDatabase.GetEntry resourceID with
    | none => simp [he3] at hself
    | some e3 =>
      simp only [he3, Option.map_some', Option.some.injEq] at hself
      subst hself
      obtain ⟨h1, h2, -, h4⟩ :=
        loadedEntry_status_iff env (rawDataOf env s.m_useRawAssets resourceID) resourceID e3
      exact ⟨h1, h2, h4⟩
  · intro hdecoder hlistener
    rw [Reentrant_LoadNow_of_inert cb env s resourceID pListener hdecoder hlistener]
    obtain ⟨s1, h1, he1, -, -, hq, hm, -⟩ :=
      LoadNow_absent_found env s resourceID pListener hvalid habsent
    obtain ⟨h2, h3, -, h4⟩ :=
      loadedEntry_status_iff env (rawDataOf env s.m_useRawAssets resourceID) resourceID
        { ResourceEntry.fresh with status := kLoading }
    refine ⟨s1, h1, ?_, ?_, ?_, hq, hm⟩
    · simpa [GetLoadStatus, he1] using h2
    · simpa [GetLoadStatus, he1] using h3
    · simpa [GetLoadStatus, he1] using h4

/-- C7 amended, at a concrete input: `a` has no entry; its decoder makes no call on the manager,
and no listener is passed. -/
theorem LoadNow_absent_loads_inline_witness :
    demoEnv.IsValid "a" = true
      ∧ (Initialize true).m_resourceDatabase.GetEntry "a" = none
      ∧ ∃ s1, Reentrant.LoadNow Callbacks.inert demoEnv (Initialize true) "a"
            ResourceListenerPtr.null = some s1
        ∧ s1.m_resourceDatabase.GetLoadStatus "a" = some kLoaded
        ∧ s1.m_deferredQueue = []
        ∧ (Reentrant.LoadNow demoCallbacks sheetEnv (Initialize true) "sheet"
              ResourceListenerPtr.null).isSome = true := by
  obtain ⟨rawData, -, -, -, h⟩ :=
    LoadNow_absent_loads_inline Callbacks.inert demoEnv (Initialize true) "a"
      ResourceListenerPtr.null (by decide) rfl
  obtain ⟨s1, h1, -, -, -, hq, -⟩ := h (fun _ _ _ => rfl) (Or.inl rfl)
  refine ⟨by decide, rfl, s1, h1, ?_, hq, by decide⟩
  have : (Reentrant.LoadNow Callbacks.inert demoEnv (Initialize true) "a"
      ResourceListenerPtr.null).map (fun s => s.m_resourceDatabase.GetLoadStatus "a")
      = some (some kLoaded) := by decide
  rw [h1] at this
  exact Option.some.inj this

/-! ## Expired listeners (C18) -/

/-- The listener loop leaves out the listeners that have expired. -/
theorem Reentrant_notifyListeners_filter (cb : Callbacks) (resourceID : ResourceID)
    (ls : List ResourceListenerPtr) (s : ResourceManager) :
    Reentrant.notifyListeners cb resourceID ls s
      = Reentrant.notifyListeners cb resourceID (ls.filter (fun l => !l.expired)) s := by
  induction ls generalizing s with
  | nil => rfl
  | cons listener rest ih =>
    cases hexp : listener.expired with
    | true =>
      simp only [List.filter, hexp, Bool.not_true]
      simp only [Reentrant.notifyListeners,
        Reentrant_notifyListener_expired cb s listener resourceID hexp]
      exact ih s
    | false =>
      simp only [List.filter, hexp, Bool.not_false]
      simp only [Reentrant.notifyListeners]
      cases Reentrant.notifyListener cb s listener resourceID with
      | none => rfl
      | some s1 => exact ih s1

/-- C18, the claim as it stands, fails: `x` is Loaded with one reference and one pin.  `QueueLoad`
with a `GameObject` that has expired leaves the entry as it is; with the same `GameObject` alive
the callback unlocks the resource, and the entry comes back with no pin: the state is not the one
the expired listener leaves. -/
theorem expired_listener_other_state_counterexample :
    (Reentrant.QueueLoad demoCallbacks demoEnv demoPinned "x" true (deadListener 7)).map
        (fun s1 => s1.m_resourceDatabase)
      = some [("x", { status := kLoaded, referenceCount := 1, lockCount := 1,
                      payload := some { id := "x", contents := [1, 2, 3] } })]
    ∧ (Reentrant.QueueLoad demoCallbacks demoEnv demoPinned "x" true gameObjectListener).map
        (fun s1 => s1.m_resourceDatabase)
      = some [("x", { status := kLoaded, referenceCount := 1, lockCount := 0,
                      payload := some { id := "x", contents := [1, 2, 3] } })] := by
  decide

/-- C18, amended: an expired listener (so also the default one, which points to nothing) is
skipped wherever the manager notifies, and the operation goes on as if no callback were there.
The call of an expired listener leaves the manager as it was and writes nothing to the trace;
`QueueLoad` on an entry that is Loaded or Loading returns the manager unchanged; `LoadNow` is the
`LoadNow` without listener, its end the load alone; the state is the one a live listener leaves
whose callback makes no call on the manager, the event of the call aside; and the listener loop
of the loader thread calls the live listeners of the vector, in its order, as if the expired
ones were not in it. -/
theorem expired_listener_is_skipped (cb : Callbacks) (env : Collaborators) (s : ResourceManager)
    (resourceID : ResourceID) :
    (∀ pListener, pListener.expired = true →
        Reentrant.notifyListener cb s pListener resourceID = some s)
      ∧ (∀ signalLoaderThread pListener, env.IsValid resourceID = true →
          (s.m_resourceDatabase.GetLoadStatus resourceID = some kLoaded
            ∨ s.m_resourceDatabase.GetLoadStatus resourceID = some kLoading) →
          pListener.expired = true →
          Reentrant.QueueLoad cb env s resourceID signalLoaderThread pListener = some s)
      ∧ (∀ pListener, pListener.expired = true →
          Reentrant.LoadNow cb env s resourceID pListener
            = Reentrant.LoadNow cb env s resourceID ResourceListenerPtr.null)
      ∧ (∀ pListener, pListener.expired = true →
          Reentrant.loadNowTail cb env s resourceID pListener
            = Reentrant.LoadResource cb env
                { s with m_resourceDatabase :=
                    s.m_resourceDatabase.SetLoadStatus resourceID kLoading }
                resourceID)
      ∧ (∀ pListener pLive, pListener.expired = true → pLive.expired = false →
          cb.OnResourceLoaded pLive resourceID
              (s.record (Event.onResourceLoaded pLive resourceID))
            = some (s.record (Event.onResourceLoaded pLive resourceID)) →
          (Reentrant.notifyListener cb s pLive resourceID).map withoutTrace
            = (Reentrant.notifyListener cb s pListener resourceID).map withoutTrace)
      ∧ (∀ ls, Reentrant.notifyListeners cb resourceID ls s
          = Reentrant.notifyListeners cb resourceID (ls.filter (fun l => !l.expired)) s) := by
  have hnull : ResourceListenerPtr.null.expired = true := rfl
  have htail : ∀ pListener (s0 : ResourceManager), pListener.expired = true →
      Reentrant.loadNowTail cb env s0 resourceID pListener
        = Reentrant.LoadResource cb env
            { s0 with m_resourceDatabase :=
                s0.m_resourceDatabase.SetLoadStatus resourceID kLoading }
            resourceID := by
    intro pListener s0 hexp
    unfold Reentrant.loadNowTail
    simp only
    cases Reentrant.LoadResource cb env
        { s0 with m_resourceDatabase :=
            s0.m_resourceDatabase.SetLoadStatus resourceID kLoading }
        resourceID with
    | none => rfl
    | some s2 => exact Reentrant_notifyListener_expired cb s2 pListener resourceID hexp
  refine ⟨fun pListener hexp => Reentrant_notifyListener_expired cb s pListener resourceID hexp,
    ?_, ?_, fun pListener hexp => htail pListener s hexp, ?_,
    fun ls => Reentrant_notifyListeners_filter cb resourceID ls s⟩
  · intro signalLoaderThread pListener hvalid hstatus hexp
    rw [Reentrant_QueueLoad_loaded_or_loading_eq cb env s resourceID signalLoaderThread
      pListener hvalid hstatus]
    exact Reentrant_notifyListener_expired cb s pListener resourceID hexp
  · intro pListener hexp
    unfold Reentrant.LoadNow
    simp only [htail pListener _ hexp, htail ResourceListenerPtr.null _ hnull]
  · intro pListener pLive hexp hlive hcallback
    rw [Reentrant_notifyListener_expired cb s pListener resourceID hexp,
      Reentrant_notifyListener_live cb s pLive resourceID hlive, hcallback, keepLocals_record]
    rfl

/-- C18 amended, at a concrete input: the vector of `x` holds an expired `GameObject` between two
live listeners. -/
theorem expired_listener_is_skipped_witness :
    (deadListener 7).expired = true
      ∧ Reentrant.notifyListener demoCallbacks demoPinned (deadListener 7) "x" = some demoPinned
      ∧ Reentrant.notifyListeners demoCallbacks "x"
          [liveListener 1, deadListener 7, liveListener 2] demoPinned
        = Reentrant.notifyListeners demoCallbacks "x" [liveListener 1, liveListener 2]
            demoPinned :=
  ⟨rfl,
    (expired_listener_is_skipped demoCallbacks demoEnv demoPinned "x").1 (deadListener 7) rfl,
    (expired_listener_is_skipped demoCallbacks demoEnv demoPinned "x").2.2.2.2.2
      [liveListener 1, deadListener 7, liveListener 2]⟩

/-! ## Reload of a Loaded entry (C13) -/

/-- Where `QueueLoad` does not find the entry Loaded or Loading it calls no listener, and is the
`QueueLoad` of the definitions without callbacks. -/
theorem Reentrant_QueueLoad_not_notifying (cb : Callbacks) (env : Collaborators)
    (s : ResourceManager) (resourceID : ResourceID) (signalLoaderThread : Bool)
    (pListener : ResourceListenerPtr)
    (hloaded : s.m_resourceDatabase.GetLoadStatus resourceID ≠ some kLoaded)
    (hloading : s.m_resourceDatabase.GetLoadStatus resourceID ≠ some kLoading) :
    Reentrant.QueueLoad cb env s resourceID signalLoaderThread pListener
      = QueueLoad env s resourceID signalLoaderThread pListener := by
  unfold Reentrant.QueueLoad QueueLoad
  simp [hloaded, hloading]

/-- C13: on a valid identifier whose entry is Loaded, `ReloadResource` unloads and requests
again, and the request does load.  Not forced: it returns with the entry Loading and without
payload, the identifier appended once to the deferred queue, the listener appended to the vector
of the identifier, no listener called and the loader thread signalled.  Forced: it is one
`LoadResource` on the manager with the entry unloaded and marked Loading, followed by one call
of the listener, if it is alive.  That load reads the storage once, asks the factory if the read
is not empty and decodes if the factory made a resource; when the decoder has made its calls and
left the entry in place the load returns, with the entry Loaded and the decoded payload
installed exactly when the read was not empty, the factory made a resource and the decode did
not fail, and Unloaded without payload exactly when not; `ReloadResource` then is the call of
the listener on that manager. -/
theorem ReloadResource_loaded_reloads (cb : Callbacks) (env : Collaborators)
    (s : ResourceManager) (resourceID : ResourceID) (pListener : ResourceListenerPtr)
    (e : ResourceEntry)
    (hvalid : env.IsValid resourceID = true)
    (hentry : s.m_resourceDatabase.GetEntry resourceID = some e)
    (hloaded : e.status = kLoaded) :
    (∃ s1, Reentrant.ReloadResource cb env s resourceID false pListener = some s1
      ∧ s1.m_resourceDatabase.GetEntry resourceID
          = some { e with status := kLoading, payload := none }
      ∧ (∀ other, other ≠ resourceID →
          s1.m_resourceDatabase.GetEntry other = s.m_resourceDatabase.GetEntry other)
      ∧ s1.m_deferredQueue = s.m_deferredQueue ++ [resourceID]
      ∧ s1.m_deferredResourceListenersMap resourceID
          = s.m_deferredResourceListenersMap resourceID ++ [pListener]
      ∧ s1.trace = s.trace ++ [Event.notifyOne])
    ∧ ∃ rawData sU, LoadRawData env s resourceID = some rawData
      ∧ sU = { s with m_resourceDatabase :=
                ((s.m_resourceDatabase.Unload resourceID).SetLoadStatus resourceID kLoading) }
      ∧ sU.m_resourceDatabase.GetEntry resourceID
          = some { e with status := kLoading, payload := none }
      ∧ Reentrant.ReloadResource cb env s resourceID true pListener
          = (Reentrant.LoadResource cb env sU resourceID).bind
              (fun s2 => Reentrant.notifyListener cb s2 pListener resourceID)
      ∧ (rawData = [] →
          Reentrant.afterDecoder cb env sU resourceID
            = some { sU with trace := s.trace ++ [Event.storageRead resourceID] })
      ∧ (rawData ≠ [] → env.CreateResource resourceID = none →
          Reentrant.afterDecoder cb env sU resourceID
            = some { sU with trace := s.trace
                ++ [Event.storageRead resourceID, Event.factoryCreate resourceID] })
      ∧ (∀ pResource, rawData ≠ [] → env.CreateResource resourceID = some pResource →
          Reentrant.afterDecoder cb env sU resourceID
            = keepLocals
                { sU with trace := s.trace ++ [Event.storageRead resourceID,
                    Event.factoryCreate resourceID, Event.decode resourceID] }
                (cb.duringLoad pResource rawData
                  { sU with trace := s.trace ++ [Event.storageRead resourceID,
                    Event.factoryCreate resourceID, Event.decode resourceID] }))
      ∧ (∀ s3 e3, Reentrant.afterDecoder cb env sU resourceID = some s3 →
          s3.m_resourceDatabase.GetEntry resourceID = some e3 →
          ∃ s2 e2, Reentrant.LoadResource cb env sU resourceID = some s2
            ∧ s2.m_resourceDatabase.GetEntry resourceID = some e2
            ∧ (e2.status = kLoaded ↔
                rawData ≠ [] ∧ ∃ pResource, env.CreateResource resourceID = some pResource
                  ∧ (env.Load pResource rawData).1 ≠ LoadResult.kFailed)
            ∧ (e2.status = kUnloaded ↔
                ¬ (rawData ≠ [] ∧ ∃ pResource, env.CreateResource resourceID = some pResource
                  ∧ (env.Load pResource rawData).1 ≠ LoadResult.kFailed))
            ∧ e2.payload = decodedResource env rawData resourceID
            ∧ (e2.status = kUnloaded → e2.payload = none)
            ∧ (∀ pResource, e2.status = kLoaded →
                env.CreateResource resourceID = some pResource →
                e2.payload = some (env.Load pResource rawData).2)
            ∧ s2.trace = s3.trace
            ∧ s2.m_deferredQueue = s3.m_deferredQueue
            ∧ s2.m_deferredResourceListenersMap = s3.m_deferredResourceListenersMap
            ∧ Reentrant.ReloadResource cb env s resourceID true pListener
                = Reentrant.notifyListener cb s2 pListener resourceID) := by
  have hstatus : s.m_resourceDatabase.GetLoadStatus resourceID = some kLoaded := by
    simp [GetLoadStatus, hentry, hloaded]
  have hU : (s.m_resourceDatabase.Unload resourceID).GetEntry resourceID
      = some { e with status := kUnloaded, payload := none } := by
    simp only [Unload, GetEntry_modifyEntry_self, hentry]
    rfl
  have hUother : ∀ other, other ≠ resourceID →
      (s.m_resourceDatabase.Unload resourceID).GetEntry other
        = s.m_resourceDatabase.GetEntry other := by
    intro other hne
    simp only [Unload]
    exact GetEntry_modifyEntry_other _ _ _ _ hne
  have hUfound : (s.m_resourceDatabase.Unload resourceID).IsFound resourceID = true := by
    simp [IsFound, hU]
  have hUstatus : (s.m_resourceDatabase.Unload resourceID).GetLoadStatus resourceID
      = some kUnloaded := by
    simp [GetLoadStatus, hU]
  constructor
  · have hq : Reentrant.ReloadResource cb env s resourceID false pListener
        = QueueLoad env
            { s with m_resourceDatabase := s.m_resourceDatabase.Unload resourceID }
            resourceID true pListener := by
      unfold Reentrant.ReloadResource
      simp only [hvalid, hstatus, Bool.not_true, Bool.false_eq_true, if_false, ne_eq,
        not_true_eq_false]
      exact Reentrant_QueueLoad_not_notifying cb env _ resourceID true pListener
        (by simp [hUstatus]) (by simp [hUstatus])
    obtain ⟨s1, h1, he1, hother, hqueue, hmap, -, -, htrace⟩ :=
      QueueLoad_unloaded_found env
        { s with m_resourceDatabase := s.m_resourceDatabase.Unload resourceID }
        resourceID true pListener _ hvalid hU (by simp) (by simp)
    refine ⟨s1, hq.trans h1, he1, ?_, hqueue, ?_, ?_⟩
    · intro other hne
      rw [hother other hne]
      exact hUother other hne
    · rw [hmap]
      simp [ListenersMap.emplaceBack, ListenersMap.set]
    · simpa using htrace
  · refine ⟨rawDataOf env s.m_useRawAssets resourceID,
      { s with m_resourceDatabase :=
          ((s.m_resourceDatabase.Unload resourceID).SetLoadStatus resourceID kLoading) },
      LoadRawData_eq env s resourceID hvalid, rfl, ?_, ?_, ?_⟩
    · simp only [SetLoadStatus, GetEntry_modifyEntry_self, hU]
      rfl
    · unfold Reentrant.ReloadResource Reentrant.LoadNow Reentrant.loadNowTail
      simp only [hvalid, hstatus, hUfound, hUstatus, Bool.not_true, Bool.false_eq_true,
        if_false, ne_eq, not_true_eq_false, if_true]
      simp only [Option.some.injEq, reduceCtorEq, Bool.or_self, decide_False,
        Bool.false_eq_true, if_false]
      cases Reentrant.LoadResource cb env
          { s with m_resourceDatabase :=
              ((s.m_resourceDatabase.Unload resourceID).SetLoadStatus resourceID kLoading) }
          resourceID <;> rfl
    · have hreadU : LoadRawData env
          { s with m_resourceDatabase :=
              ((s.m_resourceDatabase.Unload resourceID).SetLoadStatus resourceID kLoading) }
          resourceID = some (rawDataOf env s.m_useRawAssets resourceID) :=
        LoadRawData_eq env _ resourceID hvalid
      obtain ⟨hA, hB, hC⟩ := afterDecoder_eq cb env _ resourceID _ hreadU
      refine ⟨hA, hB, hC, ?_⟩
      intro s3 e3 h3 he3
      obtain ⟨s2, h2⟩ := finishLoad_isSome env (rawDataOf env s.m_useRawAssets resourceID)
        resourceID s3 e3 he3
      obtain ⟨hself, -, hq, hm, -, -, -, ht⟩ := finishLoad_result env _ resourceID s3 s2 h2
      have hload : Reentrant.LoadResource cb env
          { s with m_resourceDatabase :=
              ((s.m_resourceDatabase.Unload resourceID).SetLoadStatus resourceID kLoading) }
          resourceID = some s2 := by
        rw [Reentrant_LoadResource_eq cb env _ resourceID hvalid, h3]
        exact h2
      rw [he3, Option.map_some'] at hself
      obtain ⟨-, hiff, hiffU, -⟩ :=
        loadedEntry_status_iff env (rawDataOf env s.m_useRawAssets resourceID) resourceID e3
      have hpay := loadedEntry_payload env (rawDataOf env s.m_useRawAssets resourceID)
        resourceID e3
      refine ⟨s2, _, hload, hself, hiff, hiffU, hpay, ?_, ?_, ht, hq, hm, ?_⟩
      · intro hun
        rw [hpay]
        cases hd : decodedResource env (rawDataOf env s.m_useRawAssets resourceID)
            resourceID with
        | none => rfl
        | some loaded =>
          have hsome := (decodedResource_isSome_iff env
            (rawDataOf env s.m_useRawAssets resourceID) resourceID).1 (by rw [hd]; rfl)
          exact absurd hsome (hiffU.1 hun)
      · intro pResource hst hcreate
        rw [hpay]
        obtain ⟨hne, p, hp, hres⟩ := hiff.1 hst
        rw [hcreate] at hp
        cases hp
        exact (decodedResource_eq_some_iff env _ resourceID _).2
          ⟨hne, pResource, hcreate, hres, rfl⟩
      · unfold Reentrant.ReloadResource Reentrant.LoadNow Reentrant.loadNowTail
        simp only [hvalid, hstatus, hUfound, hUstatus, Bool.not_true, Bool.false_eq_true,
          if_false, ne_eq, not_true_eq_false, if_true]
        simp only [Option.some.injEq, reduceCtorEq, Bool.or_self, decide_False,
          Bool.false_eq_true, if_false]
        rw [hload]

/-- C13, at a concrete input: `x` is Loaded with one reference and one pin; the listener is a
`GameObject`.  Not forced, `x` is queued; forced, `x` is read and decoded once more and ends
Loaded, and the `GameObject` is called once, which takes off the pin. -/
theorem ReloadResource_loaded_reloads_witness :
    demoEnv.IsValid "x" = true
      ∧ demoPinned.m_resourceDatabase.GetEntry "x"
          = some { status := kLoaded, referenceCount := 1, lockCount := 1,
                   payload := some { id := "x", contents := [1, 2, 3] } }
      ∧ (Reentrant.ReloadResource demoCallbacks demoEnv demoPinned "x" true
            gameObjectListener).map
          (fun s1 => (s1.m_resourceDatabase, storageReads s1.trace, decodes s1.trace,
            listenerCalls s1.trace))
        = some ([("x", { status := kLoaded, referenceCount := 1, lockCount := 0,
                         payload := some { id := "x", contents := [1, 2, 3] } })],
            ["x"], ["x"], [(gameObjectListener, "x")])
      ∧ ∃ s1, Reentrant.ReloadResource demoCallbacks demoEnv demoPinned "x" false
            gameObjectListener = some s1
        ∧ s1.m_resourceDatabase.GetEntry "x"
            = some { status := kLoading, referenceCount := 1, lockCount := 1, payload := none }
        ∧ (∀ other, other ≠ "x" →
            s1.m_resourceDatabase.GetEntry other
              = demoPinned.m_resourceDatabase.GetEntry other)
        ∧ s1.m_deferredQueue = demoPinned.m_deferredQueue ++ ["x"]
        ∧ s1.m_deferredResourceListenersMap "x"
            = demoPinned.m_deferredResourceListenersMap "x" ++ [gameObjectListener]
        ∧ s1.trace = demoPinned.trace ++ [Event.notifyOne] :=
  ⟨by decide, rfl, by decide,
    (ReloadResource_loaded_reloads demoCallbacks demoEnv demoPinned "x" gameObjectListener
      { status := kLoaded, referenceCount := 1, lockCount := 1,
        payload := some { id := "x", contents := [1, 2, 3] } } (by decide) rfl rfl).1⟩

/-! ## The order of one drain (C17) -/

theorem loadsAndCalls_append (a b : List Event) :
    loadsAndCalls (a ++ b) = loadsAndCalls a ++ loadsAndCalls b := by
  simp [loadsAndCalls]

theorem loadsAndCalls_loadEvents (env : Collaborators) (rawData : Bytes)
    (resourceID : ResourceID) :
    loadsAndCalls (loadEvents env rawData resourceID) = loadEvents env rawData resourceID := by
  unfold loadEvents loadsAndCalls
  by_cases hempty : rawData.isEmpty = true
  · simp [hempty]
  · cases env.CreateResource resourceID <;> simp [hempty]

theorem loadsAndCalls_notifyOne : loadsAndCalls [Event.notifyOne] = [] := by
  simp [loadsAndCalls]

/-- With quiet callbacks a load that returns has written the events of the load, and no other
step of a load or call of a listener; the locals of the loader thread and the flags are as they
were. -/
theorem Reentrant_LoadResource_quiet (cb : Callbacks) (env : Collaborators)
    (s s1 : ResourceManager) (resourceID : ResourceID) (hquiet : cb.Quiet)
    (h : Reentrant.LoadResource cb env s resourceID = some s1) :
    loadsAndCalls s1.trace
        = loadsAndCalls s.trace
          ++ loadEvents env (rawDataOf env s.m_useRawAssets resourceID) resourceID
      ∧ s1.processingResourceListenersMap = s.processingResourceListenersMap
      ∧ s1.m_useRawAssets = s.m_useRawAssets
      ∧ s1.m_quitThread = s.m_quitThread := by
  obtain ⟨-, s3, h3, hfin⟩ := Reentrant_LoadResource_result cb env s s1 resourceID h
  obtain ⟨-, -, -, -, hp, hqt, hu, ht⟩ := finishLoad_result env _ resourceID s3 s1 hfin
  rw [ht, hp, hu, hqt]
  unfold Reentrant.afterDecoder at h3
  simp only at h3
  have hbase : loadsAndCalls
      (s.trace ++ loadEvents env (rawDataOf env s.m_useRawAssets resourceID) resourceID)
      = loadsAndCalls s.trace
        ++ loadEvents env (rawDataOf env s.m_useRawAssets resourceID) resourceID := by
    rw [loadsAndCalls_append, loadsAndCalls_loadEvents]
  split at h3
  · simp only [Option.some.injEq] at h3
    subst h3
    exact ⟨hbase, rfl, rfl, rfl⟩
  · split at h3
    · simp only [Option.some.injEq] at h3
      subst h3
      exact ⟨hbase, rfl, rfl, rfl⟩
    · rename_i pResource hcreate
      obtain ⟨s0, h0, hs3⟩ := keepLocals_eq_some _ s3 _ h3
      subst hs3
      exact ⟨(hquiet.1 _ _ _ _ h0).trans hbase, rfl, rfl, rfl⟩

/-- With quiet callbacks the listener loop writes the calls of the live listeners, in the order
of the vector. -/
theorem Reentrant_notifyListeners_quiet (cb : Callbacks) (resourceID : ResourceID)
    (ls : List ResourceListenerPtr) (s s1 : ResourceManager) (hquiet : cb.Quiet)
    (h : Reentrant.notifyListeners cb resourceID ls s = some s1) :
    loadsAndCalls s1.trace = loadsAndCalls s.trace ++ notifyEvents resourceID ls
      ∧ s1.processingResourceListenersMap = s.processingResourceListenersMap
      ∧ s1.m_useRawAssets = s.m_useRawAssets
      ∧ s1.m_quitThread = s.m_quitThread := by
  induction ls generalizing s with
  | nil =>
    simp only [Reentrant.notifyListeners, Option.some.injEq] at h
    subst h
    simp [notifyEvents]
  | cons listener rest ih =>
    simp only [Reentrant.notifyListeners] at h
    cases hexp : listener.expired with
    | true =>
      rw [Reentrant_notifyListener_expired cb s listener resourceID hexp] at h
      simp only at h
      obtain ⟨h1, h2, h3, h4⟩ := ih s h
      exact ⟨by simpa [notifyEvents, hexp] using h1, h2, h3, h4⟩
    | false =>
      rw [Reentrant_notifyListener_live cb s listener resourceID hexp] at h
      cases hk : s.keepLocals (cb.OnResourceLoaded listener resourceID
          (s.record (Event.onResourceLoaded listener resourceID))) with
      | none => simp [hk] at h
      | some s2 =>
        simp only [hk] at h
        obtain ⟨s0, h0, hs2⟩ := keepLocals_eq_some _ s2 _ hk
        obtain ⟨h1, h2, h3, h4⟩ := ih s2 h
        have hq := hquiet.2 _ _ _ _ h0
        have hs2t : s2.trace = s0.trace := by rw [hs2]
        have hs2p : s2.processingResourceListenersMap = s.processingResourceListenersMap := by
          rw [hs2]
        have hs2u : s2.m_useRawAssets = s.m_useRawAssets := by rw [hs2]
        have hs2q : s2.m_quitThread = s.m_quitThread := by rw [hs2]
        refine ⟨?_, h2.trans hs2p, h3.trans hs2u, h4.trans hs2q⟩
        rw [h1, hs2t, hq]
        simp [record, loadsAndCalls_append, loadsAndCalls, notifyEvents, hexp]

/-- With quiet callbacks the drain of a processing queue writes the events of `drainEvents`, and
leaves the vectors of the drained identifiers empty and the other vectors as they were. -/
theorem Reentrant_processQueue_quiet (cb : Callbacks) (env : Collaborators)
    (queue : List ResourceID) (s s1 : ResourceManager) (hquiet : cb.Quiet)
    (h : Reentrant.processQueue cb env queue s = some s1) :
    loadsAndCalls s1.trace
        = loadsAndCalls s.trace
          ++ drainEvents env s.m_useRawAssets s.processingResourceListenersMap queue
      ∧ (∀ k, s1.processingResourceListenersMap k
          = if k ∈ queue then [] else s.processingResourceListenersMap k) := by
  induction queue generalizing s with
  | nil =>
    simp only [Reentrant.processQueue, Option.some.injEq] at h
    subst h
    simp [drainEvents]
  | cons front rest ih =>
    simp only [Reentrant.processQueue] at h
    cases hload : Reentrant.LoadResource cb env s front with
    | none => simp [hload] at h
    | some s2 =>
      simp only [hload] at h
      obtain ⟨ht2, hp2, hu2, -⟩ := Reentrant_LoadResource_quiet cb env s s2 front hquiet hload
      cases hnot : Reentrant.notifyListeners cb front (s2.processingResourceListenersMap front)
          s2 with
      | none => simp [hnot] at h
      | some s3 =>
        simp only [hnot] at h
        obtain ⟨ht3, hp3, hu3, -⟩ :=
          Reentrant_notifyListeners_quiet cb front _ s2 s3 hquiet hnot
        obtain ⟨ht, hp⟩ := ih _ h
        constructor
        · rw [ht]
          simp only [ht3, ht2, hp3, hp2, hu3, hu2, drainEvents, List.append_assoc]
        · intro k
          rw [hp k]
          simp only [hp3, hp2, ListenersMap.set, List.mem_cons]
          by_cases hk : k = front
          · simp [hk]
          · by_cases hr : k ∈ rest <;> simp [hk, hr]

/-- C17: with decoders and listeners whose calls on the manager write no step of a load and no
call of a listener, a drain pass of the loader thread (not told to quit, with a queue that is
not empty) that returns has written these steps and calls, and no other: the storage reads are
the queued identifiers in the order of the queue; at every place of the queue the events of that
identifier's load are followed at once by one call of each live listener of the identifier, in
the order of registration (none if the identifier was drained at an earlier place of the queue,
its vector being cleared then), with exactly the loads of the earlier places before and of the
later places after.  After the pass the vector of every queued identifier is empty. -/
theorem drain_pass_in_queue_order (cb : Callbacks) (env : Collaborators)
    (s s1 : ResourceManager)
    (hquit : s.m_quitThread = false)
    (hnonempty : s.m_deferredQueue ≠ [])
    (hquiet : cb.Quiet)
    (hpass : Reentrant.ProcessResourceQueueThreaded cb env s = some s1) :
    ∃ evs, loadsAndCalls s1.trace = loadsAndCalls s.trace ++ evs
      ∧ storageReads evs = s.m_deferredQueue
      ∧ (∀ earlier k later, s.m_deferredQueue = earlier ++ k :: later →
          ∃ before after,
            evs = before
              ++ loadEvents env (rawDataOf env s.m_useRawAssets k) k
              ++ ((if k ∈ earlier then [] else s.m_deferredResourceListenersMap k).filter
                    (fun l => !l.expired)).map (fun l => Event.onResourceLoaded l k)
              ++ after
            ∧ storageReads before = earlier ∧ storageReads after = later)
      ∧ (∀ k ∈ s.m_deferredQueue, s1.processingResourceListenersMap k = []) := by
  have hempty : ¬ s.m_deferredQueue.isEmpty = true := by
    simpa [List.isEmpty_iff] using hnonempty
  unfold Reentrant.ProcessResourceQueueThreaded at hpass
  rw [if_neg (by simp [hquit]), if_neg hempty] at hpass
  dsimp only at hpass
  cases hp : Reentrant.processQueue cb env s.m_deferredQueue
      { s with
        m_deferredQueue := []
        m_deferredResourceListenersMap := s.processingResourceListenersMap
        processingResourceListenersMap := s.m_deferredResourceListenersMap } with
  | none =>
    rw [hp] at hpass
    cases hpass
  | some s2 =>
    rw [hp] at hpass
    simp only [Option.some.injEq] at hpass
    subst hpass
    obtain ⟨ht, hm⟩ := Reentrant_processQueue_quiet cb env _ _ s2 hquiet hp
    refine ⟨drainEvents env s.m_useRawAssets s.m_deferredResourceListenersMap
        s.m_deferredQueue, ?_, storageReads_drainEvents env _ _ _, ?_, ?_⟩
    · simp only [record, loadsAndCalls_append, loadsAndCalls_notifyOne, List.append_nil]
      exact ht
    · intro earlier k later hsplit
      refine ⟨drainEvents env s.m_useRawAssets s.m_deferredResourceListenersMap earlier,
        drainEvents env s.m_useRawAssets
          (ListenersMap.set (fun j => if j ∈ earlier then []
            else s.m_deferredResourceListenersMap j) k []) later,
        ?_, storageReads_drainEvents env _ _ _, storageReads_drainEvents env _ _ _⟩
      rw [hsplit, drainEvents_append]
      simp only [drainEvents, notifyEvents_eq_map, List.append_assoc]
    · intro k hk
      have := hm k
      simp only [hk, if_true] at this
      exact this

/-! ### The callbacks of the sources are quiet -/

theorem QueueLoad_null_quiet (env : Collaborators) (s s1 : ResourceManager)
    (resourceID : ResourceID) (signalLoaderThread : Bool)
    (h : QueueLoad env s resourceID signalLoaderThread ResourceListenerPtr.null = some s1) :
    loadsAndCalls s1.trace = loadsAndCalls s.trace := by
  have hsignal : loadsAndCalls
      (s.trace ++ (if signalLoaderThread then [Event.notifyOne] else []))
      = loadsAndCalls s.trace := by
    cases signalLoaderThread <;> simp [loadsAndCalls]
  by_cases hvalid : env.IsValid resourceID = true
  · cases hentry : s.m_resourceDatabase.GetEntry resourceID with
    | none =>
      rw [QueueLoad_absent_eq env s resourceID signalLoaderThread _ hvalid hentry] at h
      cases h
      rw [(queueLoadTail_fields _ _ _).2.2.2.2.2.2]
      exact hsignal
    | some e =>
      by_cases hst : e.status = kLoaded ∨ e.status = kLoading
      · rw [QueueLoad_loaded_or_loading_eq env s resourceID signalLoaderThread _ hvalid
          (by rcases hst with h1 | h1 <;> simp [GetLoadStatus, hentry, h1])] at h
        cases h
        simp [notifyListener, ResourceListenerPtr.null]
      · have hl : e.status ≠ kLoaded := fun h1 => hst (Or.inl h1)
        have hg : e.status ≠ kLoading := fun h1 => hst (Or.inr h1)
        obtain ⟨s2, h2, -, -, -, -, -, -, ht⟩ :=
          QueueLoad_unloaded_found env s resourceID signalLoaderThread
            ResourceListenerPtr.null e hvalid hentry hl hg
        rw [h2] at h
        cases h
        rw [ht]
        exact hsignal
  · simp [QueueLoad, hvalid] at h

theorem LockResource_trace (env : Collaborators) (s s1 : ResourceManager)
    (resourceID : ResourceID) (h : LockResource env s resourceID = some s1) :
    s1.trace = s.trace := by
  unfold LockResource at h
  split at h
  · cases h
  · split at h <;>
      · simp only [Option.some.injEq] at h
        subst h
        rfl

theorem UnlockResource_trace (env : Collaborators) (s s1 : ResourceManager)
    (resourceID : ResourceID) (h : UnlockResource env s resourceID = some s1) :
    s1.trace = s.trace := by
  unfold UnlockResource at h
  split at h
  · cases h
  · split at h <;>
      · simp only [Option.some.injEq] at h
        subst h
        rfl

theorem ReleaseResource_trace (env : Collaborators) (s s1 : ResourceManager)
    (resourceID : ResourceID) (h : ReleaseResource env s resourceID = some s1) :
    s1.trace = s.trace := by
  unfold ReleaseResource at h
  split at h
  · cases h
  · split at h
    · simp only [Option.some.injEq] at h
      subst h
      rfl
    · split at h <;>
        · simp only [Option.some.injEq] at h
          subst h
          rfl

theorem holdTexture_quiet (env : Collaborators) (s s1 : ResourceManager)
    (texture : ResourceID) (h : SpritesheetResource.holdTexture env s texture = some s1) :
    loadsAndCalls s1.trace = loadsAndCalls s.trace := by
  unfold SpritesheetResource.holdTexture at h
  cases hq : QueueLoad env (s.acquireHandle texture) texture true ResourceListenerPtr.null with
  | none => simp [hq] at h
  | some s2 =>
    simp only [hq] at h
    rw [LockResource_trace env s2 s1 texture h,
      QueueLoad_null_quiet env _ s2 texture true hq]
    rfl

/-- The calls `SpritesheetResource::Load` makes on the manager write no step of a load and no
call of a listener. -/
theorem SpritesheetResource_Load_quiet (env : Collaborators)
    (parse : Bytes → Option JsonValue) (self self1 : SpritesheetResource) (data : Bytes)
    (s s1 : ResourceManager) (result : LoadResult)
    (h : SpritesheetResource.Load env parse self data s = some (result, self1, s1)) :
    loadsAndCalls s1.trace = loadsAndCalls s.trace := by
  by_cases hdata : data = []
  · subst hdata
    simp only [SpritesheetResource.Load, List.isEmpty_nil, if_true, Option.some.injEq,
      Prod.mk.injEq] at h
    rw [← h.2.2]
  · cases hparse : parse data with
    | none =>
      simp only [SpritesheetResource.Load, List.isEmpty_iff, hdata, if_false, hparse,
        Option.some.injEq, Prod.mk.injEq] at h
      rw [← h.2.2]
    | some jsonDoc =>
      cases jsonDoc with
      | object members =>
        cases htexture : JsonValue.FindMember members "Texture" with
        | none =>
          simp only [SpritesheetResource.Load, List.isEmpty_iff, hdata, if_false, hparse,
            htexture, Option.some.injEq, Prod.mk.injEq] at h
          rw [← h.2.2]
        | some value =>
          cases value with
          | string texture =>
            have hvalid : env.IsValid texture = true := by
              by_cases hv : env.IsValid texture = true
              · exact hv
              · simp [SpritesheetResource.Load, hdata, hparse, htexture, hv] at h
            obtain ⟨s2, s3, hhold, hdrop, heq⟩ :=
              Load_with_texture env parse self data s members texture hdata hparse htexture
                hvalid
            have hs : s1 = s3 := by
              rw [heq] at h
              cases hsprites : JsonValue.FindMember members "Sprites" with
              | none =>
                simp only [hsprites, Option.some.injEq, Prod.mk.injEq] at h
                exact h.2.2.symm
              | some value =>
                cases value with
                | object sprites =>
                  simp only [hsprites] at h
                  cases hloop : SpritesheetResource.loadSprites sprites self.m_sprites with
                  | none => simp [hloop] at h
                  | some m =>
                    simp only [hloop, Option.map_some', Option.some.injEq,
                      Prod.mk.injEq] at h
                    exact h.2.2.symm
                | _ => simp [hsprites] at h
            subst hs
            rw [ReleaseResource_trace env s2 s1 texture hdrop]
            exact holdTexture_quiet env s s2 texture hhold
          | _ => simp [SpritesheetResource.Load, hdata, hparse, htexture] at h
      | _ => simp [SpritesheetResource.Load, hdata, hparse] at h

/-- The calls `GameObject::OnResourceLoaded` makes on the manager write nothing to the trace. -/
theorem GameObject_OnResourceLoaded_trace (env : Collaborators) (resourceID : ResourceID)
    (s s1 : ResourceManager) (h : GameObject.OnResourceLoaded env resourceID s = some s1) :
    s1.trace = s.trace := by
  unfold GameObject.OnResourceLoaded at h
  split at h
  · cases h
  · simp only at h
    split at h
    · cases h
    · split at h
      · cases h
      · split at h
        · cases h
        · rename_i s2 hunlock
          rw [ReleaseResource_trace env s2 s1 resourceID h,
            UnlockResource_trace env _ s2 resourceID hunlock]
          rfl

/-- The decoder of the sheets and the `GameObject` of the examples are quiet. -/
theorem demoCallbacks_quiet : demoCallbacks.Quiet := by
  constructor
  · intro pResource data s s1 h
    unfold demoCallbacks at h
    simp only at h
    split at h
    · cases hload : SpritesheetResource.Load demoEnv demoParse SpritesheetResource.fresh data
          s with
      | none => simp [hload] at h
      | some r =>
        obtain ⟨result, self1, s2⟩ := r
        simp only [hload, Option.map_some', Option.some.injEq] at h
        subst h
        exact SpritesheetResource_Load_quiet demoEnv demoParse _ self1 data s s2 result hload
    · simp only [Option.some.injEq] at h
      subst h
      rfl
  · intro pListener resourceID s s1 h
    unfold demoCallbacks at h
    simp only at h
    split at h
    · rw [GameObject_OnResourceLoaded_trace demoEnv resourceID s s1 h]
    · simp only [Option.some.injEq] at h
      subst h
      rfl

/-- C17, at a concrete input: `sheet` and `a` are queued; the decoder of `sheet` queues and pins
the texture `x`, the listener of `a` is a `GameObject`.  The pass returns, with `x` in the
deferred queue for the next pass. -/
theorem drain_pass_in_queue_order_witness :
    demoSheetQueued.m_quitThread = false
      ∧ demoSheetQueued.m_deferredQueue = ["sheet", "a"]
      ∧ demoCallbacks.Quiet
      ∧ Reentrant.ProcessResourceQueueThreaded demoCallbacks sheetEnv demoSheetQueued
          = some demoSheetDrained
      ∧ demoSheetDrained.m_deferredQueue = ["x"]
      ∧ ∃ evs, loadsAndCalls demoSheetDrained.trace = loadsAndCalls demoSheetQueued.trace ++ evs
        ∧ storageReads evs = demoSheetQueued.m_deferredQueue
        ∧ (∀ earlier k later, demoSheetQueued.m_deferredQueue = earlier ++ k :: later →
            ∃ before after,
              evs = before
                ++ loadEvents sheetEnv (rawDataOf sheetEnv demoSheetQueued.m_useRawAssets k) k
                ++ ((if k ∈ earlier then []
                      else demoSheetQueued.m_deferredResourceListenersMap k).filter
                      (fun l => !l.expired)).map (fun l => Event.onResourceLoaded l k)
                ++ after
              ∧ storageReads before = earlier ∧ storageReads after = later)
        ∧ (∀ k ∈ demoSheetQueued.m_deferredQueue,
            demoSheetDrained.processingResourceListenersMap k = []) :=
  ⟨rfl, rfl, demoCallbacks_quiet, rfl, by decide,
    drain_pass_in_queue_order demoCallbacks sheetEnv demoSheetQueued demoSheetDrained rfl
      (by decide) demoCallbacks_quiet rfl⟩

/-! ## Shutdown with requests queued (C19) -/

/-- C19: the destructor drops what is queued.  When it reaches its wait the deferred queue and
the listener map are empty and the quit flag is set, no entry of the database has changed and
nothing was read, decoded or called.  The loader thread that wakes on its signal finds the quit
flag set and leaves its loop with one more signal: it swaps nothing, loads nothing and calls no
listener, whatever the decoders and listeners would do.  When that signal reaches the wait the
destructor returns: the deferred queue and the listener map are empty, the database is as it
was, and the two signals are all that was written. -/
theorem Destructor_drops_the_queued (cb : Callbacks) (env : Collaborators)
    (s : ResourceManager) :
    s.DestructorClears.m_deferredQueue = []
      ∧ s.DestructorClears.m_deferredResourceListenersMap = ListenersMap.empty
      ∧ (∀ k, s.DestructorClears.m_deferredResourceListenersMap k = [])
      ∧ s.DestructorClears.m_quitThread = true
      ∧ s.DestructorClears.m_resourceDatabase = s.m_resourceDatabase
      ∧ s.DestructorClears.trace = s.trace
      ∧ ProcessResourceQueueThreaded env s.DestructorClears.SignalLoaderThread
          = some { s.DestructorClears with
              trace := s.trace ++ [Event.notifyOne, Event.notifyOne] }
      ∧ Reentrant.ProcessResourceQueueThreaded cb env s.DestructorClears.SignalLoaderThread
          = some { s.DestructorClears with
              trace := s.trace ++ [Event.notifyOne, Event.notifyOne] }
      ∧ Destructor env true s
          = some { s with
              m_deferredQueue := []
              m_deferredResourceListenersMap := ListenersMap.empty
              m_quitThread := true
              trace := s.trace ++ [Event.notifyOne, Event.notifyOne] }
      ∧ loadsAndCalls (s.trace ++ [Event.notifyOne, Event.notifyOne]) = loadsAndCalls s.trace := by
  refine ⟨rfl, rfl, fun _ => rfl, rfl, rfl, rfl, ?_, ?_, (Destructor_eq env s).1, ?_⟩
  · simp [DestructorClears, SignalLoaderThread, ProcessResourceQueueThreaded, record]
  · simp [DestructorClears, SignalLoaderThread, Reentrant.ProcessResourceQueueThreaded, record]
  · simp [loadsAndCalls]

/-! ## Access to an entry that is not Loaded (C16) -/

/-- The manager `LoadResourceInstalled` gives is the manager of `LoadResource` one line before
its end: the load returns it with the status set to Loaded. -/
theorem LoadResource_of_LoadResourceInstalled (env : Collaborators) (s s1 : ResourceManager)
    (resourceID : ResourceID)
    (h : LoadResourceInstalled env s resourceID = some s1) :
    LoadResource env s resourceID
      = some { s1 with
          m_resourceDatabase := s1.m_resourceDatabase.SetLoadStatus resourceID kLoaded } := by
  unfold LoadResourceInstalled at h
  unfold LoadResource
  by_cases hvalid : env.IsValid resourceID = true
  · cases hraw : LoadRawData env s resourceID with
    | none => simp [hvalid, hraw] at h
    | some rawData =>
      by_cases hempty : rawData.isEmpty = true
      · simp [hvalid, hraw, hempty] at h
      · cases hcreate : env.CreateResource resourceID with
        | none => simp [hvalid, hraw, hempty, hcreate] at h
        | some pResource =>
          by_cases hload : ((env.Load pResource rawData).1 != LoadResult.kFailed) = true
          · cases hentry : s.m_resourceDatabase.GetEntry resourceID with
            | none =>
              simp only [hvalid, hraw, hempty, hcreate, hload, record, hentry, Bool.not_true,
                Bool.false_eq_true, if_false, if_true] at h
              cases h
            | some e0 =>
              simp only [hvalid, hraw, hempty, hcreate, hload, record, hentry, Bool.not_true,
                Bool.false_eq_true, if_false, if_true, Option.some.injEq] at h ⊢
              subst h
              rfl
          · simp only [hvalid, hraw, hempty, hcreate, hload, Bool.not_true,
              Bool.false_eq_true, if_false] at h
            cases h
  · simp [hvalid] at h

/-- The entry `LoadResourceInstalled` leaves: the entry it found, with the decoded resource as
payload and the status it had. -/
theorem LoadResourceInstalled_entry (env : Collaborators) (s s1 : ResourceManager)
    (resourceID : ResourceID) (e : ResourceEntry)
    (hentry : s.m_resourceDatabase.GetEntry resourceID = some e)
    (h : LoadResourceInstalled env s resourceID = some s1) :
    ∃ loaded, s1.m_resourceDatabase.GetEntry resourceID = some { e with payload := some loaded }
      ∧ decodedResource env (rawDataOf env s.m_useRawAssets resourceID) resourceID
          = some loaded := by
  unfold LoadResourceInstalled at h
  split at h
  · cases h
  · split at h
    · cases h
    · rename_i rawData hraw
      have hrd : rawDataOf env s.m_useRawAssets resourceID = rawData :=
        (rawDataOf_of_LoadRawData env s resourceID rawData hraw).2
      simp only at h
      split at h
      · cases h
      · rename_i hempty
        split at h
        · cases h
        · rename_i pResource hcreate
          split at h
          · rename_i hload
            split at h
            · cases h
            · rename_i e0 hentry0
              simp only [Option.some.injEq] at h
              subst h
              have he0 : s.m_resourceDatabase.GetEntry resourceID = some e0 := hentry0
              rw [hentry] at he0
              cases he0
              refine ⟨(env.Load pResource rawData).2, ?_, ?_⟩
              · simp only [record, GetEntry_modifyEntry_self, hentry]
                rfl
              · rw [hrd]
                exact (decodedResource_eq_some_iff env rawData resourceID _).2
                  ⟨by simpa [List.isEmpty_iff] using hempty, pResource, hcreate,
                    by simpa using hload, rfl⟩
          · cases h

/-- C16, the claim as it stands, fails: `a` is queued and Loading, and the loader thread loads
it.  When the decoded resource is installed (line 464) and the status is not yet set (line 473)
the entry of `a` is Loading, and `GetResource`, which has no test of the status, returns the
payload that is being installed, not `nullptr`. -/
theorem GetResource_during_load_counterexample :
    LoadResourceInstalled demoEnv (demoLoading "a") "a" = some demoInstalled
      ∧ LoadResource demoEnv (demoLoading "a") "a"
          = some { demoInstalled with
              m_resourceDatabase := demoInstalled.m_resourceDatabase.SetLoadStatus "a" kLoaded }
      ∧ demoEnv.IsValid "a" = true
      ∧ demoInstalled.m_resourceDatabase.GetLoadStatus "a" = some kLoading
      ∧ (GetResource demoEnv demoInstalled "a" false).map Prod.fst
          = some (some { id := "a", contents := [1, 2, 3] })
      ∧ (GetResource demoEnv demoInstalled "a" true).map Prod.fst
          = some (some { id := "a", contents := [1, 2, 3] }) := by
  refine ⟨rfl, LoadResource_of_LoadResourceInstalled demoEnv _ _ "a" rfl, ?_, ?_, ?_, ?_⟩ <;>
    decide

/-- C16, amended: on a valid identifier with an entry, `GetResource` returns the payload pointer
of the entry and leaves the manager as it was, whatever the status and whatever `forceLoad`: it
has no test of the status.  So it returns `nullptr` exactly when the entry has no payload.  In
the states between the calls of the manager an entry that is not Loaded has none, and there the
access fails closed.  Inside a load it does not: once `LoadResource` has installed the decoded
resource and before it sets the status, `GetResource` returns that resource for an entry whose
status is what it was before the load, Loading for a queued one. -/
theorem GetResource_returns_the_payload (env : Collaborators) (s : ResourceManager)
    (resourceID : ResourceID) (forceLoad : Bool) (e : ResourceEntry)
    (hvalid : env.IsValid resourceID = true)
    (hentry : s.m_resourceDatabase.GetEntry resourceID = some e) :
    GetResource env s resourceID forceLoad = some (e.payload, s)
      ∧ (GetResource env s resourceID forceLoad = some (none, s) ↔ e.payload = none)
      ∧ (Reachable env s → e.status ≠ kLoaded →
          GetResource env s resourceID forceLoad = some (none, s))
      ∧ (∀ s1, LoadResourceInstalled env s resourceID = some s1 →
          ∃ loaded, GetResource env s1 resourceID forceLoad = some (some loaded, s1)
            ∧ s1.m_resourceDatabase.GetLoadStatus resourceID = some e.status
            ∧ decodedResource env (rawDataOf env s.m_useRawAssets resourceID) resourceID
                = some loaded
            ∧ LoadResource env s resourceID
                = some { s1 with
                    m_resourceDatabase :=
                      s1.m_resourceDatabase.SetLoadStatus resourceID kLoaded }) := by
  have hget : ∀ (t : ResourceManager) (e1 : ResourceEntry),
      t.m_resourceDatabase.GetEntry resourceID = some e1 →
      GetResource env t resourceID forceLoad = some (e1.payload, t) := by
    intro t e1 h1
    simp [GetResource, hvalid, h1]
  refine ⟨hget s e hentry, ?_, ?_, ?_⟩
  · rw [hget s e hentry]
    constructor
    · intro h
      simp only [Option.some.injEq, Prod.mk.injEq, and_true] at h
      exact h
    · intro h
      rw [h]
  · intro hreach hstatus
    rw [hget s e hentry]
    have hinv := Reachable_PayloadIffLoaded env s hreach resourceID e hentry
    unfold ResourceEntry.PayloadIffLoaded at hinv
    cases hp : e.payload with
    | none => rfl
    | some loaded =>
      exact absurd (hinv.1 (by simp [hp])) hstatus
  · intro s1 h1
    obtain ⟨loaded, he1, hdec⟩ := LoadResourceInstalled_entry env s s1 resourceID e hentry h1
    refine ⟨loaded, ?_, ?_, hdec, LoadResource_of_LoadResourceInstalled env s s1 resourceID h1⟩
    · rw [hget s1 _ he1]
    · simp [GetLoadStatus, he1]

/-- C16, at a concrete input: `a` is Loading and its decoded resource is installed; `GetResource`
returns it. -/
theorem GetResource_returns_the_payload_witness :
    demoEnv.IsValid "a" = true
      ∧ demoInstalled.m_resourceDatabase.GetEntry "a"
          = some { status := kLoading, referenceCount := 0, lockCount := 0,
                   payload := some { id := "a", contents := [1, 2, 3] } }
      ∧ GetResource demoEnv demoInstalled "a" false
          = some (some { id := "a", contents := [1, 2, 3] }, demoInstalled) :=
  ⟨by decide, by decide,
    (GetResource_returns_the_payload demoEnv demoInstalled "a" false
      { status := kLoading, referenceCount := 0, lockCount := 0,
        payload := some { id := "a", contents := [1, 2, 3] } } (by decide) (by decide)).1⟩

/-! ## The sort of the render commands, with floats (C28) -/

theorem Float32_lt_iff (a b : Float32) (ha : a.isNaN = false) (hb : b.isNaN = false) :
    Float32.lt a b = true
      ↔ a.place.1 < b.place.1 ∨ (a.place.1 = b.place.1 ∧ a.place.2 < b.place.2) := by
  cases a with
  | nan => simp [Float32.isNaN] at ha
  | inf sa =>
    cases b with
    | nan => simp [Float32.isNaN] at hb
    | inf sb => cases sa <;> cases sb <;> simp [Float32.lt, Float32.place]
    | finite n => cases sa <;> simp [Float32.lt, Float32.place]
  | finite m =>
    cases b with
    | nan => simp [Float32.isNaN] at hb
    | inf sb => cases sb <;> simp [Float32.lt, Float32.place]
    | finite n => simp [Float32.lt, Float32.place]

theorem Float32_ne_iff (a b : Float32) (ha : a.isNaN = false) (hb : b.isNaN = false) :
    Float32.ne a b = true ↔ ¬ (a.place.1 = b.place.1 ∧ a.place.2 = b.place.2) := by
  cases a with
  | nan => simp [Float32.isNaN] at ha
  | inf sa =>
    cases b with
    | nan => simp [Float32.isNaN] at hb
    | inf sb => cases sa <;> cases sb <;> simp [Float32.ne, Float32.place]
    | finite n => cases sa <;> simp [Float32.ne, Float32.place]
  | finite m =>
    cases b with
    | nan => simp [Float32.isNaN] at hb
    | inf sb => cases sb <;> simp [Float32.ne, Float32.place]
    | finite n => simp [Float32.ne, Float32.place]

/-- On commands whose compared floats are numbers `operator<` is the order of the triples (Z,
bottom, `x`), first difference first. -/
theorem Floating_less_iff (a b : Floating.RenderCommand)
    (ha : a.comparesNumbers = true) (hb : b.comparesNumbers = true) :
    Floating.RenderCommand.less a b = true
      ↔ a.m_zOrder < b.m_zOrder
        ∨ (a.m_zOrder = b.m_zOrder
          ∧ ((Float32.add a.m_destinationFrame.y a.m_destinationFrame.h).place.1
                < (Float32.add b.m_destinationFrame.y b.m_destinationFrame.h).place.1
            ∨ ((Float32.add a.m_destinationFrame.y a.m_destinationFrame.h).place.1
                  = (Float32.add b.m_destinationFrame.y b.m_destinationFrame.h).place.1
                ∧ (Float32.add a.m_destinationFrame.y a.m_destinationFrame.h).place.2
                  < (Float32.add b.m_destinationFrame.y b.m_destinationFrame.h).place.2)
            ∨ ((Float32.add a.m_destinationFrame.y a.m_destinationFrame.h).place.1
                  = (Float32.add b.m_destinationFrame.y b.m_destinationFrame.h).place.1
                ∧ (Float32.add a.m_destinationFrame.y a.m_destinationFrame.h).place.2
                  = (Float32.add b.m_destinationFrame.y b.m_destinationFrame.h).place.2
                ∧ (a.m_destinationFrame.x.place.1 < b.m_destinationFrame.x.place.1
                  ∨ (a.m_destinationFrame.x.place.1 = b.m_destinationFrame.x.place.1
                    ∧ a.m_destinationFrame.x.place.2 < b.m_destinationFrame.x.place.2))))) := by
  unfold Floating.RenderCommand.comparesNumbers at ha hb
  simp only [Bool.and_eq_true, Bool.not_eq_true', ] at ha hb
  have hL := Float32_lt_iff _ _ ha.1 hb.1
  have hN := Float32_ne_iff _ _ ha.1 hb.1
  have hX := Float32_lt_iff _ _ ha.2 hb.2
  unfold Floating.RenderCommand.less
  by_cases hz : a.m_zOrder = b.m_zOrder
  · simp only [hz, bne_self_eq_false, Bool.false_eq_true, if_false, lt_self_iff_false,
      true_and, false_or]
    by_cases hne : Float32.ne (Float32.add a.m_destinationFrame.y a.m_destinationFrame.h)
        (Float32.add b.m_destinationFrame.y b.m_destinationFrame.h) = true
    · rw [if_pos hne, hL]
      have hne1 := hN.1 hne
      constructor
      · intro h
        rcases h with h | h
        · exact Or.inl h
        · exact Or.inr (Or.inl h)
      · intro h
        rcases h with h | h | h
        · exact Or.inl h
        · exact Or.inr h
        · exact absurd ⟨h.1, h.2.1⟩ hne1
    · rw [if_neg hne, hX]
      have hne1 : ¬ ¬ _ := fun h => hne (hN.2 h)
      have heq := not_not.1 hne1
      constructor
      · intro h
        exact Or.inr (Or.inr ⟨heq.1, heq.2, h⟩)
      · intro h
        rcases h with h | h | h
        · omega
        · omega
        · exact h.2.2
  · have hzb : (a.m_zOrder != b.m_zOrder) = true := by simpa using hz
    rw [if_pos hzb]
    simp only [decide_eq_true_eq]
    constructor
    · intro h
      exact Or.inl h
    · intro h
      rcases h with h | h
      · exact h
      · exact absurd h.1 hz

theorem Floating_less_eq_false_iff (a b : Floating.RenderCommand) :
    Floating.RenderCommand.less a b = false ↔ ¬ Floating.RenderCommand.less a b = true := by
  simp

/-- On a buffer whose compared floats are numbers `operator<` is a strict weak order. -/
theorem Floating_less_strictWeakOn (buffer : List Floating.RenderCommand)
    (hnum : ∀ c ∈ buffer, c.comparesNumbers = true) :
    Floating.RenderManager.StrictWeakOn Floating.RenderCommand.less buffer := by
  refine ⟨?_, ?_, ?_⟩
  · intro a ha
    rw [Floating_less_eq_false_iff, Floating_less_iff a a (hnum a ha) (hnum a ha)]
    omega
  · intro a ha b hb c hc hab hbc
    rw [Floating_less_iff a b (hnum a ha) (hnum b hb)] at hab
    rw [Floating_less_iff b c (hnum b hb) (hnum c hc)] at hbc
    rw [Floating_less_iff a c (hnum a ha) (hnum c hc)]
    omega
  · intro a ha b hb c hc hab hba hbc hcb
    rw [Floating_less_eq_false_iff, Floating_less_iff _ _ (hnum _ ha) (hnum _ hb)] at hab
    rw [Floating_less_eq_false_iff, Floating_less_iff _ _ (hnum _ hb) (hnum _ ha)] at hba
    rw [Floating_less_eq_false_iff, Floating_less_iff _ _ (hnum _ hb) (hnum _ hc)] at hbc
    rw [Floating_less_eq_false_iff, Floating_less_iff _ _ (hnum _ hc) (hnum _ hb)] at hcb
    rw [Floating_less_eq_false_iff, Floating_less_iff _ _ (hnum _ ha) (hnum _ hc),
      Floating_less_eq_false_iff, Floating_less_iff _ _ (hnum _ hc) (hnum _ ha)]
    omega

/-- Under a strict weak order, of two elements one is not below the other. -/
theorem StrictWeakOn_total (comp : Floating.RenderCommand → Floating.RenderCommand → Bool)
    (buffer : List Floating.RenderCommand)
    (h : Floating.RenderManager.StrictWeakOn comp buffer)
    (a b : Floating.RenderCommand) (ha : a ∈ buffer) (hb : b ∈ buffer) :
    comp b a = false ∨ comp a b = false := by
  cases hba : comp b a with
  | false => exact Or.inl rfl
  | true =>
    cases hab : comp a b with
    | false => exact Or.inr rfl
    | true =>
      have := h.2.1 a ha b hb a ha hab hba
      rw [h.1 a ha] at this
      cases this

/-- Under a strict weak order, not being above is transitive. -/
theorem StrictWeakOn_trans (comp : Floating.RenderCommand → Floating.RenderCommand → Bool)
    (buffer : List Floating.RenderCommand)
    (h : Floating.RenderManager.StrictWeakOn comp buffer)
    (a b c : Floating.RenderCommand) (ha : a ∈ buffer) (hb : b ∈ buffer) (hc : c ∈ buffer)
    (hba : comp b a = false) (hcb : comp c b = false) : comp c a = false := by
  cases hca : comp c a with
  | false => rfl
  | true =>
    cases hab : comp a b with
    | true =>
      have := h.2.1 c hc a ha b hb hca hab
      rw [hcb] at this
      cases this
    | false =>
      cases hbc : comp b c with
      | true =>
        have := h.2.1 b hb c hc a ha hbc hca
        rw [hba] at this
        cases this
      | false =>
        have := (h.2.2 a ha b hb c hc hab hba hbc hcb).2
        rw [hca] at this
        cases this

/-- Inserting into a sorted list keeps it sorted, when the relation is total and transitive
between the new element and the elements of the list. -/
theorem orderedInsert_sorted_on {α : Type} (r : α → α → Prop) [DecidableRel r]
    (a : α) (l : List α) (hl : l.Pairwise r)
    (htotal : ∀ b ∈ l, ¬ r a b → r b a)
    (htrans : ∀ b ∈ l, ∀ c ∈ l, r a b → r b c → r a c) :
    (l.orderedInsert r a).Pairwise r := by
  induction l with
  | nil => simp
  | cons b t ih =>
    rw [List.pairwise_cons] at hl
    by_cases hab : r a b
    · simp only [List.orderedInsert, hab, if_true]
      refine List.pairwise_cons.2 ⟨?_, List.pairwise_cons.2 hl⟩
      intro c hc
      rcases List.mem_cons.1 hc with h | h
      · rw [h]
        exact hab
      · exact htrans b (List.mem_cons_self _ _) c (List.mem_cons_of_mem _ h) hab (hl.1 c h)
    · simp only [List.orderedInsert, hab, if_false]
      refine List.pairwise_cons.2 ⟨?_, ih hl.2
        (fun c hc => htotal c (List.mem_cons_of_mem _ hc))
        (fun c hc d hd => htrans c (List.mem_cons_of_mem _ hc) d (List.mem_cons_of_mem _ hd))⟩
      intro c hc
      rcases (List.mem_orderedInsert r).1 hc with h | h
      · rw [h]
        exact htotal b (List.mem_cons_self _ _) hab
      · exact hl.1 c h

/-- Insertion sort sorts a list among whose elements the relation is total and transitive. -/
theorem insertionSort_sorted_on {α : Type} (r : α → α → Prop) [DecidableRel r]
    (l : List α)
    (htotal : ∀ a ∈ l, ∀ b ∈ l, r a b ∨ r b a)
    (htrans : ∀ a ∈ l, ∀ b ∈ l, ∀ c ∈ l, r a b → r b c → r a c) :
    (l.insertionSort r).Pairwise r := by
  induction l with
  | nil => simp
  | cons a t ih =>
    simp only [List.insertionSort]
    apply orderedInsert_sorted_on
    · exact ih (fun b hb c hc => htotal b (List.mem_cons_of_mem _ hb) c
          (List.mem_cons_of_mem _ hc))
        (fun b hb c hc d hd => htrans b (List.mem_cons_of_mem _ hb) c
          (List.mem_cons_of_mem _ hc) d (List.mem_cons_of_mem _ hd))
    · intro b hb hab
      have hb1 : b ∈ t := (List.mem_insertionSort r).1 hb
      rcases htotal a (List.mem_cons_self _ _) b (List.mem_cons_of_mem _ hb1) with h | h
      · exact absurd h hab
      · exact h
    · intro b hb c hc
      exact htrans a (List.mem_cons_self _ _) b
        (List.mem_cons_of_mem _ ((List.mem_insertionSort r).1 hb)) c
        (List.mem_cons_of_mem _ ((List.mem_insertionSort r).1 hc))

/-- Insertion sort keeps the promise of `eastl::sort` with the `operator<` of floats. -/
theorem Floating_insertionSortByLess_isSort :
    Floating.RenderManager.IsSort Floating.RenderCommand.less
      Floating.RenderManager.insertionSortByLess := by
  intro buffer hweak
  refine ⟨List.perm_insertionSort _ buffer, ?_⟩
  unfold Floating.RenderManager.insertionSortByLess
  apply insertionSort_sorted_on
  · intro a ha b hb
    exact StrictWeakOn_total _ buffer hweak a b ha hb
  · intro a ha b hb c hc hab hbc
    exact StrictWeakOn_trans _ buffer hweak a b c ha hb hc hab hbc

/-- The texture lambda says `false` exactly when the left texture is not below the right one. -/
theorem Floating_textureLess_eq_false_iff (a b : Floating.RenderCommand) :
    Floating.RenderManager.textureLess b a = false ↔ a.m_texture ≤ b.m_texture := by
  unfold Floating.RenderManager.textureLess
  by_cases h : b.m_texture = a.m_texture
  · simp [h]
  · simp only [bne_iff_ne, ne_eq, h, not_false_eq_true, if_true, decide_eq_false_iff_not, not_lt]

/-- After the texture pass the textures do not go down. -/
theorem Floating_stable_sort_textureLess_sorted (buffer : List Floating.RenderCommand) :
    (Floating.RenderManager.stable_sort Floating.RenderManager.textureLess buffer).Pairwise
      (fun a b => a.m_texture ≤ b.m_texture) := by
  have h := insertionSort_sorted_on
    (fun a b => Floating.RenderManager.textureLess b a = false) buffer
    (fun a _ b _ => by
      simp only [Floating_textureLess_eq_false_iff]
      exact le_total _ _)
    (fun a _ b _ c _ hab hbc => by
      simp only [Floating_textureLess_eq_false_iff] at hab hbc ⊢
      exact le_trans hab hbc)
  exact List.Pairwise.imp (fun {a b} hab => (Floating_textureLess_eq_false_iff a b).1 hab) h

/-- Inserting an element into a list keeps a relation pairwise when the element has it to every
element of the list, and the elements it is put behind have it to the element. -/
theorem orderedInsert_pairwise_of {α : Type} (r P : α → α → Prop) [DecidableRel r]
    (a : α) (l : List α)
    (hl : l.Pairwise P) (hafter : ∀ b ∈ l, P a b) (hbefore : ∀ b ∈ l, ¬ r a b → P b a) :
    (l.orderedInsert r a).Pairwise P := by
  induction l with
  | nil => simp
  | cons b t ih =>
    rw [List.pairwise_cons] at hl
    by_cases hab : r a b
    · simp only [List.orderedInsert, hab, if_true]
      exact List.pairwise_cons.2 ⟨hafter, List.pairwise_cons.2 hl⟩
    · simp only [List.orderedInsert, hab, if_false]
      refine List.pairwise_cons.2 ⟨?_, ih hl.2 (fun c hc => hafter c (List.mem_cons_of_mem _ hc))
        (fun c hc => hbefore c (List.mem_cons_of_mem _ hc))⟩
      intro c hc
      rcases (List.mem_orderedInsert r).1 hc with h | h
      · rw [h]
        exact hbefore b (List.mem_cons_self _ _) hab
      · exact hl.1 c h

/-- The texture pass is stable: two commands of one texture that were in order before it are in
order after it. -/
theorem Floating_stable_sort_textureLess_keeps
    (P : Floating.RenderCommand → Floating.RenderCommand → Prop)
    (buffer : List Floating.RenderCommand) (hP : buffer.Pairwise P) :
    (Floating.RenderManager.stable_sort Floating.RenderManager.textureLess buffer).Pairwise
      (fun a b => a.m_texture = b.m_texture → P a b) := by
  unfold Floating.RenderManager.stable_sort
  induction buffer with
  | nil => simp
  | cons a l ih =>
    rw [List.pairwise_cons] at hP
    simp only [List.insertionSort]
    apply orderedInsert_pairwise_of
    · exact ih hP.2
    · intro b hb _
      exact hP.1 b ((List.mem_insertionSort _).1 hb)
    · intro b _ hab heq
      exact absurd ((Floating_textureLess_eq_false_iff a b).2 (le_of_eq heq.symm)) hab

/-- C28, the claim as it stands, fails: three commands of one texture, Z order and bottom, with
`x` = 2, not a number, 1.  With a float that is not a number `operator<` is no strict weak
order on the buffer: the second command is neither below nor above the other two, of which the
third is below the first.  Insertion sort, which keeps the promise of `eastl::sort`, leaves the
buffer as it is, and so does the texture pass: the command with `x` = 1 comes out after the
command with `x` = 2, of the same texture, though it is smaller under `operator<`. -/
theorem SortRenderCommands_nan_counterexample :
    Floating.RenderManager.IsSort Floating.RenderCommand.less
        Floating.RenderManager.insertionSortByLess
      ∧ ¬ Floating.RenderManager.StrictWeakOn Floating.RenderCommand.less Floating.demoNaNBuffer
      ∧ Floating.RenderManager.SortRenderCommands Floating.RenderManager.insertionSortByLess
            Floating.demoNaNBuffer
          = [Floating.demoCommand "a" 0 (Float32.ofInt 2) (Float32.ofInt 0) (Float32.ofInt 1),
             Floating.demoCommand "a" 0 Float32.nan (Float32.ofInt 0) (Float32.ofInt 1),
             Floating.demoCommand "a" 0 (Float32.ofInt 1) (Float32.ofInt 0) (Float32.ofInt 1)]
      ∧ Floating.RenderCommand.less
            (Floating.demoCommand "a" 0 (Float32.ofInt 1) (Float32.ofInt 0) (Float32.ofInt 1))
            (Floating.demoCommand "a" 0 (Float32.ofInt 2) (Float32.ofInt 0) (Float32.ofInt 1))
          = true
      ∧ ¬ (Floating.RenderManager.SortRenderCommands Floating.RenderManager.insertionSortByLess
            Floating.demoNaNBuffer).Pairwise
          (fun a b => a.m_texture = b.m_texture → Floating.RenderCommand.less b a = false) := by
  refine ⟨Floating_insertionSortByLess_isSort, ?_, ?_, ?_, ?_⟩
  · intro h
    have h1 := (h.2.2
      (Floating.demoCommand "a" 0 (Float32.ofInt 1) (Float32.ofInt 0) (Float32.ofInt 1))
      (by simp [Floating.demoNaNBuffer])
      (Floating.demoCommand "a" 0 Float32.nan (Float32.ofInt 0) (Float32.ofInt 1))
      (by simp [Floating.demoNaNBuffer])
      (Floating.demoCommand "a" 0 (Float32.ofInt 2) (Float32.ofInt 0) (Float32.ofInt 1))
      (by simp [Floating.demoNaNBuffer])
      (by decide) (by decide) (by decide) (by decide)).1
    revert h1
    decide
  · decide
  · decide
  · decide

/-- C28, amended: for every buffer in which the floats `operator<` compares, `y + h` and `x`,
are numbers, and whatever `eastl::sort` makes of it within its promise, `SortRenderCommands`
yields a permutation of the buffer in which the textures do not go down, in which of two
commands with one texture the later one is not smaller under `operator<` (Z, then the float sum
`y + h`, then `x`), and in which the commands between two commands of one texture have that
texture too: the commands of a texture stand together, in `operator<` order. -/
theorem SortRenderCommands_groups_numbers_by_texture
    (sort : List Floating.RenderCommand → List Floating.RenderCommand)
    (hsort : Floating.RenderManager.IsSort Floating.RenderCommand.less sort)
    (buffer : List Floating.RenderCommand)
    (hnum : ∀ c ∈ buffer, c.comparesNumbers = true) :
    (Floating.RenderManager.SortRenderCommands sort buffer).Perm buffer
      ∧ (Floating.RenderManager.SortRenderCommands sort buffer).Pairwise
          (fun a b => a.m_texture ≤ b.m_texture)
      ∧ (Floating.RenderManager.SortRenderCommands sort buffer).Pairwise
          (fun a b => a.m_texture = b.m_texture → Floating.RenderCommand.less b a = false)
      ∧ (∀ front middle back a b,
          Floating.RenderManager.SortRenderCommands sort buffer
            = front ++ a :: middle ++ b :: back →
          a.m_texture = b.m_texture → ∀ c ∈ middle, c.m_texture = a.m_texture) := by
  obtain ⟨hperm, hsorted⟩ := hsort buffer (Floating_less_strictWeakOn buffer hnum)
  have htex := Floating_stable_sort_textureLess_sorted (sort buffer)
  refine ⟨(List.perm_insertionSort _ _).trans hperm, htex,
    Floating_stable_sort_textureLess_keeps _ (sort buffer) hsorted, ?_⟩
  intro front middle back a b hsplit hab c hc
  unfold Floating.RenderManager.SortRenderCommands at hsplit
  rw [hsplit] at htex
  have h1 : (a :: middle ++ b :: back).Pairwise (fun a b => a.m_texture ≤ b.m_texture) :=
    (List.pairwise_append.1 (by simpa using htex)).2.1
  have hac : a.m_texture ≤ c.m_texture :=
    (List.pairwise_cons.1 h1).1 c (List.mem_append_left _ hc)
  have h2 : (middle ++ b :: back).Pairwise (fun a b => a.m_texture ≤ b.m_texture) :=
    (List.pairwise_cons.1 h1).2
  have hcb : c.m_texture ≤ b.m_texture :=
    (List.pairwise_append.1 h2).2.2 c hc b (List.mem_cons_self _ _)
  exact le_antisymm (hab ▸ hcb) hac

/-- C28, at a concrete input: five commands of two textures, sorted first by insertion.  The
bottoms `16777216 + 1` and `16777216 + 0` are the same float, so of these two commands the one
with the smaller `x` is the smaller. -/
theorem SortRenderCommands_groups_numbers_by_texture_witness :
    Floating.RenderManager.IsSort Floating.RenderCommand.less
        Floating.RenderManager.insertionSortByLess
      ∧ (∀ c ∈ Floating.demoBuffer, c.comparesNumbers = true)
      ∧ Float32.add (Float32.ofInt 16777216) (Float32.ofInt 1) = Float32.ofInt 16777216
      ∧ Floating.RenderCommand.less
          (Floating.demoCommand "a" 0 (Float32.ofInt 2) (Float32.ofInt 16777216)
            (Float32.ofInt 0))
          (Floating.demoCommand "a" 0 (Float32.ofInt 5) (Float32.ofInt 16777216)
            (Float32.ofInt 1)) = true
      ∧ (Floating.RenderManager.SortRenderCommands Floating.RenderManager.insertionSortByLess
            Floating.demoBuffer).Perm Floating.demoBuffer
      ∧ (Floating.RenderManager.SortRenderCommands Floating.RenderManager.insertionSortByLess
            Floating.demoBuffer).Pairwise (fun a b => a.m_texture ≤ b.m_texture)
      ∧ (Floating.RenderManager.SortRenderCommands Floating.RenderManager.insertionSortByLess
            Floating.demoBuffer).Pairwise
          (fun a b => a.m_texture = b.m_texture → Floating.RenderCommand.less b a = false)
      ∧ (∀ front middle back a b,
          Floating.RenderManager.SortRenderCommands Floating.RenderManager.insertionSortByLess
              Floating.demoBuffer
            = front ++ a :: middle ++ b :: back →
          a.m_texture = b.m_texture → ∀ c ∈ middle, c.m_texture = a.m_texture) :=
  ⟨Floating_insertionSortByLess_isSort, by decide, by decide, by decide,
    SortRenderCommands_groups_numbers_by_texture Floating.RenderManager.insertionSortByLess
      Floating_insertionSortByLess_isSort Floating.demoBuffer (by decide)⟩

end Exelius
